import Mathlib

/-!
# Necro-OS: the possession / escalation core

A shallow embedding of `src/stores/advancedHaunting.js` (the Pinia store) and
`src/utils/gameplayService.js` (the gameplay service singleton).

Modelling conventions.

* JavaScript numbers are exact rationals (`ℚ`), without IEEE rounding, `NaN` or the
  infinities, except where a claim turns on them: `increasePossessionDouble` carries out
  the sums of `increasePossession` as doubles, and `JsNumber` adds `NaN` and the
  infinities for `setPossessionLevel`.  `Date.now()` is an explicit argument `now`,
  read once per call.
* `undefined` queue fields (`_queuedPossessionIncrease`, `_queuedPossessionDecrease`)
  are the number `0`: the source only ever tests them for falsiness.
* A `Set` of strings is the list of its elements in insertion order, a `Map` the list
  of its entries in insertion order.
* `JSON.parse (JSON.stringify v)` is the identity on `Json` values, so `localStorage`
  holds `Json` values; whether `setItem` accepts a value is an environment oracle.
* `window.dispatchEvent` and the DOM overlays append to logs; `console.*` is dropped.
* Timers are flags (scheduled or not); Vue watchers run asynchronously and are not
  part of a synchronous call: a watcher callback is a function of its own, applied to
  the pair of new and old value.
* A value drawn from `Math.random()` is an explicit argument.
-/

namespace NecroOS

/-! ## Values -/

/-- JSON values, as produced by `JSON.parse`. -/
inductive Json where
  | null
  | bool (b : Bool)
  | num (n : ℚ)
  | str (s : String)
  | arr (xs : List Json)
  | obj (fields : List (String × Json))

/-- Property access `value[key]` for the property names used by the store; `none` is
`undefined`. -/
def Json.get : Json → String → Option Json
  | .obj fields, key => (fields.find? (fun f => f.1 == key)).map (fun f => f.2)
  | _, _ => none

/-- JavaScript truthiness of a JSON value. -/
def Json.truthy : Json → Bool
  | .null => false
  | .bool b => b
  | .num n => decide (n ≠ 0)
  | .str s => decide (s ≠ "")
  | .arr _ => true
  | .obj _ => true

/-- An optional number as JSON (`null` when absent). -/
def Json.ofOptNum : Option ℚ → Json
  | none => .null
  | some n => .num n

/-- An optional string as JSON (`undefined` is rendered as `null`). -/
def Json.ofOptStr : Option String → Json
  | none => .null
  | some s => .str s

/-- The four endings of `endingReached`. -/
inductive Ending where
  | survivor
  | consumed
  | purified
  | possessed
deriving DecidableEq, Repr

/-- The string literal of an ending. -/
def Ending.toString : Ending → String
  | .survivor => "survivor"
  | .consumed => "consumed"
  | .purified => "purified"
  | .possessed => "possessed"

/-- Membership test `['survivor', 'consumed', 'purified', 'possessed'].includes(s)`,
returning the ending. -/
def Ending.ofString (s : String) : Option Ending :=
  if s = "survivor" then some .survivor
  else if s = "consumed" then some .consumed
  else if s = "purified" then some .purified
  else if s = "possessed" then some .possessed
  else none

/-- An optional ending as JSON. -/
def Json.ofOptEnding : Option Ending → Json
  | none => .null
  | some e => .str e.toString

/-! ## JavaScript `Set` and `Map` -/

/-- `Set.prototype.add`. -/
def setAdd {α : Type} [DecidableEq α] (s : List α) (x : α) : List α :=
  if x ∈ s then s else s ++ [x]

/-- `new Set(iterable)`. -/
def setOf {α : Type} [DecidableEq α] (xs : List α) : List α :=
  xs.foldl setAdd []

/-- `Map.prototype.get`. -/
def mapGet (m : List (String × ℚ)) (k : String) : Option ℚ :=
  (m.find? (fun e => e.1 == k)).map (fun e => e.2)

/-- `Map.prototype.set`: an existing key keeps its position. -/
def mapSet (m : List (String × ℚ)) (k : String) (v : ℚ) : List (String × ℚ) :=
  if m.any (fun e => e.1 == k) then m.map (fun e => if e.1 == k then (k, v) else e)
  else m ++ [(k, v)]

/-- `new Map(entries)`. -/
def mapOf (es : List (String × ℚ)) : List (String × ℚ) :=
  es.foldl (fun m e => mapSet m e.1 e.2) []

/-- `Array.prototype.slice(-n)`. -/
def sliceLast {α : Type} (n : Nat) (xs : List α) : List α :=
  xs.drop (xs.length - n)

/-! ## The store state -/

/-- The `customization` object. -/
structure Customization where
  scareIntensity : ℚ
  enabledBehaviors : List String
  theme : String
  reducedMotion : Bool
  visualCuesForAudio : Bool

/-- The `statistics` object. -/
structure Statistics where
  totalSessions : ℚ
  totalTimeSurvived : ℚ
  exorcismsPerformed : ℚ
  jumpscaresSeen : List String
  eventsHistory : List Json
  maxPossessionReached : ℚ
  totalPossessionIncreases : ℚ
  totalPossessionDecreases : ℚ
  achievementsUnlocked : ℚ
  easterEggsFound : ℚ
  endingsReached : List Ending

/-- The state of `useAdvancedHauntingStore`.  `_possessionTimer` and
`_saveDebounceTimer` record whether the timer is scheduled. -/
structure Store where
  possessionLevel : ℚ
  difficulty : String
  sessionStartTime : Option ℚ
  exorcismCooldowns : List (String × ℚ)
  discoveredEasterEggs : List String
  achievements : List String
  endingReached : Option Ending
  customization : Customization
  statistics : Statistics
  _possessionTimer : Bool
  _saveDebounceTimer : Bool
  detectedUserName : Option String
  _lastPossessionUpdateTime : ℚ
  _queuedPossessionIncrease : ℚ
  _queuedPossessionDecrease : ℚ

/-- The state field `_possessionUpdateThrottle: 1000`, which no action assigns. -/
def _possessionUpdateThrottle : ℚ := 1000

/-- The default `customization`. -/
def Customization.default : Customization :=
  { scareIntensity := 100
    enabledBehaviors := ["possessedApps", "audioHaunting", "visualCorruption"]
    theme := "default"
    reducedMotion := false
    visualCuesForAudio := true }

/-- The default `statistics`. -/
def Statistics.default : Statistics :=
  { totalSessions := 0
    totalTimeSurvived := 0
    exorcismsPerformed := 0
    jumpscaresSeen := []
    eventsHistory := []
    maxPossessionReached := 0
    totalPossessionIncreases := 0
    totalPossessionDecreases := 0
    achievementsUnlocked := 0
    easterEggsFound := 0
    endingsReached := [] }

/-- The initial state returned by `state: () => (...)`. -/
def Store.fresh : Store :=
  { possessionLevel := 0
    difficulty := "normal"
    sessionStartTime := none
    exorcismCooldowns := []
    discoveredEasterEggs := []
    achievements := []
    endingReached := none
    customization := Customization.default
    statistics := Statistics.default
    _possessionTimer := false
    _saveDebounceTimer := false
    detectedUserName := none
    _lastPossessionUpdateTime := 0
    _queuedPossessionIncrease := 0
    _queuedPossessionDecrease := 0 }

/-! ## Getters -/

/-- Getter `isExorcismOnCooldown(actionType)`. -/
def isExorcismOnCooldown (now : ℚ) (s : Store) (actionType : String) : Bool :=
  match mapGet s.exorcismCooldowns actionType with
  | none => false
  | some lastPerformed =>
    if lastPerformed = 0 then false
    else decide (now - lastPerformed < 120000)

/-! ## Core possession management -/

/-- Action `recordEvent(eventType, data)`. -/
def recordEvent (now : ℚ) (eventType : String) (data : Json) (s : Store) : Store :=
  let event := Json.obj [("type", .str eventType), ("timestamp", .num now), ("data", data)]
  let pushed := s.statistics.eventsHistory ++ [event]
  let limited := if pushed.length > 100 then sliceLast 100 pushed else pushed
  { s with statistics := { s.statistics with eventsHistory := limited } }

/-- Action `debouncedSave()`: (re)schedules the 5000 ms save timer. -/
def debouncedSave (s : Store) : Store :=
  { s with _saveDebounceTimer := true }

/-- Action `increasePossession(amount)`; returns the level it returns.  The sums are taken
exactly; `increasePossessionDouble` below is the action with its sums rounded as doubles. -/
def increasePossession (now amount : ℚ) (s : Store) : ℚ × Store :=
  if now - s._lastPossessionUpdateTime < _possessionUpdateThrottle then
    let queued := if s._queuedPossessionIncrease = 0 then 0 else s._queuedPossessionIncrease
    (s.possessionLevel, { s with _queuedPossessionIncrease := queued + amount })
  else
    let amount1 :=
      if s._queuedPossessionIncrease ≠ 0 then amount + s._queuedPossessionIncrease else amount
    let s1 : Store :=
      if s._queuedPossessionIncrease ≠ 0 then { s with _queuedPossessionIncrease := 0 } else s
    let oldLevel := s1.possessionLevel
    let s2 : Store := { s1 with possessionLevel := min 100 (s1.possessionLevel + amount1) }
    if s2.possessionLevel ≠ oldLevel then
      let s3 : Store :=
        { s2 with statistics :=
            { s2.statistics with
              totalPossessionIncreases := s2.statistics.totalPossessionIncreases + 1 } }
      let s4 : Store :=
        if s3.possessionLevel > s3.statistics.maxPossessionReached then
          { s3 with statistics :=
              { s3.statistics with maxPossessionReached := s3.possessionLevel } }
        else s3
      let s5 := recordEvent now "possession_increase"
        (.obj [("amount", .num amount1), ("oldLevel", .num oldLevel),
               ("newLevel", .num s4.possessionLevel)]) s4
      let s6 := debouncedSave s5
      let s7 : Store := { s6 with _lastPossessionUpdateTime := now }
      (s7.possessionLevel, s7)
    else
      (s2.possessionLevel, s2)

/-- Action `decreasePossession(amount)`; returns the level it returns. -/
def decreasePossession (now amount : ℚ) (s : Store) : ℚ × Store :=
  if now - s._lastPossessionUpdateTime < _possessionUpdateThrottle then
    let queued := if s._queuedPossessionDecrease = 0 then 0 else s._queuedPossessionDecrease
    (s.possessionLevel, { s with _queuedPossessionDecrease := queued + amount })
  else
    let amount1 :=
      if s._queuedPossessionDecrease ≠ 0 then amount + s._queuedPossessionDecrease else amount
    let s1 : Store :=
      if s._queuedPossessionDecrease ≠ 0 then { s with _queuedPossessionDecrease := 0 } else s
    let oldLevel := s1.possessionLevel
    let s2 : Store := { s1 with possessionLevel := max 0 (s1.possessionLevel - amount1) }
    if s2.possessionLevel ≠ oldLevel then
      let s3 : Store :=
        { s2 with statistics :=
            { s2.statistics with
              totalPossessionDecreases := s2.statistics.totalPossessionDecreases + 1 } }
      let s4 := recordEvent now "possession_decrease"
        (.obj [("amount", .num amount1), ("oldLevel", .num oldLevel),
               ("newLevel", .num s3.possessionLevel)]) s3
      let s5 := debouncedSave s4
      let s6 : Store := { s5 with _lastPossessionUpdateTime := now }
      (s6.possessionLevel, s6)
    else
      (s2.possessionLevel, s2)

/-- Action `setPossessionLevel(level)` at a finite number `level`; what the action assigns
at `NaN` and at the infinities is `assignedPossessionLevel` below. -/
def setPossessionLevel (level : ℚ) (s : Store) : Store :=
  debouncedSave { s with possessionLevel := max 0 (min 100 level) }

/-! ## The gameplay service state and the environment -/

/-- An element of `cursedFiles` (its `type` is always `'file'`, `isCursed` always true). -/
structure CursedFile where
  id : String
  name : String
  path : String
  possessionValue : ℚ
  createdAt : ℚ

/-- The object stored in `currentPuzzle`. -/
structure Puzzle where
  id : String
  sequence : List String
  length : ℚ
  timeLimit : ℚ
  createdAt : ℚ
  difficulty : String

/-- An element of `exorcismHistory`. -/
structure ExorcismRecord where
  type : String
  timestamp : ℚ

/-- The fields of the `GameplayService` singleton. -/
structure GameplayService where
  cursedFiles : List CursedFile
  cursedFileIdCounter : ℚ
  currentPuzzle : Option Puzzle
  initialized : Bool
  exorcismHistory : List ExorcismRecord

/-- The state set up by the `GameplayService` constructor. -/
def GameplayService.fresh : GameplayService :=
  { cursedFiles := []
    cursedFileIdCounter := 0
    currentPuzzle := none
    initialized := false
    exorcismHistory := [] }

/-- What `localStorage.setItem` does with a value. -/
inductive SetItemResult where
  | ok
  | quotaExceeded
  | otherError

/-- A string held by `localStorage`: the empty string, one that `JSON.parse` rejects, or
the value it parses to. -/
inductive StoredItem where
  | empty
  | corrupt
  | json (value : Json)

/-- The store, the gameplay service and what they act on: the two `localStorage` keys,
the behaviour of `localStorage.setItem`, the log of `window.dispatchEvent` calls
(event name and `detail`) and the log of DOM overlays. -/
structure World where
  store : Store
  service : GameplayService
  savedProgress : Option StoredItem
  consumedWarning : Option StoredItem
  setItem : Json → SetItemResult
  dispatched : List (String × Json)
  overlays : List String

/-- A fresh store and service, empty `localStorage` that accepts every write. -/
def World.fresh : World :=
  { store := Store.fresh
    service := GameplayService.fresh
    savedProgress := none
    consumedWarning := none
    setItem := fun _ => .ok
    dispatched := []
    overlays := [] }

/-- The call `window.dispatchEvent(new CustomEvent(name, (detail)))`. -/
def dispatchEvent (name : String) (detail : Json) (w : World) : World :=
  { w with dispatched := w.dispatched ++ [(name, detail)] }

/-! ## Persistence: saving -/

/-- An array of strings, `Array.from(set)`. -/
def Json.ofStrings (xs : List String) : Json :=
  .arr (xs.map .str)

/-- The array `Array.from(map.entries())`. -/
def Json.ofEntries (m : List (String × ℚ)) : Json :=
  .arr (m.map (fun e => .arr [.str e.1, .num e.2]))

/-- The `customization` part of the snapshot. -/
def customizationData (c : Customization) : Json :=
  .obj [("scareIntensity", .num c.scareIntensity),
        ("enabledBehaviors", .ofStrings c.enabledBehaviors),
        ("theme", .str c.theme),
        ("reducedMotion", .bool c.reducedMotion),
        ("visualCuesForAudio", .bool c.visualCuesForAudio)]

/-- The `statistics` part of the snapshot, with the given events history. -/
def statisticsData (eventsHistory : List Json) (st : Statistics) : Json :=
  .obj [("totalSessions", .num st.totalSessions),
        ("totalTimeSurvived", .num st.totalTimeSurvived),
        ("exorcismsPerformed", .num st.exorcismsPerformed),
        ("jumpscaresSeen", .ofStrings st.jumpscaresSeen),
        ("eventsHistory", .arr eventsHistory),
        ("maxPossessionReached", .num st.maxPossessionReached),
        ("totalPossessionIncreases", .num st.totalPossessionIncreases),
        ("totalPossessionDecreases", .num st.totalPossessionDecreases),
        ("achievementsUnlocked", .num st.achievementsUnlocked),
        ("easterEggsFound", .num st.easterEggsFound),
        ("endingsReached", .ofStrings (st.endingsReached.map Ending.toString))]

/-- The snapshot object of `saveToLocalStorage`, with the given events history. -/
def snapshotWith (eventsHistory : List Json) (s : Store) : Json :=
  .obj [("possessionLevel", .num s.possessionLevel),
        ("difficulty", .str s.difficulty),
        ("sessionStartTime", .ofOptNum s.sessionStartTime),
        ("exorcismCooldowns", .ofEntries s.exorcismCooldowns),
        ("discoveredEasterEggs", .ofStrings s.discoveredEasterEggs),
        ("achievements", .ofStrings s.achievements),
        ("endingReached", .ofOptEnding s.endingReached),
        ("customization", customizationData s.customization),
        ("statistics", statisticsData eventsHistory s.statistics)]

/-- The object `data` of `saveToLocalStorage`. -/
def snapshotData (s : Store) : Json :=
  snapshotWith s.statistics.eventsHistory s

/-- The object `compressedData` of `saveToLocalStorage`. -/
def compressedData (s : Store) : Json :=
  snapshotWith [] s

/-- The object `minimalData` of `saveToLocalStorage`. -/
def minimalData (s : Store) : Json :=
  .obj [("possessionLevel", .num s.possessionLevel),
        ("difficulty", .str s.difficulty),
        ("statistics",
          .obj [("totalSessions", .num s.statistics.totalSessions),
                ("totalTimeSurvived", .num s.statistics.totalTimeSurvived),
                ("exorcismsPerformed", .num s.statistics.exorcismsPerformed)])]

/-- Action `saveToLocalStorage()` with its quota fallbacks. -/
def saveToLocalStorage (w : World) : World :=
  match w.setItem (snapshotData w.store) with
  | .ok => { w with savedProgress := some (.json (snapshotData w.store)) }
  | .otherError => w
  | .quotaExceeded =>
    match w.setItem (compressedData w.store) with
    | .ok => { w with savedProgress := some (.json (compressedData w.store)) }
    | _ =>
      match w.setItem (minimalData w.store) with
      | .ok => { w with savedProgress := some (.json (minimalData w.store)) }
      | _ => w

/-! ## Difficulty, session and endings -/

/-- Action `setDifficulty(mode)`. -/
def setDifficulty (mode : String) (w : World) : World :=
  if mode ∉ ["tourist", "normal", "nightmare", "permadeath"] then w
  else
    let s1 : Store := { w.store with difficulty := mode }
    let s2 : Store :=
      if mode = "nightmare" ∧ s1.possessionLevel = 0 then { s1 with possessionLevel := 40 }
      else s1
    saveToLocalStorage { w with store := s2 }

/-- Action `stopPossessionEscalation()`. -/
def stopPossessionEscalation (s : Store) : Store :=
  if s._possessionTimer then { s with _possessionTimer := false } else s

/-- The truthy value of `sessionStartTime`, if it has one. -/
def sessionStart (s : Store) : Option ℚ :=
  match s.sessionStartTime with
  | some t => if t = 0 then none else some t
  | none => none

/-- The function `Math.round`. -/
def mathRound (x : ℚ) : ℚ :=
  ((Int.floor (x + 1 / 2) : ℤ) : ℚ)

/-- Action `endSession()`. -/
def endSession (now : ℚ) (w : World) : World :=
  let s1 : Store :=
    match sessionStart w.store with
    | some t =>
      let sessionDuration := now - t
      let s : Store :=
        { w.store with statistics :=
            { w.store.statistics with
              totalTimeSurvived := w.store.statistics.totalTimeSurvived + sessionDuration } }
      recordEvent now "session_end"
        (.obj [("duration", .num (mathRound (sessionDuration / 1000))),
               ("finalPossession", .num s.possessionLevel),
               ("exorcismsPerformed", .num s.statistics.exorcismsPerformed),
               ("ending", .ofOptEnding s.endingReached)]) s
    | none => w.store
  saveToLocalStorage { w with store := stopPossessionEscalation s1 }

/-- Action `triggerEnding(endingType)`. -/
def triggerEnding (now : ℚ) (endingType : Ending) (w : World) : World :=
  let s1 : Store := { w.store with endingReached := some endingType }
  let s2 : Store :=
    { s1 with statistics :=
        { s1.statistics with
          endingsReached := setAdd s1.statistics.endingsReached endingType } }
  let sessionDuration : ℚ :=
    match sessionStart s2 with
    | some t => now - t
    | none => 0
  let s3 := recordEvent now "ending_reached"
    (.obj [("ending", .str endingType.toString),
           ("possessionLevel", .num s2.possessionLevel),
           ("sessionDuration", .num sessionDuration)]) s2
  let w1 := endSession now { w with store := s3 }
  let w2 := saveToLocalStorage w1
  dispatchEvent "necro-ending-reached" (.obj [("ending", .str endingType.toString)]) w2

/-- Action `checkEndingConditions()`; returns the ending it returns (`none` is `null`). -/
def checkEndingConditions (now : ℚ) (w : World) : Option Ending × World :=
  match w.store.endingReached with
  | some e => (some e, w)
  | none =>
    if w.store.possessionLevel ≥ 100 then
      (some .possessed, triggerEnding now .possessed w)
    else
      match sessionStart w.store with
      | none => (none, w)
      | some t =>
        if w.store.possessionLevel = 0 ∧ now - t ≥ 300000 then
          (some .purified, triggerEnding now .purified w)
        else if now - t ≥ 1800000 ∧ w.store.possessionLevel < 50 then
          (some .survivor, triggerEnding now .survivor w)
        else
          (none, w)

/-- Action `unlockAchievement(achievementId, name, description)` of the store. -/
def unlockAchievement (now : ℚ) (achievementId : String) (name description : Option String)
    (w : World) : Bool × World :=
  if achievementId ∈ w.store.achievements then (false, w)
  else
    let s1 : Store := { w.store with achievements := setAdd w.store.achievements achievementId }
    let s2 : Store :=
      { s1 with statistics :=
          { s1.statistics with achievementsUnlocked := s1.statistics.achievementsUnlocked + 1 } }
    let s3 := recordEvent now "achievement_unlocked"
      (.obj [("achievementId", .str achievementId), ("name", .ofOptStr name),
             ("description", .ofOptStr description)]) s2
    let w1 := dispatchEvent "necro-achievement-unlocked"
      (.obj [("id", .str achievementId), ("name", .ofOptStr name),
             ("description", .ofOptStr description)]) { w with store := s3 }
    (true, { w1 with store := debouncedSave w1.store })

/-! ## Persistence: loading -/

/-- The test `typeof v === 'object'` on a truthy value: objects and arrays. -/
def Json.isObject : Json → Bool
  | .obj _ => true
  | .arr _ => true
  | _ => false

/-- Truthiness of a property that may be `undefined`. -/
def truthy? : Option Json → Bool
  | some v => v.truthy
  | none => false

/-- The string elements of an array: `filter(x => typeof x === 'string')`. -/
def stringsOf (xs : List Json) : List String :=
  xs.filterMap (fun x => match x with
    | .str s => some s
    | _ => none)

/-- One element of the saved cooldown array under the destructuring filter
`([key, value]) => typeof key === 'string' && typeof value === 'number'`: `none` when
destructuring throws (the element is not iterable), otherwise the entry kept, if any. -/
def cooldownEntry : Json → Option (Option (String × ℚ))
  | .arr (.str k :: .num v :: _) => some (some (k, v))
  | .arr _ => some none
  | .str _ => some none
  | _ => none

/-- The filter over the saved cooldown array; `none` when it throws. -/
def cooldownEntries : List Json → Option (List (String × ℚ))
  | [] => some []
  | e :: rest =>
    match cooldownEntry e with
    | none => none
    | some kept =>
      match cooldownEntries rest with
      | none => none
      | some es => some (kept.toList ++ es)

/-- The filter `event && typeof event === 'object' && event.type && event.timestamp`. -/
def isStoredEvent (event : Json) : Bool :=
  event.truthy && event.isObject && truthy? (event.get "type") &&
    truthy? (event.get "timestamp")

/-- Restoring the `customization` object in `loadFromLocalStorage`. -/
def loadCustomization (data : Json) (c : Customization) : Customization :=
  match data.get "customization" with
  | none => c
  | some cd =>
    if !(cd.truthy && cd.isObject) then c
    else
      let c1 : Customization :=
        match cd.get "scareIntensity" with
        | some (.num n) => { c with scareIntensity := max 0 (min 100 n) }
        | _ => c
      let c2 : Customization :=
        match cd.get "enabledBehaviors" with
        | some (.arr xs) =>
          { c1 with enabledBehaviors := setOf ((stringsOf xs).filter (fun b =>
              decide (b ∈ ["possessedApps", "audioHaunting", "visualCorruption"]))) }
        | _ => c1
      let c3 : Customization :=
        match cd.get "theme" with
        | some (.str t) =>
          if t ∈ ["default", "hospital", "asylum", "cemetery"] then { c2 with theme := t }
          else c2
        | _ => c2
      let c4 : Customization :=
        match cd.get "reducedMotion" with
        | some (.bool b) => { c3 with reducedMotion := b }
        | _ => c3
      match cd.get "visualCuesForAudio" with
      | some (.bool b) => { c4 with visualCuesForAudio := b }
      | _ => c4

/-- A numeric statistic restored as `Math.max(0, value)`, or kept. -/
def loadCounter (sd : Json) (key : String) (current : ℚ) : ℚ :=
  match sd.get key with
  | some (.num n) => max 0 n
  | _ => current

/-- Restoring the `statistics` object in `loadFromLocalStorage`. -/
def loadStatistics (data : Json) (st : Statistics) : Statistics :=
  match data.get "statistics" with
  | none => st
  | some sd =>
    if !(sd.truthy && sd.isObject) then st
    else
      { totalSessions := loadCounter sd "totalSessions" st.totalSessions
        totalTimeSurvived := loadCounter sd "totalTimeSurvived" st.totalTimeSurvived
        exorcismsPerformed := loadCounter sd "exorcismsPerformed" st.exorcismsPerformed
        jumpscaresSeen :=
          match sd.get "jumpscaresSeen" with
          | some (.arr xs) => setOf (stringsOf xs)
          | _ => st.jumpscaresSeen
        eventsHistory :=
          match sd.get "eventsHistory" with
          | some (.arr xs) => sliceLast 100 (xs.filter isStoredEvent)
          | _ => st.eventsHistory
        maxPossessionReached :=
          match sd.get "maxPossessionReached" with
          | some (.num n) => max 0 (min 100 n)
          | _ => st.maxPossessionReached
        totalPossessionIncreases :=
          loadCounter sd "totalPossessionIncreases" st.totalPossessionIncreases
        totalPossessionDecreases :=
          loadCounter sd "totalPossessionDecreases" st.totalPossessionDecreases
        achievementsUnlocked := loadCounter sd "achievementsUnlocked" st.achievementsUnlocked
        easterEggsFound := loadCounter sd "easterEggsFound" st.easterEggsFound
        endingsReached :=
          match sd.get "endingsReached" with
          | some (.arr xs) => setOf ((stringsOf xs).filterMap Ending.ofString)
          | _ => st.endingsReached }

/-- Step of `loadFromLocalStorage`: validate and restore the possession level. -/
def restorePossessionLevel (data : Json) (s : Store) : Store :=
  match data.get "possessionLevel" with
  | some (.num n) => { s with possessionLevel := max 0 (min 100 n) }
  | _ => s

/-- Step of `loadFromLocalStorage`: validate and restore the difficulty. -/
def restoreDifficulty (data : Json) (s : Store) : Store :=
  match data.get "difficulty" with
  | some (.str d) =>
    if d ∈ ["tourist", "normal", "nightmare", "permadeath"] then { s with difficulty := d }
    else s
  | _ => s

/-- Step of `loadFromLocalStorage`: validate and restore the session start time. -/
def restoreSessionStartTime (data : Json) (s : Store) : Store :=
  match data.get "sessionStartTime" with
  | some (.num t) => if t > 0 then { s with sessionStartTime := some t } else s
  | _ => s

/-- Step of `loadFromLocalStorage`: validate and restore the exorcism cooldowns. -/
def restoreCooldowns (data : Json) (s : Store) : Store :=
  match data.get "exorcismCooldowns" with
  | some (.arr xs) =>
    match cooldownEntries xs with
    | some es => { s with exorcismCooldowns := mapOf es }
    | none => s
  | _ => s

/-- Step of `loadFromLocalStorage`: validate and restore the discovered easter eggs. -/
def restoreEasterEggs (data : Json) (s : Store) : Store :=
  match data.get "discoveredEasterEggs" with
  | some (.arr xs) => { s with discoveredEasterEggs := setOf (stringsOf xs) }
  | _ => s

/-- Step of `loadFromLocalStorage`: validate and restore the achievements. -/
def restoreAchievements (data : Json) (s : Store) : Store :=
  match data.get "achievements" with
  | some (.arr xs) => { s with achievements := setOf (stringsOf xs) }
  | _ => s

/-- Step of `loadFromLocalStorage`: validate and restore the ending reached. -/
def restoreEnding (data : Json) (s : Store) : Store :=
  match data.get "endingReached" with
  | some (.str e) =>
    match Ending.ofString e with
    | some ending => { s with endingReached := some ending }
    | none => s
  | _ => s

/-- The field-by-field restore of `loadFromLocalStorage` from the parsed object, in the
order of the source. -/
def restore (data : Json) (s : Store) : Store :=
  let s1 := restorePossessionLevel data s
  let s2 := restoreDifficulty data s1
  let s3 := restoreSessionStartTime data s2
  let s4 := restoreCooldowns data s3
  let s5 := restoreEasterEggs data s4
  let s6 := restoreAchievements data s5
  let s7 := restoreEnding data s6
  let s8 : Store := { s7 with customization := loadCustomization data s7.customization }
  { s8 with statistics := loadStatistics data s8.statistics }

/-- Whether converting a value made by `JSON.parse` to a primitive throws a `TypeError`.
No property of such a value is callable, so a plain object converts (through the inherited
`toString`) unless it has an own property named `toString`, and an array converts through
`join`, which converts each of its elements. -/
def Json.toPrimitiveThrows : Json → Bool
  | .obj fields => fields.any (fun f => f.1 == "toString")
  | .arr xs => xs.attach.any (fun x => Json.toPrimitiveThrows x.1)
  | _ => false
termination_by value => sizeOf value
decreasing_by
  simp_wf
  have := List.sizeOf_lt_of_mem x.2
  omega

/-- Whether the callback that `getStatistics()` maps over the recent events throws on an
event: reading a property of `null` throws, and so does `new Date(event.timestamp)` when
the timestamp cannot be converted to a primitive. -/
def eventThrows (event : Json) : Bool :=
  match event with
  | .null => true
  | _ =>
    match event.get "timestamp" with
    | some timestamp => timestamp.toPrimitiveThrows
    | none => false

/-- Whether `getStatistics()` throws: of its steps only
`eventsHistory.slice(-10).map(..)` can. -/
def getStatisticsThrows (s : Store) : Bool :=
  (sliceLast 10 s.statistics.eventsHistory).any eventThrows

/-- Action `loadFromLocalStorage()`; returns the boolean it returns.  The loader ends with
`console.log(.., this.getStatistics())` inside its `try`: when that call throws, the fields
have been restored already and the loader returns false. -/
def loadFromLocalStorage (w : World) : Bool × World :=
  match w.savedProgress with
  | none => (false, w)
  | some .empty => (false, w)
  | some .corrupt => (false, { w with savedProgress := none })
  | some (.json data) =>
    if !(data.truthy && data.isObject) then (false, w)
    else
      let w1 : World := { w with store := restore data w.store }
      if getStatisticsThrows w1.store then (false, w1) else (true, w1)

/-! ## The gameplay service -/

namespace GameplayService

/-- The table `achievementDefinitions`: id, name, description, icon, in key order. -/
def achievementDefinitions : List (String × String × String × String) :=
  [("exorcist", "Exorcist", "Perform 5 exorcisms within 180 seconds", "✝️"),
   ("paranormal-investigator", "Paranormal Investigator", "Discover all easter eggs", "🔍")]

/-- Method `recordExorcism(type)`. -/
def recordExorcism (now : ℚ) (type : String) (g : GameplayService) : GameplayService :=
  let timestamp := now
  let pushed := g.exorcismHistory ++ [{ type := type, timestamp := timestamp }]
  let cutoff := timestamp - 180000
  { g with exorcismHistory := pushed.filter (fun e => decide (e.timestamp > cutoff)) }

/-- Method `checkExorcistCondition()`. -/
def checkExorcistCondition (g : GameplayService) : Bool :=
  if g.exorcismHistory.length ≥ 5 then
    match sliceLast 5 g.exorcismHistory with
    | [oldest, _, _, _, newest] => decide (newest.timestamp - oldest.timestamp ≤ 180000)
    | _ => false
  else false

/-- Method `checkParanormalInvestigatorCondition()`. -/
def checkParanormalInvestigatorCondition (s : Store) : Bool :=
  let allEasterEggs := ["konami-code", "notepad-help", "possession-66", "secret-coordinate"]
  let discoveredCount :=
    (allEasterEggs.filter (fun eggId => decide (eggId ∈ s.discoveredEasterEggs))).length
  decide (discoveredCount = allEasterEggs.length)

/-- Method `unlockAchievement(achievementId)` of the gameplay service.  The lookup
`achievementDefinitions[achievementId]` is the lookup among the table's own keys: ids that
name a property inherited from `Object.prototype` are outside the model. -/
def unlockAchievement (now : ℚ) (achievementId : String) (w : World) : Bool × World :=
  match achievementDefinitions.find? (fun d => d.1 == achievementId) with
  | none => (false, w)
  | some (_, name, description, icon) =>
    if achievementId ∈ w.store.achievements then (false, w)
    else
      let s1 : Store :=
        { w.store with achievements := setAdd w.store.achievements achievementId }
      let s2 : Store :=
        { s1 with statistics :=
            { s1.statistics with
              achievementsUnlocked := s1.statistics.achievementsUnlocked + 1 } }
      let s3 := recordEvent now "achievement_unlocked"
        (.obj [("achievementId", .str achievementId), ("name", .str name),
               ("description", .str description)]) s2
      let w1 := dispatchEvent "achievement-unlocked"
        (.obj [("achievementId", .str achievementId), ("name", .str name),
               ("description", .str description), ("icon", .str icon),
               ("timestamp", .num now)]) { w with store := s3 }
      (true, saveToLocalStorage w1)

/-- The condition closure of an achievement definition. -/
def condition (achievementId : String) (w : World) : Bool :=
  if achievementId = "exorcist" then checkExorcistCondition w.service
  else checkParanormalInvestigatorCondition w.store

/-- Method `checkAchievements()`: the loop over `Object.entries(achievementDefinitions)`. -/
def checkAchievements (now : ℚ) (w : World) : World :=
  achievementDefinitions.foldl
    (fun w d =>
      if d.1 ∈ w.store.achievements then w
      else if condition d.1 w then (unlockAchievement now d.1 w).2
      else w)
    w

/-- Method `triggerExorcismFlash()`. -/
def triggerExorcismFlash (w : World) : World :=
  { w with overlays := w.overlays ++ ["exorcism-flash"] }

/-- Method `triggerCleansingEffect()`. -/
def triggerCleansingEffect (w : World) : World :=
  { w with overlays := w.overlays ++ ["cleansing"] }

/-- A cursed file as the `detail.file` of the deletion event. -/
def fileData (f : CursedFile) : Json :=
  .obj [("id", .str f.id), ("name", .str f.name), ("path", .str f.path),
        ("type", .str "file"), ("isCursed", .bool true),
        ("possessionValue", .num f.possessionValue), ("createdAt", .num f.createdAt)]

/-- The steps shared by the three exorcisms after the checks: reduce the level, set the
cooldown, count and record the exorcism. -/
def applyExorcism (now : ℚ) (kind : String) (reductionAmount : ℚ) (w : World) : World :=
  let s1 := (decreasePossession now reductionAmount w.store).2
  let s2 : Store := { s1 with exorcismCooldowns := mapSet s1.exorcismCooldowns kind now }
  let s3 : Store :=
    { s2 with statistics :=
        { s2.statistics with exorcismsPerformed := s2.statistics.exorcismsPerformed + 1 } }
  { w with store := s3, service := recordExorcism now kind w.service }

/-- Method `deleteCursedFile(fileId)`. -/
def deleteCursedFile (now : ℚ) (fileId : String) (w : World) : Bool × World :=
  match w.service.cursedFiles.findIdx? (fun f => f.id == fileId) with
  | none => (false, w)
  | some fileIndex =>
    match w.service.cursedFiles.get? fileIndex with
    | none => (false, w)
    | some file =>
      if isExorcismOnCooldown now w.store "file" then (false, w)
      else
        let w1 : World :=
          { w with service :=
              { w.service with cursedFiles := w.service.cursedFiles.eraseIdx fileIndex } }
        let reductionAmount := file.possessionValue
        let w2 := applyExorcism now "file" reductionAmount w1
        let w3 : World :=
          { w2 with store := (recordEvent now "exorcism_file"
              (.obj [("fileName", .str file.name), ("reductionAmount", .num reductionAmount),
                     ("remainingPossession", .num w2.store.possessionLevel)]) w2.store) }
        let w4 := dispatchEvent "cursed-file-deleted"
          (.obj [("file", fileData file), ("reductionAmount", .num reductionAmount)]) w3
        (true, checkAchievements now w4)

/-- The code points that `String.prototype.trim` removes (WhiteSpace and
LineTerminator). -/
def isTrimmed (c : Char) : Bool :=
  c.toNat ∈ [0x9, 0xA, 0xB, 0xC, 0xD, 0x20, 0xA0, 0x1680, 0x2000, 0x2001, 0x2002, 0x2003,
    0x2004, 0x2005, 0x2006, 0x2007, 0x2008, 0x2009, 0x200A, 0x2028, 0x2029, 0x202F, 0x205F,
    0x3000, 0xFEFF]

/-- The method `String.prototype.trim`, on the list of characters. -/
def trim (cs : List Char) : List Char :=
  ((cs.dropWhile isTrimmed).reverse.dropWhile isTrimmed).reverse

/-- The expression `phrase.toLowerCase().trim()`.  Lower-casing is the ASCII one: no
other character lower-cases to a letter of the phrase compared against. -/
def normalizedPhrase (phrase : String) : List Char :=
  trim (phrase.data.map Char.toLower)

/-- Method `performTextExorcism(phrase)`. -/
def performTextExorcism (now : ℚ) (phrase : String) (w : World) : Bool × World :=
  if isExorcismOnCooldown now w.store "text" then (false, w)
  else if normalizedPhrase phrase = "begone spirit".data then
    let reductionAmount : ℚ := 15
    let w1 := applyExorcism now "text" reductionAmount w
    let w2 : World :=
      { w1 with store := (recordEvent now "exorcism_text"
          (.obj [("phrase", .str phrase), ("reductionAmount", .num reductionAmount),
                 ("remainingPossession", .num w1.store.possessionLevel)]) w1.store) }
    let w3 := triggerExorcismFlash w2
    let w4 := if w3.store.possessionLevel < 30 then triggerCleansingEffect w3 else w3
    let w5 := dispatchEvent "text-exorcism-performed"
      (.obj [("reductionAmount", .num reductionAmount)]) w4
    (true, checkAchievements now w5)
  else (false, w)

/-- Method `validatePuzzleSolution(puzzleId, solution)`. -/
def validatePuzzleSolution (now : ℚ) (puzzleId : String) (solution : Json)
    (g : GameplayService) : Bool × GameplayService :=
  match g.currentPuzzle with
  | none => (false, g)
  | some puzzle =>
    if puzzle.id ≠ puzzleId then (false, g)
    else if now - puzzle.createdAt > 30000 then (false, { g with currentPuzzle := none })
    else
      match solution with
      | .arr xs =>
        if xs.length ≠ puzzle.sequence.length then (false, g)
        else if (List.zip xs puzzle.sequence).all
            (fun p => match p.1 with
              | .str x => x == p.2
              | _ => false) then
          (true, { g with currentPuzzle := none })
        else (false, g)
      | _ => (false, g)

/-- The object returned by `performPuzzleExorcism`. -/
inductive PuzzleOutcome where
  | failure (reason : String)
  | success (reductionAmount : ℚ)

/-- Method `performPuzzleExorcism(puzzleId, solution)`. -/
def performPuzzleExorcism (now : ℚ) (puzzleId : String) (solution : Json) (w : World) :
    PuzzleOutcome × World :=
  if isExorcismOnCooldown now w.store "puzzle" then (.failure "cooldown", w)
  else
    let (isValid, g1) := validatePuzzleSolution now puzzleId solution w.service
    let w0 : World := { w with service := g1 }
    if !isValid then (.failure "incorrect", w0)
    else
      let reductionAmount : ℚ := 20
      let w1 := applyExorcism now "puzzle" reductionAmount w0
      let w2 : World :=
        { w1 with store := (recordEvent now "exorcism_puzzle"
            (.obj [("puzzleId", .str puzzleId), ("reductionAmount", .num reductionAmount),
                   ("remainingPossession", .num w1.store.possessionLevel)]) w1.store) }
      let w3 := triggerExorcismFlash w2
      let w4 := if w3.store.possessionLevel < 30 then triggerCleansingEffect w3 else w3
      let w5 := dispatchEvent "puzzle-exorcism-performed"
        (.obj [("reductionAmount", .num reductionAmount), ("puzzleId", .str puzzleId)]) w4
      (.success reductionAmount, checkAchievements now w5)

end GameplayService

/-! ## Seasonal events and the escalation tick -/

/-- What the store reads from `new Date()`: the local calendar fields (`getMonth`,
`getDate`, `getDay`, `getHours`, `getMinutes`) and the epoch time `getTime`. -/
structure JsDate where
  month : ℕ
  date : ℕ
  day : ℕ
  hours : ℕ
  minutes : ℕ
  time : ℚ

/-- The object returned by `getCurrentSeasonalEvent`; an absent property is `none`. -/
structure SeasonalEvent where
  type : String
  name : String
  icon : String
  description : String
  possessionMultiplier : Option ℚ
  jumpscareModifier : Option Bool
  hauntingMultiplier : Option ℚ
  intervalMultiplier : Option ℚ
  active : Bool

/-- The Halloween event object. -/
def halloweenEvent : SeasonalEvent :=
  { type := "halloween", name := "Halloween", icon := "🎃",
    description := "The veil between worlds is thinnest",
    possessionMultiplier := some 2, jumpscareModifier := none, hauntingMultiplier := none,
    intervalMultiplier := none, active := true }

/-- The Friday the 13th event object. -/
def friday13Event : SeasonalEvent :=
  { type := "friday13", name := "Friday the 13th", icon := "🔪",
    description := "Unlucky day brings dark omens",
    possessionMultiplier := none, jumpscareModifier := some true, hauntingMultiplier := none,
    intervalMultiplier := none, active := true }

/-- The Witching Hour event object. -/
def witchingHourEvent : SeasonalEvent :=
  { type := "witchingHour", name := "Witching Hour", icon := "🕯️",
    description := "The hour of dark magic",
    possessionMultiplier := none, jumpscareModifier := none, hauntingMultiplier := some (3 / 2),
    intervalMultiplier := none, active := true }

/-- The Full Moon event object. -/
def fullMoonEvent : SeasonalEvent :=
  { type := "fullMoon", name := "Full Moon", icon := "🌕",
    description := "Spirits are restless tonight",
    possessionMultiplier := none, jumpscareModifier := none, hauntingMultiplier := none,
    intervalMultiplier := some (3 / 4), active := true }

/-- The JavaScript remainder `x % 1`: `x` minus its truncation towards zero. -/
def remOne (x : ℚ) : ℚ :=
  if 0 ≤ x then x - ((Int.floor x : ℤ) : ℚ) else x - ((Int.ceil x : ℤ) : ℚ)

/-- The value `new Date('2023-01-06').getTime()`. -/
def knownFullMoon : ℚ := 1672963200000

/-- The constant `lunarCycle` of `calculateMoonPhase`, in exact arithmetic. -/
def lunarCycle : ℚ := 2953059 / 100000 * 24 * 60 * 60 * 1000

/-- Action `calculateMoonPhase(date)`, in exact arithmetic. -/
def calculateMoonPhase (date : JsDate) : ℚ :=
  let timeSinceKnownFullMoon := date.time - knownFullMoon
  let cyclesSince := timeSinceKnownFullMoon / lunarCycle
  let currentPhase := remOne cyclesSince
  abs (1 - abs (currentPhase * 2 - 1)) * 2

/-- Action `getCurrentSeasonalEvent()`, with `now = new Date()` as argument. -/
def getCurrentSeasonalEvent (now : JsDate) : Option SeasonalEvent :=
  if now.month = 9 ∧ now.date = 31 then some halloweenEvent
  else if now.day = 5 ∧ now.date = 13 then some friday13Event
  else if now.hours = 3 ∧ now.minutes ≥ 33 ∧ now.minutes < 34 then some witchingHourEvent
  else if calculateMoonPhase now ≥ 95 / 100 ∧ calculateMoonPhase now ≤ 105 / 100 then
    some fullMoonEvent
  else none

/-- Getter `difficultyMultiplier`. -/
def difficultyMultiplier (s : Store) : ℚ :=
  if s.difficulty = "tourist" then 1 / 2
  else if s.difficulty = "normal" then 3 / 2
  else if s.difficulty = "nightmare" then 3
  else if s.difficulty = "permadeath" then 3 / 2
  else 3 / 2

/-- Getter `possessionIncreaseRate`. -/
def possessionIncreaseRate (s : Store) : ℚ :=
  let baseRate := difficultyMultiplier s
  baseRate

/-- Truthiness of an optional number property. -/
def truthyNum : Option ℚ → Bool
  | some n => decide (n ≠ 0)
  | none => false

/-- Action `applySeasonalModifiers(baseAmount)`, at the date `now`. -/
def applySeasonalModifiers (now : JsDate) (baseAmount : ℚ) : ℚ :=
  match getCurrentSeasonalEvent now with
  | none => baseAmount
  | some event =>
    let modifiedAmount1 :=
      if truthyNum event.possessionMultiplier then
        baseAmount * event.possessionMultiplier.getD 0
      else baseAmount
    let modifiedAmount2 :=
      if truthyNum event.hauntingMultiplier then
        modifiedAmount1 * event.hauntingMultiplier.getD 0
      else modifiedAmount1
    modifiedAmount2

/-- The amount that the escalation tick passes to `increasePossession`. -/
def escalationAmount (date : JsDate) (s : Store) : ℚ :=
  applySeasonalModifiers date (possessionIncreaseRate s)

/-- The callback that `startPossessionEscalation` schedules every 60000 ms. -/
def escalationTick (now : ℚ) (date : JsDate) (s : Store) : ℚ × Store :=
  let baseAmount := possessionIncreaseRate s
  let modifiedAmount := applySeasonalModifiers date baseAmount
  increasePossession now modifiedAmount s

/-! ## Clearing progress -/

/-- Action `clearProgress()`. -/
def clearProgress (now : ℚ) (w : World) : World :=
  let s1 : Store :=
    { w.store with
      possessionLevel := 0
      difficulty := "normal"
      sessionStartTime := none
      exorcismCooldowns := []
      discoveredEasterEggs := []
      achievements := []
      endingReached := none
      customization := Customization.default
      statistics := Statistics.default }
  { w with savedProgress := none, store := recordEvent now "progress_cleared" (.obj []) s1 }

/-! ## Easter eggs -/

/-- The test `allEasterEggs.every(egg => this.discoveredEasterEggs.has(egg))` of
`checkParanormalInvestigatorAchievement`. -/
def allDiscovered (s : Store) : Bool :=
  let allEasterEggs := ["konami_code", "secret_phrase", "secret_coordinate", "secret_wallpaper"]
  allEasterEggs.all (fun egg => decide (egg ∈ s.discoveredEasterEggs))

/-- Action `checkParanormalInvestigatorAchievement()`. -/
def checkParanormalInvestigatorAchievement (now : ℚ) (w : World) : World :=
  if allDiscovered w.store = true ∧ "paranormal_investigator" ∉ w.store.achievements then
    (unlockAchievement now "paranormal_investigator" (some "Paranormal Investigator")
      (some "Discovered all easter eggs") w).2
  else w

/-- Action `discoverEasterEgg(eggId)`; returns the boolean it returns. -/
def discoverEasterEgg (now : ℚ) (eggId : String) (w : World) : Bool × World :=
  if eggId ∈ w.store.discoveredEasterEggs then (false, w)
  else
    let s1 : Store :=
      { w.store with discoveredEasterEggs := setAdd w.store.discoveredEasterEggs eggId }
    let s2 : Store :=
      { s1 with statistics :=
          { s1.statistics with easterEggsFound := s1.statistics.easterEggsFound + 1 } }
    let s3 := recordEvent now "easter_egg_discovered" (.obj [("eggId", .str eggId)]) s2
    let w1 := checkParanormalInvestigatorAchievement now { w with store := s3 }
    (true, { w1 with store := debouncedSave w1.store })

/-! ## Customization -/

/-- Getter `isFeatureEnabled(featureType)`. -/
def isFeatureEnabled (s : Store) (featureType : String) : Bool :=
  decide (featureType ∈ s.customization.enabledBehaviors)

/-- The five field updates of `updateCustomization(settings)`, in the order of the
source. -/
def updatedCustomization (settings : Json) (c : Customization) : Customization :=
  let c1 : Customization :=
    match settings.get "scareIntensity" with
    | some (.num n) => { c with scareIntensity := max 0 (min 100 n) }
    | _ => c
  let c2 : Customization :=
    match settings.get "enabledBehaviors" with
    | some (.arr xs) =>
      { c1 with enabledBehaviors := setOf ((stringsOf xs).filter (fun b =>
          decide (b ∈ ["possessedApps", "audioHaunting", "visualCorruption"]))) }
    | _ => c1
  let c3 : Customization :=
    match settings.get "theme" with
    | some (.str t) =>
      if t ∈ ["default", "hospital", "asylum", "cemetery"] then { c2 with theme := t }
      else c2
    | _ => c2
  let c4 : Customization :=
    match settings.get "reducedMotion" with
    | some (.bool b) => { c3 with reducedMotion := b }
    | _ => c3
  match settings.get "visualCuesForAudio" with
  | some (.bool b) => { c4 with visualCuesForAudio := b }
  | _ => c4

/-- Action `updateCustomization(settings)`.  Reading a property of `null` throws, and the
action catches the error before it has changed anything.  The class list of
`document.body` (theme and reduced-motion classes) is not part of the state. -/
def updateCustomization (now : ℚ) (settings : Json) (w : World) : World :=
  match settings with
  | .null => w
  | _ =>
    let s1 : Store :=
      { w.store with customization := updatedCustomization settings w.store.customization }
    let s2 := recordEvent now "customization_updated" (customizationData s1.customization) s1
    saveToLocalStorage { w with store := s2 }

/-! ## The consumed warning -/

/-- The listener that `setupBeforeUnloadHandler` registers for `beforeunload`. -/
def beforeUnloadHandler (now : ℚ) (w : World) : World :=
  if w.store.possessionLevel > 60 ∧ w.store.endingReached = none then
    let warning :=
      Json.obj [("timestamp", .num now), ("possessionLevel", .num w.store.possessionLevel)]
    match w.setItem warning with
    | .ok => { w with consumedWarning := some (.json warning) }
    | _ => w
  else w

/-! ## The visual corruption integration -/

/-- The part of `useVisualCorruptionStore` that the possession watcher acts on: the
actions it has called, in order, and `desktopCorruption.flickerInterval`. -/
structure VisualCorruption where
  calls : List String
  flickerInterval : ℚ

/-- One run of the watcher callback of `initializeVisualCorruptionIntegration`: whether
the block "possession reached 60" ran, whether the block "possession reached 80" ran, and
the visual corruption store afterwards. -/
structure WatcherRun where
  reached60 : Bool
  reached80 : Bool
  visualCorruption : VisualCorruption

/-- The comparison `oldLevel < boundary`; on the immediate first run `oldLevel` is
`undefined` and the comparison is false. -/
def oldLevelBelow (oldLevel : Option ℚ) (boundary : ℚ) : Bool :=
  match oldLevel with
  | some old => decide (old < boundary)
  | none => false

/-- The watcher callback `(level, oldLevel) => ...` on `possessionLevel`, run in the store
state `s`; `random` is the value of `Math.random()` if the callback draws one. -/
def possessionWatcher (random : ℚ) (s : Store) (level : ℚ) (oldLevel : Option ℚ)
    (vc : VisualCorruption) : WatcherRun :=
  if !isFeatureEnabled s "visualCorruption" then
    { reached60 := false, reached80 := false, visualCorruption := vc }
  else
    let reached60 := decide (level ≥ 60) && oldLevelBelow oldLevel 60
    let vc1 : VisualCorruption :=
      if reached60 then
        { vc with calls := vc.calls ++ ["triggerWallpaperFlicker", "replaceWallpaper"] }
      else vc
    let reached80 := decide (level ≥ 80) && oldLevelBelow oldLevel 80
    let vc2 : VisualCorruption :=
      if reached80 then
        let darkened : VisualCorruption :=
          { vc1 with calls := vc1.calls ++ ["darkenBackground", "darkenBackground"] }
        if darkened.flickerInterval > 5000 then { darkened with flickerInterval := 5000 }
        else darkened
      else vc1
    let vc3 : VisualCorruption :=
      if level ≥ 70 ∧ level < 80 then
        if random < 1 / 10 then { vc2 with calls := vc2.calls ++ ["triggerWallpaperFlicker"] }
        else vc2
      else if level ≥ 80 then
        if random < 3 / 10 then { vc2 with calls := vc2.calls ++ ["triggerWallpaperFlicker"] }
        else vc2
      else vc2
    { reached60 := reached60, reached80 := reached80, visualCorruption := vc3 }

/-! ## Remaining cooldown and the symbol puzzle -/

/-- Method `getRemainingCooldown(actionType)` of the gameplay service, in seconds. -/
def GameplayService.getRemainingCooldown (now : ℚ) (s : Store) (actionType : String) : ℚ :=
  match mapGet s.exorcismCooldowns actionType with
  | none => 0
  | some lastPerformed =>
    if lastPerformed = 0 then 0
    else
      let cooldownDuration : ℚ := 120000
      let elapsed := now - lastPerformed
      let remaining := max 0 (cooldownDuration - elapsed)
      ((Int.ceil (remaining / 1000) : ℤ) : ℚ)

/-- The array `symbolSet` of `generateSymbolPuzzle`, as the literals stand in the source
file. -/
def GameplayService.symbolSet : List String :=
  ["â›§", "â˜\u00a0", "ðŸ‘", "ðŸ•¯", "âš°", "ðŸ—¡", "ðŸ”®", "ðŸ’€", "ðŸ‘»", "ðŸ•·"]

/-- What one call of `generateSymbolPuzzle` draws from `Math.random()`: the value of
`Math.floor(Math.random() * 3)`, the values of
`Math.floor(Math.random() * symbolSet.length)` by position, and the base-36 suffix of the
puzzle id. -/
structure PuzzleRandom where
  extraLength : Fin 3
  symbolIndex : ℕ → Fin 10
  idSuffix : String

/-- Method `generateSymbolPuzzle(difficulty)`; returns the puzzle it returns.  The time in
the id is the integer that `Date.now()` yields. -/
def GameplayService.generateSymbolPuzzle (now : ℚ) (random : PuzzleRandom)
    (difficulty : String) (g : GameplayService) : Puzzle × GameplayService :=
  let length : ℕ :=
    if difficulty = "easy" then 4
    else if difficulty = "hard" then 6
    else 4 + random.extraLength.val
  let sequence : List String :=
    (List.range length).map (fun i =>
      GameplayService.symbolSet.getD (random.symbolIndex i).val "")
  let puzzle : Puzzle :=
    { id := "puzzle_" ++ toString (Int.floor now) ++ "_" ++ random.idSuffix
      sequence := sequence
      length := length
      timeLimit := 30
      createdAt := now
      difficulty := difficulty }
  (puzzle, { g with currentPuzzle := some puzzle })

/-! ## Possession updates in IEEE double arithmetic -/

/-- Rounding to the nearest integer, ties to the even one. -/
def roundHalfEven (x : ℚ) : ℤ :=
  let f := Int.floor x
  let r := x - f
  if r < 1 / 2 then f
  else if 1 / 2 < r then f + 1
  else if f % 2 = 0 then f
  else f + 1

/-- The IEEE 754 binary64 number nearest to `x`, ties to even: the result of a double
operation whose exact result is `x`.  The exponent is not bounded: overflow and subnormal
numbers do not arise for the magnitudes the store handles. -/
def roundDouble (x : ℚ) : ℚ :=
  if x = 0 then 0
  else
    let e := Int.log 2 |x|
    let ulp : ℚ := 2 ^ (e - 52)
    (if x < 0 then -1 else 1) * (roundHalfEven (|x| / ulp) : ℚ) * ulp

/-- The JavaScript sum `a + b` of two doubles. -/
def doubleAdd (a b : ℚ) : ℚ :=
  roundDouble (a + b)

/-- Action `increasePossession(amount)` with its three sums (`queue += amount`,
`amount += queue`, `level + amount`) carried out as the double additions they are;
`increasePossession` above is the same action with exact sums.  The counter increment and
the comparisons are exact in doubles. -/
def increasePossessionDouble (now amount : ℚ) (s : Store) : ℚ × Store :=
  if now - s._lastPossessionUpdateTime < _possessionUpdateThrottle then
    let queued := if s._queuedPossessionIncrease = 0 then 0 else s._queuedPossessionIncrease
    (s.possessionLevel, { s with _queuedPossessionIncrease := doubleAdd queued amount })
  else
    let amount1 :=
      if s._queuedPossessionIncrease ≠ 0 then doubleAdd amount s._queuedPossessionIncrease
      else amount
    let s1 : Store :=
      if s._queuedPossessionIncrease ≠ 0 then { s with _queuedPossessionIncrease := 0 } else s
    let oldLevel := s1.possessionLevel
    let s2 : Store :=
      { s1 with possessionLevel := min 100 (doubleAdd s1.possessionLevel amount1) }
    if s2.possessionLevel ≠ oldLevel then
      let s3 : Store :=
        { s2 with statistics :=
            { s2.statistics with
              totalPossessionIncreases := s2.statistics.totalPossessionIncreases + 1 } }
      let s4 : Store :=
        if s3.possessionLevel > s3.statistics.maxPossessionReached then
          { s3 with statistics :=
              { s3.statistics with maxPossessionReached := s3.possessionLevel } }
        else s3
      let s5 := recordEvent now "possession_increase"
        (.obj [("amount", .num amount1), ("oldLevel", .num oldLevel),
               ("newLevel", .num s4.possessionLevel)]) s4
      let s6 := debouncedSave s5
      let s7 : Store := { s6 with _lastPossessionUpdateTime := now }
      (s7.possessionLevel, s7)
    else
      (s2.possessionLevel, s2)

/-! ## `setPossessionLevel` on every JavaScript number -/

/-- A JavaScript number: `NaN`, an infinity, or a finite number. -/
inductive JsNumber where
  | nan
  | negInfinity
  | finite (value : ℚ)
  | infinity

/-- The function `Math.min` on two numbers: `NaN` when either argument is `NaN`. -/
def JsNumber.mathMin : JsNumber → JsNumber → JsNumber
  | .nan, _ => .nan
  | _, .nan => .nan
  | .negInfinity, _ => .negInfinity
  | _, .negInfinity => .negInfinity
  | .infinity, b => b
  | a, .infinity => a
  | .finite a, .finite b => .finite (min a b)

/-- The function `Math.max` on two numbers: `NaN` when either argument is `NaN`. -/
def JsNumber.mathMax : JsNumber → JsNumber → JsNumber
  | .nan, _ => .nan
  | _, .nan => .nan
  | .infinity, _ => .infinity
  | _, .infinity => .infinity
  | .negInfinity, b => b
  | a, .negInfinity => a
  | .finite a, .finite b => .finite (max a b)

/-- The comparison `a <= b`: false when either side is `NaN`. -/
def JsNumber.lessEq : JsNumber → JsNumber → Bool
  | .nan, _ => false
  | _, .nan => false
  | .negInfinity, _ => true
  | _, .infinity => true
  | .infinity, _ => false
  | _, .negInfinity => false
  | .finite a, .finite b => decide (a ≤ b)

/-- The value that `setPossessionLevel(level)` assigns to `possessionLevel`,
`Math.max(0, Math.min(100, level))`, for every JavaScript number `level`; the action has
no `isNaN` test.  `setPossessionLevel` above is the action at the finite numbers. -/
def assignedPossessionLevel (level : JsNumber) : JsNumber :=
  JsNumber.mathMax (.finite 0) (JsNumber.mathMin (.finite 100) level)

/-- The value that `loadFromLocalStorage` assigns to `possessionLevel` for a number
`level` of the snapshot, if it assigns one: the same clamp, behind the test
`typeof level === 'number' && !isNaN(level)`. -/
def restoredPossessionLevel (level : JsNumber) : Option JsNumber :=
  match level with
  | .nan => none
  | _ => some (JsNumber.mathMax (.finite 0) (JsNumber.mathMin (.finite 100) level))

/-! ## Call sequences -/

/-- A call of one of the four actions that write `possessionLevel`. -/
inductive PossessionCall where
  | increase (now amount : ℚ)
  | decrease (now amount : ℚ)
  | setLevel (level : ℚ)
  | difficulty (mode : String)

/-- Performing one call. -/
def PossessionCall.run : PossessionCall → World → World
  | .increase now amount, w => { w with store := (increasePossession now amount w.store).2 }
  | .decrease now amount, w => { w with store := (decreasePossession now amount w.store).2 }
  | .setLevel level, w => { w with store := setPossessionLevel level w.store }
  | .difficulty mode, w => setDifficulty mode w

/-- Performing a sequence of calls, first to last. -/
def runCalls (calls : List PossessionCall) (w : World) : World :=
  calls.foldl (fun w c => c.run w) w

/-- The amount passed to `increasePossession` or `decreasePossession` is not negative. -/
def PossessionCall.amountNonneg : PossessionCall → Prop
  | .increase _ amount => 0 ≤ amount
  | .decrease _ amount => 0 ≤ amount
  | .setLevel _ => True
  | .difficulty _ => True

/-- The level is within `[0, 100]`. -/
def levelInRange (s : Store) : Prop :=
  0 ≤ s.possessionLevel ∧ s.possessionLevel ≤ 100

/-- Whether a possession update at `now` is throttled. -/
def throttled (now : ℚ) (s : Store) : Prop :=
  now - s._lastPossessionUpdateTime < _possessionUpdateThrottle

instance (now : ℚ) (s : Store) : Decidable (throttled now s) := by
  unfold throttled
  infer_instance

/-- Both pending queues hold a non-negative amount. -/
def queuesNonneg (s : Store) : Prop :=
  0 ≤ s._queuedPossessionIncrease ∧ 0 ≤ s._queuedPossessionDecrease

/-- Successive `increasePossession` calls, each given as `(now, amount)`. -/
def runIncreases (calls : List (ℚ × ℚ)) (s : Store) : Store :=
  calls.foldl (fun s c => (increasePossession c.1 c.2 s).2) s

/-- The sum of the amounts of a sequence of calls. -/
def totalAmount (calls : List (ℚ × ℚ)) : ℚ :=
  (calls.map Prod.snd).sum

/-- The phrase reads `begone spirit` in some letter case, with only trimmed characters
(whitespace) before and after it. -/
def GameplayService.isBegonePhrase (phrase : String) : Prop :=
  ∃ pre core post : List Char, phrase.data = pre ++ core ++ post ∧
    (∀ c ∈ pre, GameplayService.isTrimmed c = true) ∧
    (∀ c ∈ post, GameplayService.isTrimmed c = true) ∧
    core.map Char.toLower = "begone spirit".data

/-- A world whose level was raised from 0 to 50 by a possession update applied at time
1000000. -/
def raisedWorld : World :=
  { World.fresh with store := (increasePossession 1000000 50 Store.fresh).2 }

/-- A world in which all three exorcisms were performed at time 1000000, with one cursed
file left and a puzzle open. -/
def cooledWorld : World :=
  { World.fresh with
    store := { Store.fresh with
      possessionLevel := 35
      exorcismCooldowns := [("text", 1000000), ("file", 1000000), ("puzzle", 1000000)] }
    service := { GameplayService.fresh with
      cursedFiles := [{ id := "cursed_0", name := "CURSED.exe", path := "C:/Cursed/CURSED.exe",
                        possessionValue := 8, createdAt := 900000 }]
      currentPuzzle := some { id := "puzzle_1", sequence := ["a", "b", "c", "d"], length := 4,
                              timeLimit := 30, createdAt := 1050000, difficulty := "easy" } } }

/-- The session has a (truthy) start time that lies at least `d` ms before `now`. -/
def sessionStartedAgo (now d : ℚ) (s : Store) : Prop :=
  ∃ t, sessionStart s = some t ∧ now - t ≥ d

/-- A fresh world whose level was set to 100. -/
def possessedWorld : World :=
  { World.fresh with store := setPossessionLevel 100 Store.fresh }

/-- Successive `recordExorcism` calls, each given as `(now, type)`. -/
def GameplayService.recordAll (records : List (ℚ × String)) (g : GameplayService) :
    GameplayService :=
  records.foldl (fun g r => GameplayService.recordExorcism r.1 r.2 g) g

/-- Five exorcisms recorded at `t1`, ..., `t5`, then `checkAchievements()` at `checkAt`. -/
def fiveExorcisms (t1 t2 t3 t4 t5 : ℚ) (k1 k2 k3 k4 k5 : String) (checkAt : ℚ)
    (w : World) : World :=
  GameplayService.checkAchievements checkAt
    { w with service :=
        GameplayService.recordAll [(t1, k1), (t2, k2), (t3, k3), (t4, k4), (t5, k5)] w.service }

/-- The conditions on a store state under which its snapshot restores the state: the
level is in `[0, 100]`, the difficulty is one of the four modes, the two sets and the
cooldown map are well formed (no repeated element, no repeated key), and
`sessionStartTime` is null or positive. -/
def persistable (s : Store) : Prop :=
  levelInRange s ∧
  s.difficulty ∈ ["tourist", "normal", "nightmare", "permadeath"] ∧
  s.achievements.Nodup ∧
  s.discoveredEasterEggs.Nodup ∧
  (s.exorcismCooldowns.map Prod.fst).Nodup ∧
  (∀ t, s.sessionStartTime = some t → 0 < t)

/-- The store that `loadFromLocalStorage` produces from a fresh default store when
`localStorage` holds what `saveToLocalStorage` left there. -/
def reloaded (w : World) : Bool × World :=
  loadFromLocalStorage { World.fresh with savedProgress := (saveToLocalStorage w).savedProgress }

/-- A world at level 66, difficulty nightmare, with `exorcist` unlocked, whose session
started when `Date.now()` was 0. -/
def epochWorld : World :=
  { World.fresh with
    store := { Store.fresh with
      possessionLevel := 66
      difficulty := "nightmare"
      achievements := ["exorcist"]
      sessionStartTime := some 0 } }

/-- The world of the persistence example: level 66, nightmare, `exorcist` unlocked, a
session started at 1000000 and a text exorcism performed at 1500000. -/
def savedWorld : World :=
  { World.fresh with
    store := { Store.fresh with
      possessionLevel := 66
      difficulty := "nightmare"
      achievements := ["exorcist"]
      sessionStartTime := some 1000000
      exorcismCooldowns := [("text", 1500000)] } }

/-- The world `savedWorld` with a `localStorage` that has no room for a value of more
than three top-level fields. -/
def crampedWorld : World :=
  { savedWorld with
    setItem := fun v =>
      match v with
      | .obj fields => if fields.length > 3 then .quotaExceeded else .ok
      | _ => .ok }

/-! ## Dates, stores and snapshots used below -/

/-- The date is 31 October. -/
def isHalloween (now : JsDate) : Prop :=
  now.month = 9 ∧ now.date = 31

/-- The date is a Friday the 13th. -/
def isFriday13 (now : JsDate) : Prop :=
  now.day = 5 ∧ now.date = 13

/-- The local time is 03:33. -/
def isWitchingHour (now : JsDate) : Prop :=
  now.hours = 3 ∧ now.minutes = 33

/-- The moon phase is within 0.05 of 1. -/
def isFullMoon (now : JsDate) : Prop :=
  95 / 100 ≤ calculateMoonPhase now ∧ calculateMoonPhase now ≤ 105 / 100

/-- Friday 13 September 2024 at 03:33. -/
def fridayWitchingDate : JsDate :=
  { month := 8, date := 13, day := 5, hours := 3, minutes := 33, time := 1726198380000 }

/-- Monday 1 January 2024 at 03:33. -/
def witchingDate : JsDate :=
  { month := 0, date := 1, day := 1, hours := 3, minutes := 33, time := 1704079980000 }

/-- Thursday 31 October 2024 at noon. -/
def halloweenDate : JsDate :=
  { month := 9, date := 31, day := 4, hours := 12, minutes := 0, time := 1730376000000 }

/-- A store at level 50 in which, inside the throttle window opened by the update applied
at 1000000, an increase of 10 (at 1000100) and a decrease of 10 (at 1000200) were
queued. -/
def queuedStore : Store :=
  (decreasePossession 1000200 10 (increasePossession 1000100 10 raisedWorld.store).2).2

/-- Between the stores `before` and `after`, only the cooldown entry of `kind` was set,
to `now`: every other kind has the same entry and the same cooldown status. -/
def onlyCooldownSet (kind : String) (now : ℚ) (before after : Store) : Prop :=
  mapGet after.exorcismCooldowns kind = some now ∧
  (∀ k, k ≠ kind → mapGet after.exorcismCooldowns k = mapGet before.exorcismCooldowns k) ∧
  (∀ k t, k ≠ kind → isExorcismOnCooldown t after k = isExorcismOnCooldown t before k)

/-- A fresh world whose `localStorage` holds the given parsed snapshot. -/
def worldWithSaved (data : Json) : World :=
  { World.fresh with savedProgress := some (.json data) }

/-- A snapshot whose `possessionLevel` is a string and whose `customization.theme` is a
number, the other fields given being valid. -/
def mistypedSnapshot : Json :=
  .obj [("possessionLevel", .str "66"), ("difficulty", .str "nightmare"),
        ("achievements", .arr [.str "exorcist"]),
        ("customization", .obj [("theme", .num 3), ("scareIntensity", .num 40)])]

/-- A snapshot whose `possessionLevel` is a string, whose `difficulty` is valid, and whose
events history holds an event with the timestamp `(toString: 1)`. -/
def poisonedSnapshot : Json :=
  .obj [("possessionLevel", .str "66"), ("difficulty", .str "nightmare"),
        ("statistics", .obj [("eventsHistory",
          .arr [.obj [("type", .str "x"), ("timestamp", .obj [("toString", .num 1)])]])])]

/-- How `loadFromLocalStorage` treats the fields of the snapshot's `customization` object
`cd`: each field of the wrong type (or, for `theme`, of no valid value) keeps its previous
value, each valid one is applied. -/
def customizationRestored (cd : Json) (before after : Customization) : Prop :=
  ((∀ n, cd.get "scareIntensity" ≠ some (.num n)) →
    after.scareIntensity = before.scareIntensity) ∧
  (∀ n, cd.get "scareIntensity" = some (.num n) → after.scareIntensity = max 0 (min 100 n)) ∧
  ((∀ xs, cd.get "enabledBehaviors" ≠ some (.arr xs)) →
    after.enabledBehaviors = before.enabledBehaviors) ∧
  (∀ xs, cd.get "enabledBehaviors" = some (.arr xs) →
    after.enabledBehaviors = setOf ((stringsOf xs).filter (fun b =>
      decide (b ∈ ["possessedApps", "audioHaunting", "visualCorruption"])))) ∧
  ((∀ t, cd.get "theme" = some (.str t) → t ∉ ["default", "hospital", "asylum", "cemetery"]) →
    after.theme = before.theme) ∧
  (∀ t, cd.get "theme" = some (.str t) → t ∈ ["default", "hospital", "asylum", "cemetery"] →
    after.theme = t) ∧
  ((∀ b, cd.get "reducedMotion" ≠ some (.bool b)) →
    after.reducedMotion = before.reducedMotion) ∧
  (∀ b, cd.get "reducedMotion" = some (.bool b) → after.reducedMotion = b) ∧
  ((∀ b, cd.get "visualCuesForAudio" ≠ some (.bool b)) →
    after.visualCuesForAudio = before.visualCuesForAudio) ∧
  (∀ b, cd.get "visualCuesForAudio" = some (.bool b) → after.visualCuesForAudio = b)

/-- A numeric statistic after `loadFromLocalStorage`: the previous value when the
snapshot's value is not a number, `Math.max(0, value)` when it is. -/
def counterRestored (sd : Json) (key : String) (before after : ℚ) : Prop :=
  ((∀ n, sd.get key ≠ some (.num n)) → after = before) ∧
  (∀ n, sd.get key = some (.num n) → after = max 0 n)

/-- How `loadFromLocalStorage` treats the fields of the snapshot's `statistics` object
`sd`: each field of the wrong type keeps its previous value, each valid one is applied. -/
def statisticsRestored (sd : Json) (before after : Statistics) : Prop :=
  counterRestored sd "totalSessions" before.totalSessions after.totalSessions ∧
  counterRestored sd "totalTimeSurvived" before.totalTimeSurvived after.totalTimeSurvived ∧
  counterRestored sd "exorcismsPerformed" before.exorcismsPerformed after.exorcismsPerformed ∧
  counterRestored sd "totalPossessionIncreases" before.totalPossessionIncreases
    after.totalPossessionIncreases ∧
  counterRestored sd "totalPossessionDecreases" before.totalPossessionDecreases
    after.totalPossessionDecreases ∧
  counterRestored sd "achievementsUnlocked" before.achievementsUnlocked
    after.achievementsUnlocked ∧
  counterRestored sd "easterEggsFound" before.easterEggsFound after.easterEggsFound ∧
  ((∀ n, sd.get "maxPossessionReached" ≠ some (.num n)) →
    after.maxPossessionReached = before.maxPossessionReached) ∧
  (∀ n, sd.get "maxPossessionReached" = some (.num n) →
    after.maxPossessionReached = max 0 (min 100 n)) ∧
  ((∀ xs, sd.get "jumpscaresSeen" ≠ some (.arr xs)) →
    after.jumpscaresSeen = before.jumpscaresSeen) ∧
  (∀ xs, sd.get "jumpscaresSeen" = some (.arr xs) →
    after.jumpscaresSeen = setOf (stringsOf xs)) ∧
  ((∀ xs, sd.get "eventsHistory" ≠ some (.arr xs)) →
    after.eventsHistory = before.eventsHistory) ∧
  (∀ xs, sd.get "eventsHistory" = some (.arr xs) →
    after.eventsHistory = sliceLast 100 (xs.filter isStoredEvent)) ∧
  ((∀ xs, sd.get "endingsReached" ≠ some (.arr xs)) →
    after.endingsReached = before.endingsReached) ∧
  (∀ xs, sd.get "endingsReached" = some (.arr xs) →
    after.endingsReached = setOf ((stringsOf xs).filterMap Ending.ofString))

/-- A store whose events history is full: 100 copies of one stored event. -/
def fullHistoryStore : Store :=
  { Store.fresh with
    statistics :=
      { Statistics.default with
        eventsHistory :=
          List.replicate 100
            (.obj [("type", .str "session_start"), ("timestamp", .num 1), ("data", .obj [])]) } }

/-- The object that `recordEvent` pushes. -/
def eventObject (now : ℚ) (eventType : String) (data : Json) : Json :=
  .obj [("type", .str eventType), ("timestamp", .num now), ("data", data)]

/-- The instant `2023-01-06T00:00Z`, the reference full moon of `calculateMoonPhase`, a
Friday, read in UTC. -/
def referenceFullMoonDate : JsDate :=
  { month := 0, date := 6, day := 5, hours := 0, minutes := 0, time := 1672963200000 }

/-- A store that has discovered the four eggs listed by the store's
`checkParanormalInvestigatorAchievement`. -/
def storeEggsFound : Store :=
  { Store.fresh with
    discoveredEasterEggs :=
      ["konami_code", "secret_phrase", "secret_coordinate", "secret_wallpaper"] }

/-- A store that has discovered the four eggs listed by the service's
`checkParanormalInvestigatorCondition`. -/
def serviceEggsFound : Store :=
  { Store.fresh with
    discoveredEasterEggs :=
      ["konami-code", "notepad-help", "possession-66", "secret-coordinate"] }

/-- The values drawn by one call of `generateSymbolPuzzle`: length 4 + 1 and the symbols at
the indices 0, 1, 2, .. of `symbolSet` (modulo 10). -/
def sampleRandom : PuzzleRandom :=
  { extraLength := 1
    symbolIndex := fun i => ⟨i % 10, Nat.mod_lt i (by decide)⟩
    idSuffix := "k3x9q2m1z" }

/-- A solution array holding the given symbols. -/
def solutionOf (sequence : List String) : Json :=
  .arr (sequence.map .str)

/-- A world whose scare intensity was set to 50. -/
def dimmedWorld : World :=
  updateCustomization 1000 (.obj [("scareIntensity", .num 50)]) World.fresh

/-- A world in which every haunting behaviour was switched off. -/
def effectsOffWorld : World :=
  updateCustomization 1000 (.obj [("enabledBehaviors", .arr [])]) World.fresh

/-- The condition under which the `beforeunload` listener writes the warning. -/
def consumedCondition (s : Store) : Prop :=
  s.possessionLevel > 60 ∧ s.endingReached = none

/-- The warning object that the `beforeunload` listener writes. -/
def consumedWarningObject (now : ℚ) (s : Store) : Json :=
  .obj [("timestamp", .num now), ("possessionLevel", .num s.possessionLevel)]

/-- A fresh world whose level was set to 75. -/
def hauntedWorld : World :=
  { World.fresh with store := setPossessionLevel 75 Store.fresh }

/-- The watcher run for the change of `possessionLevel` from the `i`-th to the `i + 1`-st
of a sequence of store states. -/
def watcherRunAt (stores : ℕ → Store) (randoms : ℕ → ℚ) (vcs : ℕ → VisualCorruption)
    (i : ℕ) : WatcherRun :=
  possessionWatcher (randoms i) (stores (i + 1)) (stores (i + 1)).possessionLevel
    (some (stores i).possessionLevel) (vcs i)

/-- The operations of the store and of the gameplay service that act on the world. -/
inductive Operation where
  | unlockAchievement (achievementId : String) (name description : Option String)
  | serviceUnlockAchievement (achievementId : String)
  | checkAchievements
  | discoverEasterEgg (eggId : String)
  | performTextExorcism (phrase : String)
  | deleteCursedFile (fileId : String)
  | performPuzzleExorcism (puzzleId : String) (solution : Json)
  | increasePossession (amount : ℚ)
  | decreasePossession (amount : ℚ)
  | setPossessionLevel (level : ℚ)
  | escalationTick (date : JsDate)
  | setDifficulty (mode : String)
  | checkEndingConditions
  | endSession
  | updateCustomization (settings : Json)
  | saveToLocalStorage
  | beforeUnload
  | loadFromLocalStorage
  | clearProgress

/-- Performing one operation at the time `now`. -/
def runOperation (now : ℚ) : Operation → World → World
  | .unlockAchievement achievementId name description, w =>
    (unlockAchievement now achievementId name description w).2
  | .serviceUnlockAchievement achievementId, w =>
    (GameplayService.unlockAchievement now achievementId w).2
  | .checkAchievements, w => GameplayService.checkAchievements now w
  | .discoverEasterEgg eggId, w => (discoverEasterEgg now eggId w).2
  | .performTextExorcism phrase, w => (GameplayService.performTextExorcism now phrase w).2
  | .deleteCursedFile fileId, w => (GameplayService.deleteCursedFile now fileId w).2
  | .performPuzzleExorcism puzzleId solution, w =>
    (GameplayService.performPuzzleExorcism now puzzleId solution w).2
  | .increasePossession amount, w => { w with store := (increasePossession now amount w.store).2 }
  | .decreasePossession amount, w => { w with store := (decreasePossession now amount w.store).2 }
  | .setPossessionLevel level, w => { w with store := setPossessionLevel level w.store }
  | .escalationTick date, w => { w with store := (escalationTick now date w.store).2 }
  | .setDifficulty mode, w => setDifficulty mode w
  | .checkEndingConditions, w => (checkEndingConditions now w).2
  | .endSession, w => endSession now w
  | .updateCustomization settings, w => updateCustomization now settings w
  | .saveToLocalStorage, w => saveToLocalStorage w
  | .beforeUnload, w => beforeUnloadHandler now w
  | .loadFromLocalStorage, w => (loadFromLocalStorage w).2
  | .clearProgress, w => clearProgress now w

/-- A world that saved its progress (on `setDifficulty`) and then unlocked an achievement
with the store action, whose save is only scheduled. -/
def unsavedUnlockWorld : World :=
  (unlockAchievement 2000 "paranormal_investigator" (some "Paranormal Investigator")
    (some "Discovered all easter eggs") (setDifficulty "normal" World.fresh)).2

/-- Successive `increasePossession` calls in double arithmetic, each given as
`(now, amount)`. -/
def runIncreasesDouble (calls : List (ℚ × ℚ)) (s : Store) : Store :=
  calls.foldl (fun s c => (increasePossessionDouble c.1 c.2 s).2) s

/-- The number is a non-negative binary fraction with at most `k` fractional bits:
`n / 2^k` for a natural number `n`. -/
def binaryFraction (k : ℕ) (x : ℚ) : Prop :=
  ∃ n : ℕ, x = (n : ℚ) / 2 ^ k

/-- The calls `increasePossession(0.1)`, `(0.2)`, `(0.3)`, `(0.1)` at `t`, `t + 200`,
`t + 700`, `t + 1100` with `t = 1000000`; each amount is the double that the literal
denotes. -/
def roundingCalls : List (ℚ × ℚ) :=
  [(1000000, roundDouble (1 / 10)), (1000200, roundDouble (2 / 10)),
   (1000700, roundDouble (3 / 10)), (1001100, roundDouble (1 / 10))]

/-- The sum `initial + a1 + a2 + ..` computed left to right in doubles. -/
def doubleSum (initial : ℚ) (amounts : List ℚ) : ℚ :=
  amounts.foldl doubleAdd initial

/-- The number is within `[0, 100]` under the comparisons of JavaScript. -/
def JsNumber.inRange (x : JsNumber) : Prop :=
  JsNumber.lessEq (.finite 0) x = true ∧ JsNumber.lessEq x (.finite 100) = true

/-! ## Theorems -/

/-! ### What one possession update does to the level and the queues -/

theorem increasePossession_level (now amount : ℚ) (s : Store) :
    (increasePossession now amount s).2.possessionLevel =
      if throttled now s then s.possessionLevel
      else min 100 (s.possessionLevel + (amount + s._queuedPossessionIncrease)) := by
  unfold increasePossession throttled
  dsimp only
  by_cases ht : now - s._lastPossessionUpdateTime < _possessionUpdateThrottle
  · rw [if_pos ht, if_pos ht]
  · rw [if_neg ht, if_neg ht]
    by_cases hq : s._queuedPossessionIncrease = 0
    · simp only [hq, ne_eq, not_true_eq_false, if_false, add_zero]
      split_ifs <;> simp [recordEvent, debouncedSave]
    · simp only [hq, ne_eq, not_false_eq_true, if_true]
      split_ifs <;> simp [recordEvent, debouncedSave]

theorem increasePossession_queue (now amount : ℚ) (s : Store) :
    (increasePossession now amount s).2._queuedPossessionIncrease =
      if throttled now s then s._queuedPossessionIncrease + amount
      else 0 := by
  unfold increasePossession throttled
  dsimp only
  by_cases ht : now - s._lastPossessionUpdateTime < _possessionUpdateThrottle
  · rw [if_pos ht, if_pos ht]
    all_goals (by_cases hq : s._queuedPossessionIncrease = 0 <;> simp [hq])
  · rw [if_neg ht, if_neg ht]
    by_cases hq : s._queuedPossessionIncrease = 0
    · simp only [hq, ne_eq, not_true_eq_false, if_false, add_zero]
      split_ifs <;> simp [recordEvent, debouncedSave, hq]
    · simp only [hq, ne_eq, not_false_eq_true, if_true]
      split_ifs <;> simp [recordEvent, debouncedSave]

theorem decreasePossession_level (now amount : ℚ) (s : Store) :
    (decreasePossession now amount s).2.possessionLevel =
      if throttled now s then s.possessionLevel
      else max 0 (s.possessionLevel - (amount + s._queuedPossessionDecrease)) := by
  unfold decreasePossession throttled
  dsimp only
  by_cases ht : now - s._lastPossessionUpdateTime < _possessionUpdateThrottle
  · rw [if_pos ht, if_pos ht]
  · rw [if_neg ht, if_neg ht]
    by_cases hq : s._queuedPossessionDecrease = 0
    · simp only [hq, ne_eq, not_true_eq_false, if_false, add_zero]
      split_ifs <;> simp [recordEvent, debouncedSave, hq]
    · simp only [hq, ne_eq, not_false_eq_true, if_true]
      split_ifs <;> simp [recordEvent, debouncedSave]

theorem decreasePossession_queue (now amount : ℚ) (s : Store) :
    (decreasePossession now amount s).2._queuedPossessionDecrease =
      if throttled now s then s._queuedPossessionDecrease + amount
      else 0 := by
  unfold decreasePossession throttled
  dsimp only
  by_cases ht : now - s._lastPossessionUpdateTime < _possessionUpdateThrottle
  · rw [if_pos ht, if_pos ht]
    all_goals (by_cases hq : s._queuedPossessionDecrease = 0 <;> simp [hq])
  · rw [if_neg ht, if_neg ht]
    by_cases hq : s._queuedPossessionDecrease = 0
    · simp only [hq, ne_eq, not_true_eq_false, if_false, add_zero]
      split_ifs <;> simp [recordEvent, debouncedSave, hq]
    · simp only [hq, ne_eq, not_false_eq_true, if_true]
      split_ifs <;> simp [recordEvent, debouncedSave]

theorem increasePossession_lastUpdate (now amount : ℚ) (s : Store) :
    (increasePossession now amount s).2._lastPossessionUpdateTime =
      if throttled now s then s._lastPossessionUpdateTime
      else if min 100 (s.possessionLevel + (amount + s._queuedPossessionIncrease)) = s.possessionLevel
        then s._lastPossessionUpdateTime else now := by
  unfold increasePossession throttled
  dsimp only
  by_cases ht : now - s._lastPossessionUpdateTime < _possessionUpdateThrottle
  · rw [if_pos ht, if_pos ht]
  · rw [if_neg ht, if_neg ht]
    by_cases hq : s._queuedPossessionIncrease = 0
    · simp only [hq, ne_eq, not_true_eq_false, if_false, add_zero]
      split_ifs <;> simp_all [recordEvent, debouncedSave]
    · simp only [hq, ne_eq, not_false_eq_true, if_true]
      split_ifs <;> simp_all [recordEvent, debouncedSave]

theorem decreasePossession_lastUpdate (now amount : ℚ) (s : Store) :
    (decreasePossession now amount s).2._lastPossessionUpdateTime =
      if throttled now s then s._lastPossessionUpdateTime
      else if max 0 (s.possessionLevel - (amount + s._queuedPossessionDecrease)) = s.possessionLevel
        then s._lastPossessionUpdateTime else now := by
  unfold decreasePossession throttled
  dsimp only
  by_cases ht : now - s._lastPossessionUpdateTime < _possessionUpdateThrottle
  · rw [if_pos ht, if_pos ht]
  · rw [if_neg ht, if_neg ht]
    by_cases hq : s._queuedPossessionDecrease = 0
    · simp only [hq, ne_eq, not_true_eq_false, if_false, add_zero]
      split_ifs <;> simp_all [recordEvent, debouncedSave]
    · simp only [hq, ne_eq, not_false_eq_true, if_true]
      split_ifs <;> simp_all [recordEvent, debouncedSave]

theorem increasePossession_frame (now amount : ℚ) (s : Store) :
    ∃ level st timer last queued, (increasePossession now amount s).2 =
      { s with possessionLevel := level, statistics := st, _saveDebounceTimer := timer,
               _lastPossessionUpdateTime := last, _queuedPossessionIncrease := queued } := by
  unfold increasePossession recordEvent debouncedSave
  dsimp only
  split_ifs <;> exact ⟨_, _, _, _, _, rfl⟩

theorem decreasePossession_frame (now amount : ℚ) (s : Store) :
    ∃ level st timer last queued, (decreasePossession now amount s).2 =
      { s with possessionLevel := level, statistics := st, _saveDebounceTimer := timer,
               _lastPossessionUpdateTime := last, _queuedPossessionDecrease := queued } := by
  unfold decreasePossession recordEvent debouncedSave
  dsimp only
  split_ifs <;> exact ⟨_, _, _, _, _, rfl⟩

theorem increasePossession_other_queue (now amount : ℚ) (s : Store) :
    (increasePossession now amount s).2._queuedPossessionDecrease =
      s._queuedPossessionDecrease := by
  obtain ⟨level, st, timer, last, queued, h⟩ := increasePossession_frame now amount s
  rw [h]

theorem decreasePossession_other_queue (now amount : ℚ) (s : Store) :
    (decreasePossession now amount s).2._queuedPossessionIncrease =
      s._queuedPossessionIncrease := by
  obtain ⟨level, st, timer, last, queued, h⟩ := decreasePossession_frame now amount s
  rw [h]

theorem saveToLocalStorage_store (w : World) : (saveToLocalStorage w).store = w.store := by
  unfold saveToLocalStorage
  split
  · rfl
  · rfl
  · split
    · rfl
    · split <;> rfl

/-! ### C1: the level stays within `[0, 100]`, except after `setPossessionLevel(NaN)` -/

theorem PossessionCall.run_preserves (c : PossessionCall) (w : World) (hc : c.amountNonneg)
    (h : levelInRange w.store ∧ queuesNonneg w.store) :
    levelInRange (c.run w).store ∧ queuesNonneg (c.run w).store := by
  obtain ⟨⟨h0, h100⟩, hi, hd⟩ := h
  cases c with
  | increase now amount =>
    have ha : 0 ≤ amount := hc
    simp only [PossessionCall.run, levelInRange, queuesNonneg, increasePossession_level,
      increasePossession_queue, increasePossession_other_queue]
    split_ifs
    · exact ⟨⟨h0, h100⟩, by linarith, hd⟩
    · exact ⟨⟨le_min (by norm_num) (by linarith), min_le_left _ _⟩, le_refl _, hd⟩
  | decrease now amount =>
    have ha : 0 ≤ amount := hc
    simp only [PossessionCall.run, levelInRange, queuesNonneg, decreasePossession_level,
      decreasePossession_queue, decreasePossession_other_queue]
    split_ifs
    · exact ⟨⟨h0, h100⟩, hi, by linarith⟩
    · exact ⟨⟨le_max_left _ _, max_le (by norm_num) (by linarith)⟩, hi, le_refl _⟩
  | setLevel level =>
    simp only [PossessionCall.run, levelInRange, queuesNonneg, setPossessionLevel,
      debouncedSave]
    exact ⟨⟨le_max_left _ _, max_le (by norm_num) (min_le_left _ _)⟩, hi, hd⟩
  | difficulty mode =>
    simp only [PossessionCall.run, setDifficulty]
    split_ifs <;> simp only [saveToLocalStorage_store, levelInRange, queuesNonneg] <;>
      first
        | exact ⟨⟨h0, h100⟩, hi, hd⟩
        | exact ⟨⟨by norm_num, by norm_num⟩, hi, hd⟩

theorem runCalls_preserves (calls : List PossessionCall) (w : World)
    (hc : ∀ c ∈ calls, c.amountNonneg)
    (h : levelInRange w.store ∧ queuesNonneg w.store) :
    levelInRange (runCalls calls w).store ∧ queuesNonneg (runCalls calls w).store := by
  induction calls generalizing w with
  | nil => exact h
  | cons c rest ih =>
    simp only [runCalls, List.foldl_cons]
    exact ih (c.run w) (fun d hd => hc d (List.mem_cons_of_mem _ hd))
      (c.run_preserves w (hc c (List.mem_cons_self _ _)) h)

/-- C1, the code at `NaN`: `setPossessionLevel(NaN)` assigns `NaN` to `possessionLevel`,
which is not within `[0, 100]` (both comparisons are false), although the loader guards
the same clamp with `!isNaN` and assigns nothing for `NaN`.  For every other number,
infinite ones included, the value assigned is within `[0, 100]`, and at the finite
numbers it is the level of the store after `setPossessionLevel`; with such numbers the
level stays within `[0, 100]` after every call of every sequence of `increasePossession`,
`decreasePossession` with non-negative amounts, `setPossessionLevel` and
`setDifficulty`. -/
theorem setPossessionLevel_nan :
    assignedPossessionLevel .nan = .nan ∧
    ¬ JsNumber.inRange (assignedPossessionLevel .nan) ∧
    restoredPossessionLevel .nan = none ∧
    (∀ level, level ≠ .nan → JsNumber.inRange (assignedPossessionLevel level)) ∧
    (∀ (level : ℚ) (s : Store),
      assignedPossessionLevel (.finite level) =
        .finite (setPossessionLevel level s).possessionLevel) ∧
    (∀ (w : World) (calls : List PossessionCall), levelInRange w.store →
      w.store._queuedPossessionIncrease = 0 → w.store._queuedPossessionDecrease = 0 →
      (∀ c ∈ calls, c.amountNonneg) →
      ∀ k, levelInRange (runCalls (calls.take k) w).store) := by
  refine ⟨rfl, ?_, rfl, ?_, ?_, ?_⟩
  · intro h
    exact absurd h.1 (by simp [assignedPossessionLevel, JsNumber.mathMin, JsNumber.mathMax,
      JsNumber.lessEq])
  · intro level hlevel
    cases level with
    | nan => exact absurd rfl hlevel
    | negInfinity =>
      simp [JsNumber.inRange, assignedPossessionLevel, JsNumber.mathMin, JsNumber.mathMax,
        JsNumber.lessEq]
    | infinity =>
      simp [JsNumber.inRange, assignedPossessionLevel, JsNumber.mathMin, JsNumber.mathMax,
        JsNumber.lessEq]
    | finite value =>
      simp only [JsNumber.inRange, assignedPossessionLevel, JsNumber.mathMin,
        JsNumber.mathMax, JsNumber.lessEq, decide_eq_true_eq]
      exact ⟨le_max_left _ _, max_le (by norm_num) (min_le_left _ _)⟩
  · intro level s
    rfl
  · intro w calls hlevel hinc hdec hamount k
    exact (runCalls_preserves (calls.take k) w
      (fun c hc => hamount c (List.mem_of_mem_take hc))
      ⟨hlevel, by rw [queuesNonneg, hinc, hdec]; exact ⟨le_refl _, le_refl _⟩⟩).1

/-- The clamp at `Infinity`, and the range after three calls from the fresh store. -/
theorem setPossessionLevel_nan_witness :
    JsNumber.inRange (assignedPossessionLevel .infinity) ∧
    levelInRange (runCalls
      ([PossessionCall.increase 1000 150, .setLevel (-5), .decrease 1100 3].take 3)
      World.fresh).store :=
  ⟨setPossessionLevel_nan.2.2.2.1 .infinity (by intro h; cases h),
   setPossessionLevel_nan.2.2.2.2.2 World.fresh _
     (by norm_num [levelInRange, World.fresh, Store.fresh]) rfl rfl
     (by
       intro c hc
       simp only [List.mem_cons, List.mem_singleton, List.not_mem_nil, or_false] at hc
       rcases hc with rfl | rfl | rfl <;> simp [PossessionCall.amountNonneg]) 3⟩

/-! ### Throttling with exact sums -/

theorem totalAmount_nonneg (calls : List (ℚ × ℚ)) (h : ∀ c ∈ calls, 0 ≤ c.2) :
    0 ≤ totalAmount calls := by
  induction calls with
  | nil => simp [totalAmount]
  | cons c rest ih =>
    have h1 := h c (List.mem_cons_self _ _)
    have h2 := ih (fun d hd => h d (List.mem_cons_of_mem _ hd))
    simp only [totalAmount, List.map_cons, List.sum_cons] at h2 ⊢
    linarith

theorem totalAmount_take_le (calls : List (ℚ × ℚ)) (h : ∀ c ∈ calls, 0 ≤ c.2) (k : Nat) :
    totalAmount (calls.take k) ≤ totalAmount calls := by
  have hsplit : totalAmount calls = totalAmount (calls.take k) + totalAmount (calls.drop k) := by
    conv_lhs => rw [← List.take_append_drop k calls]
    simp [totalAmount]
  have hdrop := totalAmount_nonneg (calls.drop k) (fun c hc => h c (List.mem_of_mem_drop hc))
  linarith

theorem runIncreases_total (calls : List (ℚ × ℚ)) (s : Store)
    (h : ∀ c ∈ calls, 0 ≤ c.2)
    (hsum : s.possessionLevel + s._queuedPossessionIncrease + totalAmount calls ≤ 100) :
    (runIncreases calls s).possessionLevel + (runIncreases calls s)._queuedPossessionIncrease =
      s.possessionLevel + s._queuedPossessionIncrease + totalAmount calls := by
  induction calls generalizing s with
  | nil => simp [runIncreases, totalAmount]
  | cons c rest ih =>
    have hc := h c (List.mem_cons_self _ _)
    have hrest := totalAmount_nonneg rest (fun d hd => h d (List.mem_cons_of_mem _ hd))
    have htot : totalAmount (c :: rest) = c.2 + totalAmount rest := by
      simp [totalAmount]
    rw [htot] at hsum ⊢
    have hstep : (increasePossession c.1 c.2 s).2.possessionLevel +
        (increasePossession c.1 c.2 s).2._queuedPossessionIncrease =
        s.possessionLevel + s._queuedPossessionIncrease + c.2 := by
      rw [increasePossession_level, increasePossession_queue]
      split_ifs
      · ring
      · rw [min_eq_right (by linarith)]
        ring
    have := ih (increasePossession c.1 c.2 s).2
      (fun d hd => h d (List.mem_cons_of_mem _ hd)) (by rw [hstep]; linarith)
    simp only [runIncreases, List.foldl_cons] at this ⊢
    rw [this, hstep]
    ring

theorem runIncreases_take_succ (calls : List (ℚ × ℚ)) (s : Store) (k : Nat) (c : ℚ × ℚ)
    (hk : calls.get? k = some c) :
    runIncreases (calls.take (k + 1)) s =
      (increasePossession c.1 c.2 (runIncreases (calls.take k) s)).2 := by
  rw [List.get?_eq_getElem?] at hk
  simp [runIncreases, List.take_succ, hk]

/-- With exact sums, throttling never loses an increment: for `increasePossession` calls
(the action with its sums taken exactly) with
non-negative amounts from a store with an empty increase queue, while the initial level
plus all amounts is at most 100, after every call (every prefix) the level plus the
pending queued increase equals the initial level plus the amounts so far; whenever the
last call of a prefix is not throttled the level itself equals that sum; and from level
0 with the first call unthrottled, calls of 10, 5, 5, 10 at `t`, `t+200`, `t+700`,
`t+1100` leave the level at 30. -/
theorem throttling_keeps_increments (s : Store) (calls : List (ℚ × ℚ))
    (hq : s._queuedPossessionIncrease = 0)
    (hamount : ∀ c ∈ calls, 0 ≤ c.2)
    (hsum : s.possessionLevel + totalAmount calls ≤ 100) :
    (∀ k, (runIncreases (calls.take k) s).possessionLevel +
        (runIncreases (calls.take k) s)._queuedPossessionIncrease =
          s.possessionLevel + totalAmount (calls.take k)) ∧
    (∀ k c, calls.get? k = some c → ¬ throttled c.1 (runIncreases (calls.take k) s) →
        (runIncreases (calls.take (k + 1)) s).possessionLevel =
          s.possessionLevel + totalAmount (calls.take (k + 1))) ∧
    (∀ t, s.possessionLevel = 0 → ¬ throttled t s →
        (runIncreases [(t, 10), (t + 200, 5), (t + 700, 5), (t + 1100, 10)] s).possessionLevel
          = 30) := by
  have hsums : ∀ k, (runIncreases (calls.take k) s).possessionLevel +
      (runIncreases (calls.take k) s)._queuedPossessionIncrease =
        s.possessionLevel + totalAmount (calls.take k) := by
    intro k
    have hle := totalAmount_take_le calls hamount k
    have := runIncreases_total (calls.take k) s
      (fun c hc => hamount c (List.mem_of_mem_take hc)) (by rw [hq]; linarith)
    rw [this, hq]
    ring
  refine ⟨hsums, ?_, ?_⟩
  · intro k c hk hthr
    have h1 := hsums (k + 1)
    have h2 : (runIncreases (calls.take (k + 1)) s)._queuedPossessionIncrease = 0 := by
      rw [runIncreases_take_succ calls s k c hk, increasePossession_queue, if_neg hthr]
    rw [h2, add_zero] at h1
    exact h1
  · intro t hlevel hthr
    have hthr1 : ¬ (t - s._lastPossessionUpdateTime < 1000) := hthr
    simp only [runIncreases, List.foldl_cons, List.foldl_nil]
    have e1 : (increasePossession t 10 s).2.possessionLevel = 10 := by
      rw [increasePossession_level, if_neg hthr, hlevel, hq]
      norm_num
    have l1 : (increasePossession t 10 s).2._lastPossessionUpdateTime = t := by
      rw [increasePossession_lastUpdate, if_neg hthr, hlevel, hq]
      norm_num
    have q1 : (increasePossession t 10 s).2._queuedPossessionIncrease = 0 := by
      rw [increasePossession_queue, if_neg hthr]
    generalize (increasePossession t 10 s).2 = s1 at e1 l1 q1
    have t2 : throttled (t + 200) s1 := by
      rw [throttled, l1, _possessionUpdateThrottle]
      norm_num
    have e2 : (increasePossession (t + 200) 5 s1).2.possessionLevel = 10 := by
      rw [increasePossession_level, if_pos t2, e1]
    have l2 : (increasePossession (t + 200) 5 s1).2._lastPossessionUpdateTime = t := by
      rw [increasePossession_lastUpdate, if_pos t2, l1]
    have q2 : (increasePossession (t + 200) 5 s1).2._queuedPossessionIncrease = 5 := by
      rw [increasePossession_queue, if_pos t2, q1]
      norm_num
    generalize (increasePossession (t + 200) 5 s1).2 = s2 at e2 l2 q2
    have t3 : throttled (t + 700) s2 := by
      rw [throttled, l2, _possessionUpdateThrottle]
      norm_num
    have e3 : (increasePossession (t + 700) 5 s2).2.possessionLevel = 10 := by
      rw [increasePossession_level, if_pos t3, e2]
    have l3 : (increasePossession (t + 700) 5 s2).2._lastPossessionUpdateTime = t := by
      rw [increasePossession_lastUpdate, if_pos t3, l2]
    have q3 : (increasePossession (t + 700) 5 s2).2._queuedPossessionIncrease = 10 := by
      rw [increasePossession_queue, if_pos t3, q2]
      norm_num
    generalize (increasePossession (t + 700) 5 s2).2 = s3 at e3 l3 q3
    have t4 : ¬ throttled (t + 1100) s3 := by
      rw [throttled, l3, _possessionUpdateThrottle]
      norm_num
    rw [increasePossession_level, if_neg t4, e3, q3]
    norm_num

theorem throttling_keeps_increments_witness :
    (runIncreases [((5000 : ℚ), (10 : ℚ)), (5000 + 200, 5), (5000 + 700, 5), (5000 + 1100, 10)]
      Store.fresh).possessionLevel = 30 :=
  (throttling_keeps_increments Store.fresh [(5000, 10), (5200, 5), (5700, 5), (6100, 10)] rfl
    (by
      intro c hc
      simp only [List.mem_cons, List.mem_singleton, List.not_mem_nil, or_false] at hc
      rcases hc with rfl | rfl | rfl | rfl <;> norm_num)
    (by norm_num [totalAmount, Store.fresh])).2.2 5000 rfl
    (by norm_num [throttled, Store.fresh, _possessionUpdateThrottle])

/-! ### C2: throttling and the rounding of double sums -/

theorem roundHalfEven_of_near (y : ℚ) (m : ℤ) (hlo : (m : ℚ) - 1 / 2 < y)
    (hhi : y < (m : ℚ) + 1 / 2) : roundHalfEven y = m := by
  unfold roundHalfEven
  dsimp only
  by_cases hge : (m : ℚ) ≤ y
  · have hf : Int.floor y = m := by
      rw [Int.floor_eq_iff]
      exact ⟨hge, by linarith⟩
    rw [hf, if_pos (by linarith)]
  · have hf : Int.floor y = m - 1 := by
      rw [Int.floor_eq_iff]
      push_cast
      exact ⟨by linarith, by linarith⟩
    rw [hf]
    push_cast
    rw [if_neg (by linarith), if_pos (by linarith)]
    ring

theorem roundHalfEven_of_tie (y : ℚ) (m : ℤ) (h : y = (m : ℚ) + 1 / 2) :
    roundHalfEven y = if m % 2 = 0 then m else m + 1 := by
  unfold roundHalfEven
  dsimp only
  have hf : Int.floor y = m := by
    rw [Int.floor_eq_iff]
    exact ⟨by linarith, by linarith⟩
  rw [hf, if_neg (by linarith), if_neg (by linarith)]

theorem roundDouble_of_pos (x : ℚ) (e m : ℤ) (hlo : (2 : ℚ) ^ e ≤ x)
    (hhi : x < (2 : ℚ) ^ (e + 1)) (hm : roundHalfEven (x / (2 : ℚ) ^ (e - 52)) = m) :
    roundDouble x = (m : ℚ) * (2 : ℚ) ^ (e - 52) := by
  have hpos : 0 < x := lt_of_lt_of_le (zpow_pos (by norm_num) e) hlo
  have hlog : Int.log 2 |x| = e := by
    rw [abs_of_pos hpos]
    have h1 : e ≤ Int.log 2 x :=
      (Int.zpow_le_iff_le_log (by norm_num) hpos).mp (by exact_mod_cast hlo)
    have h2 : Int.log 2 x < e + 1 :=
      (Int.lt_zpow_iff_log_lt (by norm_num) hpos).mp (by exact_mod_cast hhi)
    omega
  unfold roundDouble
  rw [if_neg (ne_of_gt hpos)]
  dsimp only
  rw [hlog, abs_of_pos hpos, hm, if_neg (not_lt.mpr (le_of_lt hpos))]
  ring

theorem roundDouble_grid (n k : ℕ) (h : n < 2 ^ 53) :
    roundDouble ((n : ℚ) / 2 ^ k) = (n : ℚ) / 2 ^ k := by
  rcases Nat.eq_zero_or_pos n with h0 | hn
  · rw [h0]
    simp [roundDouble]
  · have hx : 0 < (n : ℚ) / 2 ^ k := div_pos (by exact_mod_cast hn) (by positivity)
    have hlo : (2 : ℚ) ^ (Int.log 2 ((n : ℚ) / 2 ^ k)) ≤ (n : ℚ) / 2 ^ k := by
      have := Int.zpow_log_le_self (b := 2) (by norm_num) hx
      exact_mod_cast this
    have hhi : (n : ℚ) / 2 ^ k < (2 : ℚ) ^ (Int.log 2 ((n : ℚ) / 2 ^ k) + 1) := by
      have := Int.lt_zpow_succ_log_self (b := 2) (by norm_num) ((n : ℚ) / 2 ^ k)
      exact_mod_cast this
    generalize Int.log 2 ((n : ℚ) / 2 ^ k) = e at hlo hhi
    have hbound : (n : ℚ) / 2 ^ k < (2 : ℚ) ^ ((53 : ℤ) - k) := by
      rw [zpow_sub₀ (by norm_num), zpow_natCast, div_lt_div_iff_of_pos_right (by positivity)]
      exact_mod_cast h
    have he : e < 53 - (k : ℤ) := by
      have hlt : (2 : ℚ) ^ e < (2 : ℚ) ^ ((53 : ℤ) - k) := lt_of_le_of_lt hlo hbound
      exact (zpow_lt_zpow_iff_right₀ (by norm_num)).mp hlt
    obtain ⟨j, hj⟩ : ∃ j : ℕ, (j : ℤ) = 52 - k - e := ⟨(52 - k - e).toNat, by omega⟩
    have key : (n : ℚ) / 2 ^ k = (((n * 2 ^ j : ℕ) : ℤ) : ℚ) * (2 : ℚ) ^ (e - 52) := by
      have hexp : (2 : ℚ) ^ (j : ℕ) * (2 : ℚ) ^ (e - 52) = ((2 : ℚ) ^ k)⁻¹ := by
        rw [← zpow_natCast, ← zpow_add₀ (by norm_num), ← zpow_natCast, ← zpow_neg]
        congr 1
        omega
      push_cast
      rw [mul_assoc, hexp, div_eq_mul_inv]
    have hm : roundHalfEven ((n : ℚ) / 2 ^ k / (2 : ℚ) ^ (e - 52)) = ((n * 2 ^ j : ℕ) : ℤ) := by
      have hq : (n : ℚ) / 2 ^ k / (2 : ℚ) ^ (e - 52) = (((n * 2 ^ j : ℕ) : ℤ) : ℚ) := by
        rw [key, mul_div_assoc, div_self (ne_of_gt (zpow_pos (by norm_num) _)), mul_one]
      rw [hq]
      exact roundHalfEven_of_near _ _ (by linarith) (by linarith)
    rw [roundDouble_of_pos _ e _ hlo hhi hm]
    exact key.symm
theorem binaryFraction_add (k : ℕ) (a b : ℚ) (ha : binaryFraction k a)
    (hb : binaryFraction k b) : binaryFraction k (a + b) := by
  obtain ⟨n, rfl⟩ := ha
  obtain ⟨m, rfl⟩ := hb
  exact ⟨n + m, by push_cast; ring⟩

theorem binaryFraction_zero (k : ℕ) : binaryFraction k 0 := ⟨0, by simp⟩

theorem binaryFraction_nonneg (k : ℕ) (a : ℚ) (ha : binaryFraction k a) : 0 ≤ a := by
  obtain ⟨n, rfl⟩ := ha
  positivity

theorem doubleAdd_grid (k : ℕ) (hk : k ≤ 46) (a b : ℚ) (ha : binaryFraction k a)
    (hb : binaryFraction k b) (hsum : a + b ≤ 100) : doubleAdd a b = a + b := by
  obtain ⟨n, hn⟩ := binaryFraction_add k a b ha hb
  unfold doubleAdd
  rw [hn]
  apply roundDouble_grid
  have hle : (n : ℚ) ≤ 100 * 2 ^ k := by
    rw [hn, div_le_iff₀ (by positivity)] at hsum
    exact hsum
  have hpow : (2 : ℚ) ^ k ≤ 2 ^ 46 := pow_le_pow_right₀ (by norm_num) hk
  have hlt : (n : ℚ) < 2 ^ 53 := by
    calc (n : ℚ) ≤ 100 * 2 ^ k := hle
      _ ≤ 100 * 2 ^ 46 := by linarith
      _ < 2 ^ 53 := by norm_num
  exact_mod_cast hlt

theorem increasePossessionDouble_eq (now amount : ℚ) (s : Store)
    (h1 : doubleAdd s._queuedPossessionIncrease amount = s._queuedPossessionIncrease + amount)
    (h2 : doubleAdd amount s._queuedPossessionIncrease = amount + s._queuedPossessionIncrease)
    (h3 : doubleAdd s.possessionLevel (amount + s._queuedPossessionIncrease) =
      s.possessionLevel + (amount + s._queuedPossessionIncrease)) :
    increasePossessionDouble now amount s = increasePossession now amount s := by
  unfold increasePossessionDouble increasePossession
  by_cases hq : s._queuedPossessionIncrease = 0
  · rw [hq] at h1 h3
    rw [add_zero] at h3
    simp only [hq, ne_eq, not_true_eq_false, if_false, if_true, h1, h3]
  · simp only [hq, ne_eq, not_false_eq_true, if_false, if_true, h1, h2, h3]

theorem increasePossessionDouble_level (now amount : ℚ) (s : Store) :
    (increasePossessionDouble now amount s).2.possessionLevel =
      if throttled now s then s.possessionLevel
      else min 100 (doubleAdd s.possessionLevel
        (if s._queuedPossessionIncrease = 0 then amount
          else doubleAdd amount s._queuedPossessionIncrease)) := by
  unfold increasePossessionDouble throttled
  dsimp only
  by_cases ht : now - s._lastPossessionUpdateTime < _possessionUpdateThrottle
  · rw [if_pos ht, if_pos ht]
  · rw [if_neg ht, if_neg ht]
    by_cases hq : s._queuedPossessionIncrease = 0
    · simp only [hq, ne_eq, not_true_eq_false, if_false, if_true]
      split_ifs <;> simp [recordEvent, debouncedSave]
    · simp only [hq, ne_eq, not_false_eq_true, if_true, if_false]
      split_ifs <;> simp [recordEvent, debouncedSave]

theorem increasePossessionDouble_queue (now amount : ℚ) (s : Store) :
    (increasePossessionDouble now amount s).2._queuedPossessionIncrease =
      if throttled now s then doubleAdd s._queuedPossessionIncrease amount
      else 0 := by
  unfold increasePossessionDouble throttled
  dsimp only
  by_cases ht : now - s._lastPossessionUpdateTime < _possessionUpdateThrottle
  · rw [if_pos ht, if_pos ht]
    by_cases hq : s._queuedPossessionIncrease = 0 <;> simp [hq]
  · rw [if_neg ht, if_neg ht]
    by_cases hq : s._queuedPossessionIncrease = 0
    · simp only [hq, ne_eq, not_true_eq_false, if_false]
      split_ifs <;> simp [recordEvent, debouncedSave, hq]
    · simp only [hq, ne_eq, not_false_eq_true, if_true]
      split_ifs <;> simp [recordEvent, debouncedSave]

theorem increasePossessionDouble_lastUpdate (now amount : ℚ) (s : Store) :
    (increasePossessionDouble now amount s).2._lastPossessionUpdateTime =
      if throttled now s then s._lastPossessionUpdateTime
      else if min 100 (doubleAdd s.possessionLevel
          (if s._queuedPossessionIncrease = 0 then amount
            else doubleAdd amount s._queuedPossessionIncrease)) = s.possessionLevel
        then s._lastPossessionUpdateTime else now := by
  unfold increasePossessionDouble throttled
  dsimp only
  by_cases ht : now - s._lastPossessionUpdateTime < _possessionUpdateThrottle
  · rw [if_pos ht, if_pos ht]
  · rw [if_neg ht, if_neg ht]
    by_cases hq : s._queuedPossessionIncrease = 0
    · simp only [hq, ne_eq, not_true_eq_false, if_false, if_true]
      split_ifs <;> simp_all [recordEvent, debouncedSave]
    · simp only [hq, ne_eq, not_false_eq_true, if_true, if_false]
      split_ifs <;> simp_all [recordEvent, debouncedSave]

theorem increasePossession_grid (k : ℕ) (now amount : ℚ) (s : Store)
    (hl : binaryFraction k s.possessionLevel)
    (hq : binaryFraction k s._queuedPossessionIncrease) (ha : binaryFraction k amount)
    (hsum : s.possessionLevel + s._queuedPossessionIncrease + amount ≤ 100) :
    binaryFraction k (increasePossession now amount s).2.possessionLevel ∧
    binaryFraction k (increasePossession now amount s).2._queuedPossessionIncrease ∧
    (increasePossession now amount s).2.possessionLevel +
      (increasePossession now amount s).2._queuedPossessionIncrease =
        s.possessionLevel + s._queuedPossessionIncrease + amount := by
  rw [increasePossession_level, increasePossession_queue]
  split_ifs
  · exact ⟨hl, binaryFraction_add k _ _ hq ha, by ring⟩
  · rw [min_eq_right (by linarith)]
    exact ⟨binaryFraction_add k _ _ hl (binaryFraction_add k _ _ ha hq),
      binaryFraction_zero k, by ring⟩

theorem runIncreasesDouble_eq (k : ℕ) (hk : k ≤ 46) (calls : List (ℚ × ℚ)) (s : Store)
    (hl : binaryFraction k s.possessionLevel)
    (hq : binaryFraction k s._queuedPossessionIncrease)
    (ha : ∀ c ∈ calls, binaryFraction k c.2)
    (hsum : s.possessionLevel + s._queuedPossessionIncrease + totalAmount calls ≤ 100) :
    runIncreasesDouble calls s = runIncreases calls s := by
  induction calls generalizing s with
  | nil => rfl
  | cons c rest ih =>
    have hc := ha c (List.mem_cons_self _ _)
    have hrest : ∀ d ∈ rest, binaryFraction k d.2 :=
      fun d hd => ha d (List.mem_cons_of_mem _ hd)
    have hrest0 := totalAmount_nonneg rest (fun d hd => binaryFraction_nonneg k _ (hrest d hd))
    have htot : totalAmount (c :: rest) = c.2 + totalAmount rest := by
      simp [totalAmount]
    rw [htot] at hsum
    have hl0 := binaryFraction_nonneg k _ hl
    have hq0 := binaryFraction_nonneg k _ hq
    have hc0 := binaryFraction_nonneg k _ hc
    have hstep : increasePossessionDouble c.1 c.2 s = increasePossession c.1 c.2 s :=
      increasePossessionDouble_eq c.1 c.2 s
        (doubleAdd_grid k hk _ _ hq hc (by linarith))
        (doubleAdd_grid k hk _ _ hc hq (by linarith))
        (doubleAdd_grid k hk _ _ hl (binaryFraction_add k _ _ hc hq) (by linarith))
    obtain ⟨hl1, hq1, hsum1⟩ := increasePossession_grid k c.1 c.2 s hl hq hc (by linarith)
    simp only [runIncreasesDouble, runIncreases, List.foldl_cons, hstep]
    exact ih (increasePossession c.1 c.2 s).2 hl1 hq1 hrest (by rw [hsum1]; linarith)
theorem roundDouble_tenth : roundDouble (1 / 10) = 3602879701896397 / 2 ^ 55 := by
  rw [roundDouble_of_pos _ (-4) 7205759403792794 (by norm_num) (by norm_num)
    (roundHalfEven_of_near _ _ (by norm_num) (by norm_num))]
  norm_num

theorem roundDouble_fifth : roundDouble (2 / 10) = 3602879701896397 / 2 ^ 54 := by
  rw [roundDouble_of_pos _ (-3) 7205759403792794 (by norm_num) (by norm_num)
    (roundHalfEven_of_near _ _ (by norm_num) (by norm_num))]
  norm_num

theorem roundDouble_threeTenths : roundDouble (3 / 10) = 5404319552844595 / 2 ^ 54 := by
  rw [roundDouble_of_pos _ (-2) 5404319552844595 (by norm_num) (by norm_num)
    (roundHalfEven_of_near _ _ (by norm_num) (by norm_num))]
  norm_num

theorem roundDouble_sevenTenths : roundDouble (7 / 10) = 3152519739159347 / 2 ^ 52 := by
  rw [roundDouble_of_pos _ (-1) 6305039478318694 (by norm_num) (by norm_num)
    (roundHalfEven_of_near _ _ (by norm_num) (by norm_num))]
  norm_num

theorem doubleAdd_zero_left (n k : ℕ) (h : n < 2 ^ 53) :
    doubleAdd 0 ((n : ℚ) / 2 ^ k) = (n : ℚ) / 2 ^ k := by
  unfold doubleAdd
  rw [zero_add]
  exact roundDouble_grid n k h

theorem doubleAdd_zero_tenth :
    doubleAdd 0 (3602879701896397 / 2 ^ 55) = 3602879701896397 / 2 ^ 55 := by
  have h := doubleAdd_zero_left 3602879701896397 55 (by norm_num)
  push_cast at h
  exact h

theorem doubleAdd_zero_fifth :
    doubleAdd 0 (3602879701896397 / 2 ^ 54) = 3602879701896397 / 2 ^ 54 := by
  have h := doubleAdd_zero_left 3602879701896397 54 (by norm_num)
  push_cast at h
  exact h

theorem doubleAdd_queue : doubleAdd (3602879701896397 / 2 ^ 54) (5404319552844595 / 2 ^ 54) =
    1 / 2 := by
  unfold doubleAdd
  have h := roundDouble_grid 1 1 (by norm_num)
  norm_num at h ⊢
  exact h

theorem doubleAdd_amount : doubleAdd (3602879701896397 / 2 ^ 55) (1 / 2) =
    5404319552844595 / 2 ^ 53 := by
  unfold doubleAdd
  rw [roundDouble_of_pos _ (-1) 5404319552844595 (by norm_num) (by norm_num)
    (roundHalfEven_of_near _ _ (by norm_num) (by norm_num))]
  norm_num

theorem doubleAdd_level :
    doubleAdd (3602879701896397 / 2 ^ 55) (5404319552844595 / 2 ^ 53) =
      3152519739159347 / 2 ^ 52 := by
  unfold doubleAdd
  rw [roundDouble_of_pos _ (-1) 6305039478318694 (by norm_num) (by norm_num)
    (roundHalfEven_of_near _ _ (by norm_num) (by norm_num))]
  norm_num

theorem doubleAdd_first : doubleAdd (3602879701896397 / 2 ^ 55) (3602879701896397 / 2 ^ 54) =
    5404319552844596 / 2 ^ 54 := by
  unfold doubleAdd
  rw [roundDouble_of_pos _ (-2) 5404319552844596 (by norm_num) (by norm_num)
    (by
      rw [roundHalfEven_of_tie _ 5404319552844595 (by norm_num)]
      norm_num)]
  norm_num

theorem doubleAdd_second : doubleAdd (5404319552844596 / 2 ^ 54) (5404319552844595 / 2 ^ 54) =
    5404319552844596 / 2 ^ 53 := by
  unfold doubleAdd
  rw [roundDouble_of_pos _ (-1) 5404319552844596 (by norm_num) (by norm_num)
    (by
      rw [roundHalfEven_of_tie _ 5404319552844595 (by norm_num)]
      norm_num)]
  norm_num

theorem doubleAdd_third : doubleAdd (5404319552844596 / 2 ^ 53) (3602879701896397 / 2 ^ 55) =
    6305039478318695 / 2 ^ 53 := by
  unfold doubleAdd
  rw [roundDouble_of_pos _ (-1) 6305039478318695 (by norm_num) (by norm_num)
    (roundHalfEven_of_near _ _ (by norm_num) (by norm_num))]
  norm_num

theorem roundingCalls_eq :
    roundingCalls =
      [(1000000, 3602879701896397 / 2 ^ 55), (1000200, 3602879701896397 / 2 ^ 54),
       (1000700, 5404319552844595 / 2 ^ 54), (1001100, 3602879701896397 / 2 ^ 55)] := by
  unfold roundingCalls
  rw [roundDouble_tenth, roundDouble_fifth, roundDouble_threeTenths]

theorem roundingCalls_run :
    (runIncreasesDouble (roundingCalls.take 3) Store.fresh).possessionLevel =
      3602879701896397 / 2 ^ 55 ∧
    (runIncreasesDouble (roundingCalls.take 3) Store.fresh)._queuedPossessionIncrease = 1 / 2 ∧
    (runIncreasesDouble (roundingCalls.take 3) Store.fresh)._lastPossessionUpdateTime =
      1000000 := by
  rw [roundingCalls_eq]
  simp only [List.take, runIncreasesDouble, List.foldl_cons, List.foldl_nil]
  have t1 : ¬ throttled 1000000 Store.fresh := by
    norm_num [throttled, Store.fresh, _possessionUpdateThrottle]
  have e1 : (increasePossessionDouble 1000000 (3602879701896397 / 2 ^ 55)
      Store.fresh).2.possessionLevel = 3602879701896397 / 2 ^ 55 := by
    rw [increasePossessionDouble_level, if_neg t1]
    have h0 : Store.fresh.possessionLevel = 0 := rfl
    have hq : Store.fresh._queuedPossessionIncrease = 0 := rfl
    rw [h0, hq, if_pos rfl, doubleAdd_zero_tenth]
    norm_num
  have l1 : (increasePossessionDouble 1000000 (3602879701896397 / 2 ^ 55)
      Store.fresh).2._lastPossessionUpdateTime = 1000000 := by
    rw [increasePossessionDouble_lastUpdate, if_neg t1]
    have h0 : Store.fresh.possessionLevel = 0 := rfl
    have hq : Store.fresh._queuedPossessionIncrease = 0 := rfl
    rw [h0, hq, if_pos rfl, doubleAdd_zero_tenth]
    norm_num
  have q1 : (increasePossessionDouble 1000000 (3602879701896397 / 2 ^ 55)
      Store.fresh).2._queuedPossessionIncrease = 0 := by
    rw [increasePossessionDouble_queue, if_neg t1]
  generalize (increasePossessionDouble 1000000 (3602879701896397 / 2 ^ 55) Store.fresh).2 = s1
    at e1 l1 q1
  have t2 : throttled 1000200 s1 := by
    rw [throttled, l1, _possessionUpdateThrottle]
    norm_num
  have e2 : (increasePossessionDouble 1000200 (3602879701896397 / 2 ^ 54) s1).2.possessionLevel =
      3602879701896397 / 2 ^ 55 := by
    rw [increasePossessionDouble_level, if_pos t2, e1]
  have l2 : (increasePossessionDouble 1000200 (3602879701896397 / 2 ^ 54)
      s1).2._lastPossessionUpdateTime = 1000000 := by
    rw [increasePossessionDouble_lastUpdate, if_pos t2, l1]
  have q2 : (increasePossessionDouble 1000200 (3602879701896397 / 2 ^ 54)
      s1).2._queuedPossessionIncrease = 3602879701896397 / 2 ^ 54 := by
    rw [increasePossessionDouble_queue, if_pos t2, q1,
      doubleAdd_zero_fifth]
  generalize (increasePossessionDouble 1000200 (3602879701896397 / 2 ^ 54) s1).2 = s2
    at e2 l2 q2
  have t3 : throttled 1000700 s2 := by
    rw [throttled, l2, _possessionUpdateThrottle]
    norm_num
  refine ⟨?_, ?_, ?_⟩
  · rw [increasePossessionDouble_level, if_pos t3, e2]
  · rw [increasePossessionDouble_queue, if_pos t3, q2, doubleAdd_queue]
  · rw [increasePossessionDouble_lastUpdate, if_pos t3, l2]

theorem roundingCalls_last :
    runIncreasesDouble roundingCalls Store.fresh =
      (increasePossessionDouble 1001100 (3602879701896397 / 2 ^ 55)
        (runIncreasesDouble (roundingCalls.take 3) Store.fresh)).2 := by
  rw [roundingCalls_eq]
  rfl

/-- C2, as stated, fails in the arithmetic of the code: the calls
`increasePossession(0.1)`, `(0.2)`, `(0.3)`, `(0.1)` at `t`, `t + 200`, `t + 700`,
`t + 1100` from level 0 have non-negative amounts that sum to less than 100 and end with a
call that is not throttled, yet they leave the level at the double `0.7`, with an empty
queue, while the amounts add up to `0.7 + 2^-54` exactly and to `0.7000000000000001` when
summed in doubles in call order: the queue adds `0.2 + 0.3` first, and double addition
rounds. -/
theorem throttling_rounding_counterexample :
    (∀ c ∈ roundingCalls, 0 ≤ c.2) ∧
    Store.fresh._queuedPossessionIncrease = 0 ∧
    Store.fresh.possessionLevel + totalAmount roundingCalls ≤ 100 ∧
    ¬ throttled 1001100 (runIncreasesDouble (roundingCalls.take 3) Store.fresh) ∧
    (runIncreasesDouble roundingCalls Store.fresh).possessionLevel = roundDouble (7 / 10) ∧
    (runIncreasesDouble roundingCalls Store.fresh)._queuedPossessionIncrease = 0 ∧
    Store.fresh.possessionLevel + totalAmount roundingCalls =
      roundDouble (7 / 10) + 1 / 2 ^ 54 ∧
    doubleSum Store.fresh.possessionLevel (roundingCalls.map Prod.snd) =
      roundDouble (7 / 10) + 1 / 2 ^ 53 ∧
    (runIncreasesDouble roundingCalls Store.fresh).possessionLevel +
        (runIncreasesDouble roundingCalls Store.fresh)._queuedPossessionIncrease ≠
      Store.fresh.possessionLevel + totalAmount roundingCalls ∧
    (runIncreasesDouble roundingCalls Store.fresh).possessionLevel +
        (runIncreasesDouble roundingCalls Store.fresh)._queuedPossessionIncrease ≠
      doubleSum Store.fresh.possessionLevel (roundingCalls.map Prod.snd) := by
  obtain ⟨e3, q3, l3⟩ := roundingCalls_run
  have t4 : ¬ throttled 1001100 (runIncreasesDouble (roundingCalls.take 3) Store.fresh) := by
    rw [throttled, l3, _possessionUpdateThrottle]
    norm_num
  have hlevel : (runIncreasesDouble roundingCalls Store.fresh).possessionLevel =
      3152519739159347 / 2 ^ 52 := by
    rw [roundingCalls_last, increasePossessionDouble_level, if_neg t4, e3, q3,
      if_neg (by norm_num), doubleAdd_amount, doubleAdd_level]
    norm_num
  have hqueue : (runIncreasesDouble roundingCalls Store.fresh)._queuedPossessionIncrease = 0 := by
    rw [roundingCalls_last, increasePossessionDouble_queue, if_neg t4]
  have htotal : Store.fresh.possessionLevel + totalAmount roundingCalls =
      12610078956637389 / 2 ^ 54 := by
    rw [roundingCalls_eq]
    norm_num [totalAmount, Store.fresh]
  have hdsum : doubleSum Store.fresh.possessionLevel (roundingCalls.map Prod.snd) =
      6305039478318695 / 2 ^ 53 := by
    rw [roundingCalls_eq]
    have h0 : Store.fresh.possessionLevel = 0 := rfl
    simp only [doubleSum, List.map_cons, List.map_nil, List.foldl_cons, List.foldl_nil, h0]
    rw [doubleAdd_zero_tenth, doubleAdd_first,
      doubleAdd_second, doubleAdd_third]
  refine ⟨?_, rfl, ?_, t4, ?_, hqueue, ?_, ?_, ?_, ?_⟩
  · rw [roundingCalls_eq]
    intro c hc
    simp only [List.mem_cons, List.mem_singleton, List.not_mem_nil, or_false] at hc
    rcases hc with rfl | rfl | rfl | rfl <;> norm_num
  · rw [htotal]
    norm_num
  · rw [hlevel, roundDouble_sevenTenths]
  · rw [htotal, roundDouble_sevenTenths]
    norm_num
  · rw [hdsum, roundDouble_sevenTenths]
    norm_num
  · rw [hlevel, hqueue, htotal]
    norm_num
  · rw [hlevel, hqueue, hdsum]
    norm_num

/-- C2 (amended). Throttling never loses an increment when the sums are exact: for
`increasePossession` calls, in the double arithmetic of the code, whose amounts and
initial level are non-negative binary fractions `n / 2^k` with `k ≤ 46` (integers,
multiples of 0.5 or of 0.25, ..), from a store with an empty increase queue, while the
initial level plus all amounts is at most 100, after every call (every prefix) the level
plus the pending queued increase equals the initial level plus the amounts so far;
whenever the last call of a prefix is not throttled the level itself equals that sum; and
from level 0 with the first call unthrottled, calls of 10, 5, 5, 10 at `t`, `t+200`,
`t+700`, `t+1100` leave the level at 30. -/
theorem throttling_keeps_exact_increments (k : ℕ) (hk : k ≤ 46) (s : Store)
    (calls : List (ℚ × ℚ))
    (hq : s._queuedPossessionIncrease = 0)
    (hlevel : binaryFraction k s.possessionLevel)
    (hamount : ∀ c ∈ calls, binaryFraction k c.2)
    (hsum : s.possessionLevel + totalAmount calls ≤ 100) :
    (∀ j, (runIncreasesDouble (calls.take j) s).possessionLevel +
        (runIncreasesDouble (calls.take j) s)._queuedPossessionIncrease =
          s.possessionLevel + totalAmount (calls.take j)) ∧
    (∀ j c, calls.get? j = some c → ¬ throttled c.1 (runIncreasesDouble (calls.take j) s) →
        (runIncreasesDouble (calls.take (j + 1)) s).possessionLevel =
          s.possessionLevel + totalAmount (calls.take (j + 1))) ∧
    (∀ t, s.possessionLevel = 0 → ¬ throttled t s →
        (runIncreasesDouble [(t, 10), (t + 200, 5), (t + 700, 5), (t + 1100, 10)]
          s).possessionLevel = 30) := by
  have hnonneg : ∀ c ∈ calls, 0 ≤ c.2 := fun c hc => binaryFraction_nonneg k _ (hamount c hc)
  have hqueue : binaryFraction k s._queuedPossessionIncrease := by
    rw [hq]
    exact binaryFraction_zero k
  have heq : ∀ j, runIncreasesDouble (calls.take j) s = runIncreases (calls.take j) s := by
    intro j
    have hle := totalAmount_take_le calls hnonneg j
    exact runIncreasesDouble_eq k hk _ s hlevel hqueue
      (fun c hc => hamount c (List.mem_of_mem_take hc)) (by rw [hq]; linarith)
  have hexact := throttling_keeps_increments s calls hq hnonneg hsum
  refine ⟨?_, ?_, ?_⟩
  · intro j
    rw [heq j]
    exact hexact.1 j
  · intro j c hj hthr
    rw [heq j] at hthr
    rw [heq (j + 1)]
    exact hexact.2.1 j c hj hthr
  · intro t hzero hthr
    have hnat : ∀ c ∈ [(t, (10 : ℚ)), (t + 200, 5), (t + 700, 5), (t + 1100, 10)],
        binaryFraction 0 c.2 := by
      intro c hc
      simp only [List.mem_cons, List.mem_singleton, List.not_mem_nil, or_false] at hc
      rcases hc with rfl | rfl | rfl | rfl
      · exact ⟨10, by norm_num⟩
      · exact ⟨5, by norm_num⟩
      · exact ⟨5, by norm_num⟩
      · exact ⟨10, by norm_num⟩
    rw [runIncreasesDouble_eq 0 (by norm_num) _ s (by rw [hzero]; exact binaryFraction_zero 0)
      (by rw [hq]; exact binaryFraction_zero 0) hnat
      (by rw [hzero, hq]; norm_num [totalAmount])]
    exact hexact.2.2 t hzero hthr

theorem throttling_keeps_exact_increments_witness :
    (runIncreasesDouble
        [(1000000, 3 / 2), (1000200, 3 / 4), (1000700, 9 / 4), (1001100, 15)]
        Store.fresh).possessionLevel +
      (runIncreasesDouble
        [(1000000, 3 / 2), (1000200, 3 / 4), (1000700, 9 / 4), (1001100, 15)]
        Store.fresh)._queuedPossessionIncrease = 39 / 2 := by
  have h := (throttling_keeps_exact_increments 2 (by norm_num) Store.fresh
    [(1000000, 3 / 2), (1000200, 3 / 4), (1000700, 9 / 4), (1001100, 15)] rfl
    ⟨0, by norm_num [Store.fresh]⟩
    (by
      intro c hc
      simp only [List.mem_cons, List.mem_singleton, List.not_mem_nil, or_false] at hc
      rcases hc with rfl | rfl | rfl | rfl
      · exact ⟨6, by norm_num⟩
      · exact ⟨3, by norm_num⟩
      · exact ⟨9, by norm_num⟩
      · exact ⟨60, by norm_num⟩)
    (by norm_num [totalAmount, Store.fresh])).1 4
  rw [List.take_of_length_le (by simp)] at h
  rw [h]
  norm_num [totalAmount, Store.fresh]

/-! ### What the achievement check leaves alone -/

theorem saveToLocalStorage_frame (w : World) :
    ∃ saved, saveToLocalStorage w = { w with savedProgress := saved } := by
  unfold saveToLocalStorage
  split
  · exact ⟨_, rfl⟩
  · exact ⟨_, rfl⟩
  · split
    · exact ⟨_, rfl⟩
    · split <;> exact ⟨_, rfl⟩

theorem saveToLocalStorage_eq (w : World) :
    saveToLocalStorage w = { w with savedProgress := (saveToLocalStorage w).savedProgress } := by
  obtain ⟨saved, h⟩ := saveToLocalStorage_frame w
  rw [h]

theorem GameplayService.unlockAchievement_frame (now : ℚ) (achievementId : String)
    (w : World) :
    ∃ ach st saved disp, (GameplayService.unlockAchievement now achievementId w).2 =
      { w with store := { w.store with achievements := ach, statistics := st },
               savedProgress := saved, dispatched := disp } := by
  unfold GameplayService.unlockAchievement
  split
  · exact ⟨_, _, _, _, rfl⟩
  · by_cases h : achievementId ∈ w.store.achievements
    · rw [if_pos h]
      exact ⟨_, _, _, _, rfl⟩
    · rw [if_neg h]
      dsimp only
      rw [saveToLocalStorage_eq]
      exact ⟨_, _, _, _, rfl⟩

theorem GameplayService.checkAchievements_frame (now : ℚ) (w : World) :
    ∃ ach st saved disp, GameplayService.checkAchievements now w =
      { w with store := { w.store with achievements := ach, statistics := st },
               savedProgress := saved, dispatched := disp } := by
  have step : ∀ (id : String) (v : World),
      ∃ ach st saved disp,
        (if id ∈ v.store.achievements then v
          else if GameplayService.condition id v then
            (GameplayService.unlockAchievement now id v).2
          else v) =
        { v with store := { v.store with achievements := ach, statistics := st },
                 savedProgress := saved, dispatched := disp } := by
    intro id v
    split_ifs
    · exact ⟨_, _, _, _, rfl⟩
    · exact GameplayService.unlockAchievement_frame now id v
    · exact ⟨_, _, _, _, rfl⟩
  simp only [GameplayService.checkAchievements, GameplayService.achievementDefinitions,
    List.foldl_cons, List.foldl_nil]
  obtain ⟨a1, st1, sv1, d1, h1⟩ := step "exorcist" w
  rw [h1]
  obtain ⟨a2, st2, sv2, d2, h2⟩ := step "paranormal-investigator"
    { w with store := { w.store with achievements := a1, statistics := st1 },
             savedProgress := sv1, dispatched := d1 }
  rw [h2]
  exact ⟨_, _, _, _, rfl⟩

/-! ### C3: the text exorcism -/

theorem dropWhile_append_all {α : Type} (p : α → Bool) (l r : List α) (h : ∀ x ∈ l, p x = true) :
    (l ++ r).dropWhile p = r.dropWhile p := by
  induction l with
  | nil => rfl
  | cons x xs ih =>
    have hx := h x (List.mem_cons_self _ _)
    simp only [List.cons_append, List.dropWhile_cons, hx, if_true]
    exact ih (fun y hy => h y (List.mem_cons_of_mem _ hy))

theorem GameplayService.toLower_of_isTrimmed (c : Char)
    (h : GameplayService.isTrimmed c = true) : c.toLower = c := by
  have hne : ¬ (c.toNat ≥ 65 ∧ c.toNat ≤ 90) := by
    intro hc
    simp only [GameplayService.isTrimmed, decide_eq_true_eq, List.mem_cons, List.mem_singleton,
      List.not_mem_nil, or_false] at h
    omega
  simp only [Char.toLower]
  rw [if_neg hne]

theorem GameplayService.trim_surrounded (pre core post : List Char)
    (hpre : ∀ c ∈ pre, GameplayService.isTrimmed c = true)
    (hpost : ∀ c ∈ post, GameplayService.isTrimmed c = true)
    (hfirst : ∃ x xs, core = x :: xs ∧ GameplayService.isTrimmed x = false)
    (hlast : ∃ y ys, core.reverse = y :: ys ∧ GameplayService.isTrimmed y = false) :
    GameplayService.trim (pre ++ core ++ post) = core := by
  obtain ⟨x, xs, hx, hxw⟩ := hfirst
  obtain ⟨y, ys, hy, hyw⟩ := hlast
  unfold GameplayService.trim
  rw [List.append_assoc, dropWhile_append_all _ _ _ hpre]
  have h1 : (core ++ post).dropWhile GameplayService.isTrimmed = core ++ post := by
    rw [hx, List.cons_append, List.dropWhile_cons, hxw]
    rfl
  rw [h1, List.reverse_append,
    dropWhile_append_all _ _ _ (fun c hc => hpost c (List.mem_reverse.mp hc))]
  have h2 : core.reverse.dropWhile GameplayService.isTrimmed = core.reverse := by
    rw [hy, List.dropWhile_cons, hyw]
    rfl
  rw [h2, List.reverse_reverse]

theorem GameplayService.normalizedPhrase_begone (phrase : String)
    (h : GameplayService.isBegonePhrase phrase) :
    GameplayService.normalizedPhrase phrase = "begone spirit".data := by
  obtain ⟨pre, core, post, hdata, hpre, hpost, hcore⟩ := h
  unfold GameplayService.normalizedPhrase
  have hmap : ∀ l : List Char, (∀ c ∈ l, GameplayService.isTrimmed c = true) →
      l.map Char.toLower = l := by
    intro l hl
    induction l with
    | nil => rfl
    | cons x xs ih =>
      rw [List.map_cons, GameplayService.toLower_of_isTrimmed x (hl x (List.mem_cons_self _ _)),
        ih (fun y hy => hl y (List.mem_cons_of_mem _ hy))]
  rw [hdata]
  simp only [List.map_append, hmap pre hpre, hmap post hpost, hcore]
  exact GameplayService.trim_surrounded pre _ post hpre hpost
    ⟨_, _, rfl, by decide⟩ ⟨_, _, rfl, by decide⟩

theorem GameplayService.checkAchievements_eq (now : ℚ) (w : World) :
    GameplayService.checkAchievements now w =
      { w with
        store := { w.store with
          achievements := (GameplayService.checkAchievements now w).store.achievements,
          statistics := (GameplayService.checkAchievements now w).store.statistics },
        savedProgress := (GameplayService.checkAchievements now w).savedProgress,
        dispatched := (GameplayService.checkAchievements now w).dispatched } := by
  obtain ⟨ach, st, saved, disp, h⟩ := GameplayService.checkAchievements_frame now w
  rw [h]

theorem GameplayService.performTextExorcism_applied (now : ℚ) (phrase : String) (w : World)
    (hcd : isExorcismOnCooldown now w.store "text" = false)
    (hphrase : GameplayService.normalizedPhrase phrase = "begone spirit".data) :
    (GameplayService.performTextExorcism now phrase w).1 = true ∧
    (GameplayService.performTextExorcism now phrase w).2.store.possessionLevel =
      (decreasePossession now 15 w.store).2.possessionLevel ∧
    (GameplayService.performTextExorcism now phrase w).2.store._queuedPossessionDecrease =
      (decreasePossession now 15 w.store).2._queuedPossessionDecrease := by
  unfold GameplayService.performTextExorcism
  rw [hcd, hphrase]
  simp only [Bool.false_eq_true, if_false, if_true]
  rw [GameplayService.checkAchievements_eq]
  refine ⟨trivial, ?_, ?_⟩ <;>
    simp only [dispatchEvent, GameplayService.triggerExorcismFlash,
      GameplayService.triggerCleansingEffect, GameplayService.applyExorcism, recordEvent] <;>
    split_ifs <;> rfl

theorem raisedWorld_level : raisedWorld.store.possessionLevel = 50 := by
  simp only [raisedWorld, increasePossession_level]
  norm_num [throttled, Store.fresh, _possessionUpdateThrottle]

theorem raisedWorld_lastUpdate : raisedWorld.store._lastPossessionUpdateTime = 1000000 := by
  simp only [raisedWorld, increasePossession_lastUpdate]
  norm_num [throttled, Store.fresh, _possessionUpdateThrottle]

theorem raisedWorld_queue : raisedWorld.store._queuedPossessionDecrease = 0 := by
  simp only [raisedWorld, increasePossession_other_queue]
  rfl

theorem raisedWorld_cooldowns : raisedWorld.store.exorcismCooldowns = [] := by
  obtain ⟨l, st, d, t, q, h⟩ := increasePossession_frame 1000000 50 Store.fresh
  simp only [raisedWorld, h]
  rfl

theorem raisedWorld_not_on_cooldown (now : ℚ) (kind : String) :
    isExorcismOnCooldown now raisedWorld.store kind = false := by
  simp [isExorcismOnCooldown, raisedWorld_cooldowns, mapGet]

/-- C3, as stated, fails: in a world whose level was raised to 50 by an update applied at
time 1000000, with `text` not on cooldown, `performTextExorcism('begone spirit')` at time
1000500 returns true but is throttled, so the level is still 50 and not
`max(0, 50 - 15)`. -/
theorem text_exorcism_throttled_counterexample :
    isExorcismOnCooldown 1000500 raisedWorld.store "text" = false ∧
    (GameplayService.performTextExorcism 1000500 "begone spirit" raisedWorld).1 = true ∧
    (GameplayService.performTextExorcism 1000500 "begone spirit"
      raisedWorld).2.store.possessionLevel = 50 ∧
    (GameplayService.performTextExorcism 1000500 "begone spirit"
      raisedWorld).2.store.possessionLevel ≠ max 0 (raisedWorld.store.possessionLevel - 15) := by
  have hcd := raisedWorld_not_on_cooldown 1000500 "text"
  have happ := GameplayService.performTextExorcism_applied 1000500 "begone spirit"
    raisedWorld hcd (by decide)
  have hthr : throttled 1000500 raisedWorld.store := by
    rw [throttled, raisedWorld_lastUpdate, _possessionUpdateThrottle]
    norm_num
  have hlevel : (GameplayService.performTextExorcism 1000500 "begone spirit"
      raisedWorld).2.store.possessionLevel = 50 := by
    rw [happ.2.1, decreasePossession_level, if_pos hthr, raisedWorld_level]
  refine ⟨hcd, happ.1, hlevel, ?_⟩
  rw [hlevel, raisedWorld_level]
  norm_num

/-- C3 (amended). With `text` not on cooldown, `performTextExorcism` of a phrase reading
`begone spirit` (any letter case, whitespace around it) returns true.  When the possession
update is not throttled the level afterwards is `max(0, level - 15 - queued decrease)`,
hence `max(0, level - 15)` when no decrease is queued; when it is throttled the level is
unchanged and 15 is added to the queued decrease. -/
theorem text_exorcism_reduces_level (now : ℚ) (phrase : String) (w : World)
    (hphrase : GameplayService.isBegonePhrase phrase)
    (hcd : isExorcismOnCooldown now w.store "text" = false) :
    (GameplayService.performTextExorcism now phrase w).1 = true ∧
    (¬ throttled now w.store →
      (GameplayService.performTextExorcism now phrase w).2.store.possessionLevel =
        max 0 (w.store.possessionLevel - (15 + w.store._queuedPossessionDecrease))) ∧
    (¬ throttled now w.store → w.store._queuedPossessionDecrease = 0 →
      (GameplayService.performTextExorcism now phrase w).2.store.possessionLevel =
        max 0 (w.store.possessionLevel - 15)) ∧
    (throttled now w.store →
      (GameplayService.performTextExorcism now phrase w).2.store.possessionLevel =
        w.store.possessionLevel ∧
      (GameplayService.performTextExorcism now phrase w).2.store._queuedPossessionDecrease =
        w.store._queuedPossessionDecrease + 15) := by
  have happ := GameplayService.performTextExorcism_applied now phrase w hcd
    (GameplayService.normalizedPhrase_begone phrase hphrase)
  refine ⟨happ.1, ?_, ?_, ?_⟩
  · intro hthr
    rw [happ.2.1, decreasePossession_level, if_neg hthr]
  · intro hthr hq
    rw [happ.2.1, decreasePossession_level, if_neg hthr, hq, add_zero]
  · intro hthr
    rw [happ.2.1, happ.2.2, decreasePossession_level, decreasePossession_queue, if_pos hthr,
      if_pos hthr]
    exact ⟨rfl, rfl⟩

theorem text_exorcism_reduces_level_witness :
    (GameplayService.performTextExorcism 1002000 " BeGone SPIRIT\n" raisedWorld).1 = true ∧
    (GameplayService.performTextExorcism 1002000 " BeGone SPIRIT\n"
      raisedWorld).2.store.possessionLevel = 35 := by
  have h := text_exorcism_reduces_level 1002000 " BeGone SPIRIT\n" raisedWorld
    ⟨[' '], "BeGone SPIRIT".data, ['\n'], by decide, by decide, by decide, by decide⟩
    (raisedWorld_not_on_cooldown 1002000 "text")
  have hthr : ¬ throttled 1002000 raisedWorld.store := by
    rw [throttled, raisedWorld_lastUpdate, _possessionUpdateThrottle]
    norm_num
  refine ⟨h.1, ?_⟩
  rw [h.2.2.1 hthr raisedWorld_queue, raisedWorld_level]
  norm_num

/-! ### C4 and C5: cooldowns -/

/-- C4. An exorcism attempted during its cooldown is rejected with no side effects: when
the kind is on cooldown, `performTextExorcism` and `deleteCursedFile` return false,
`performPuzzleExorcism` returns the failure with reason `cooldown`, and the whole world
(store, hence level, cooldowns and statistics; service, hence exorcism history, cursed
files and current puzzle; storage and logs) is unchanged. -/
theorem exorcism_on_cooldown_rejected (now : ℚ) (w : World) (phrase fileId puzzleId : String)
    (solution : Json) :
    (isExorcismOnCooldown now w.store "text" = true →
      GameplayService.performTextExorcism now phrase w = (false, w)) ∧
    (isExorcismOnCooldown now w.store "file" = true →
      GameplayService.deleteCursedFile now fileId w = (false, w)) ∧
    (isExorcismOnCooldown now w.store "puzzle" = true →
      GameplayService.performPuzzleExorcism now puzzleId solution w =
        (GameplayService.PuzzleOutcome.failure "cooldown", w)) := by
  refine ⟨?_, ?_, ?_⟩
  · intro h
    unfold GameplayService.performTextExorcism
    rw [if_pos h]
  · intro h
    unfold GameplayService.deleteCursedFile
    split
    · rfl
    · split
      · rfl
      · rw [if_pos h]
  · intro h
    unfold GameplayService.performPuzzleExorcism
    rw [if_pos h]

theorem cooledWorld_on_cooldown (kind : String)
    (h : kind = "text" ∨ kind = "file" ∨ kind = "puzzle") :
    isExorcismOnCooldown 1060000 cooledWorld.store kind = true := by
  have hget : mapGet cooledWorld.store.exorcismCooldowns kind = some 1000000 := by
    rcases h with rfl | rfl | rfl <;> rfl
  unfold isExorcismOnCooldown
  rw [hget]
  norm_num

theorem exorcism_on_cooldown_rejected_witness :
    GameplayService.performTextExorcism 1060000 "begone spirit" cooledWorld =
      (false, cooledWorld) ∧
    GameplayService.deleteCursedFile 1060000 "cursed_0" cooledWorld = (false, cooledWorld) ∧
    GameplayService.performPuzzleExorcism 1060000 "puzzle_1"
      (.arr [.str "a", .str "b", .str "c", .str "d"]) cooledWorld =
        (GameplayService.PuzzleOutcome.failure "cooldown", cooledWorld) :=
  have h := exorcism_on_cooldown_rejected 1060000 cooledWorld "begone spirit" "cursed_0"
    "puzzle_1" (.arr [.str "a", .str "b", .str "c", .str "d"])
  ⟨h.1 (cooledWorld_on_cooldown "text" (Or.inl rfl)),
   h.2.1 (cooledWorld_on_cooldown "file" (Or.inr (Or.inl rfl))),
   h.2.2 (cooledWorld_on_cooldown "puzzle" (Or.inr (Or.inr rfl)))⟩

/-- C5. `isExorcismOnCooldown(kind)` at time `now` is true iff the cooldown map holds a
non-zero timestamp `ts` for the kind with `now - ts < 120000`; a kind absent from the map
is never on cooldown; and exactly 120000 ms after `ts` the kind is not on cooldown. -/
theorem isExorcismOnCooldown_iff (now : ℚ) (s : Store) (kind : String) :
    (isExorcismOnCooldown now s kind = true ↔
      ∃ ts, mapGet s.exorcismCooldowns kind = some ts ∧ ts ≠ 0 ∧ now - ts < 120000) ∧
    (mapGet s.exorcismCooldowns kind = none → ∀ t, isExorcismOnCooldown t s kind = false) ∧
    (∀ ts, mapGet s.exorcismCooldowns kind = some ts →
      isExorcismOnCooldown (ts + 120000) s kind = false) := by
  refine ⟨?_, ?_, ?_⟩
  · unfold isExorcismOnCooldown
    cases hget : mapGet s.exorcismCooldowns kind with
    | none => simp
    | some ts =>
      by_cases h0 : ts = 0
      · simp [h0]
      · simp [h0]
  · intro hnone t
    unfold isExorcismOnCooldown
    rw [hnone]
  · intro ts hts
    unfold isExorcismOnCooldown
    rw [hts]
    by_cases h0 : ts = 0
    · simp [h0]
    · simp [h0]

theorem isExorcismOnCooldown_iff_witness :
    isExorcismOnCooldown 2000000 Store.fresh "text" = false ∧
    isExorcismOnCooldown (1000000 + 120000) cooledWorld.store "text" = false :=
  ⟨(isExorcismOnCooldown_iff 0 Store.fresh "text").2.1 rfl 2000000,
   (isExorcismOnCooldown_iff 0 cooledWorld.store "text").2.2 1000000 rfl⟩

/-! ### C6 and C7: endings -/

theorem stopPossessionEscalation_eq (s : Store) :
    stopPossessionEscalation s =
      { s with _possessionTimer := (stopPossessionEscalation s)._possessionTimer } := by
  unfold stopPossessionEscalation
  split_ifs <;> rfl

theorem endSession_frame (now : ℚ) (w : World) :
    ∃ st timer saved, endSession now w =
      { w with store := { w.store with statistics := st, _possessionTimer := timer },
               savedProgress := saved } := by
  unfold endSession
  dsimp only
  rw [saveToLocalStorage_eq, stopPossessionEscalation_eq]
  cases sessionStart w.store with
  | none => exact ⟨_, _, _, rfl⟩
  | some t => exact ⟨_, _, _, rfl⟩

theorem endSession_endingReached (now : ℚ) (w : World) :
    (endSession now w).store.endingReached = w.store.endingReached := by
  obtain ⟨st, timer, saved, h⟩ := endSession_frame now w
  rw [h]

theorem triggerEnding_endingReached (now : ℚ) (e : Ending) (w : World) :
    (triggerEnding now e w).store.endingReached = some e := by
  unfold triggerEnding
  simp only [dispatchEvent, saveToLocalStorage_store, endSession_endingReached]
  rfl

theorem checkEndingConditions_of_some (now : ℚ) (w : World) (e : Ending)
    (h : w.store.endingReached = some e) : checkEndingConditions now w = (some e, w) := by
  unfold checkEndingConditions
  rw [h]

theorem checkEndingConditions_possessed (now : ℚ) (w : World)
    (h : w.store.endingReached = none) (h100 : w.store.possessionLevel ≥ 100) :
    checkEndingConditions now w = (some .possessed, triggerEnding now .possessed w) := by
  unfold checkEndingConditions
  rw [h]
  dsimp only
  rw [if_pos h100]

theorem checkEndingConditions_not_started (now : ℚ) (w : World)
    (h : w.store.endingReached = none) (h100 : ¬ w.store.possessionLevel ≥ 100)
    (hstart : sessionStart w.store = none) :
    checkEndingConditions now w = (none, w) := by
  unfold checkEndingConditions
  rw [h]
  dsimp only
  rw [if_neg h100, hstart]

theorem checkEndingConditions_purified (now : ℚ) (w : World) (t : ℚ)
    (h : w.store.endingReached = none) (h100 : ¬ w.store.possessionLevel ≥ 100)
    (hstart : sessionStart w.store = some t)
    (hp : w.store.possessionLevel = 0 ∧ now - t ≥ 300000) :
    checkEndingConditions now w = (some .purified, triggerEnding now .purified w) := by
  unfold checkEndingConditions
  rw [h]
  dsimp only
  rw [if_neg h100, hstart]
  dsimp only
  rw [if_pos hp]

theorem checkEndingConditions_survivor (now : ℚ) (w : World) (t : ℚ)
    (h : w.store.endingReached = none) (h100 : ¬ w.store.possessionLevel ≥ 100)
    (hstart : sessionStart w.store = some t)
    (hp : ¬ (w.store.possessionLevel = 0 ∧ now - t ≥ 300000))
    (hs : now - t ≥ 1800000 ∧ w.store.possessionLevel < 50) :
    checkEndingConditions now w = (some .survivor, triggerEnding now .survivor w) := by
  unfold checkEndingConditions
  rw [h]
  dsimp only
  rw [if_neg h100, hstart]
  dsimp only
  rw [if_neg hp, if_pos hs]

theorem checkEndingConditions_none (now : ℚ) (w : World) (t : ℚ)
    (h : w.store.endingReached = none) (h100 : ¬ w.store.possessionLevel ≥ 100)
    (hstart : sessionStart w.store = some t)
    (hp : ¬ (w.store.possessionLevel = 0 ∧ now - t ≥ 300000))
    (hs : ¬ (now - t ≥ 1800000 ∧ w.store.possessionLevel < 50)) :
    checkEndingConditions now w = (none, w) := by
  unfold checkEndingConditions
  rw [h]
  dsimp only
  rw [if_neg h100, hstart]
  dsimp only
  rw [if_neg hp, if_neg hs]

theorem checkEndingConditions_of_none (now : ℚ) (w : World)
    (h : (checkEndingConditions now w).2.store.endingReached = none) :
    (checkEndingConditions now w).2 = w := by
  cases he : w.store.endingReached with
  | some e => rw [checkEndingConditions_of_some now w e he]
  | none =>
    by_cases h100 : w.store.possessionLevel ≥ 100
    · rw [checkEndingConditions_possessed now w he h100] at h
      rw [triggerEnding_endingReached] at h
      exact absurd h (by simp)
    · cases hstart : sessionStart w.store with
      | none => rw [checkEndingConditions_not_started now w he h100 hstart]
      | some t =>
        by_cases hp : w.store.possessionLevel = 0 ∧ now - t ≥ 300000
        · rw [checkEndingConditions_purified now w t he h100 hstart hp] at h
          rw [triggerEnding_endingReached] at h
          exact absurd h (by simp)
        · by_cases hs : now - t ≥ 1800000 ∧ w.store.possessionLevel < 50
          · rw [checkEndingConditions_survivor now w t he h100 hstart hp hs] at h
            rw [triggerEnding_endingReached] at h
            exact absurd h (by simp)
          · rw [checkEndingConditions_none now w t he h100 hstart hp hs]

/-- C6. Ending decision and precedence, when no ending has been reached: `possessed` is
set and returned if the level is at least 100, whatever the session; otherwise `purified`
if the level is 0 and the session started at least 300000 ms ago; otherwise `survivor` if
the session started at least 1800000 ms ago and the level is below 50; otherwise the call
returns null and changes nothing.  A session has started when `sessionStartTime` is
truthy, which is the test the source applies. -/
theorem ending_decision (now : ℚ) (w : World) (hnone : w.store.endingReached = none) :
    (w.store.possessionLevel ≥ 100 →
      (checkEndingConditions now w).1 = some .possessed ∧
      (checkEndingConditions now w).2.store.endingReached = some .possessed) ∧
    (¬ w.store.possessionLevel ≥ 100 →
      w.store.possessionLevel = 0 ∧ sessionStartedAgo now 300000 w.store →
      (checkEndingConditions now w).1 = some .purified ∧
      (checkEndingConditions now w).2.store.endingReached = some .purified) ∧
    (¬ w.store.possessionLevel ≥ 100 →
      ¬ (w.store.possessionLevel = 0 ∧ sessionStartedAgo now 300000 w.store) →
      sessionStartedAgo now 1800000 w.store ∧ w.store.possessionLevel < 50 →
      (checkEndingConditions now w).1 = some .survivor ∧
      (checkEndingConditions now w).2.store.endingReached = some .survivor) ∧
    (¬ w.store.possessionLevel ≥ 100 →
      ¬ (w.store.possessionLevel = 0 ∧ sessionStartedAgo now 300000 w.store) →
      ¬ (sessionStartedAgo now 1800000 w.store ∧ w.store.possessionLevel < 50) →
      checkEndingConditions now w = (none, w)) := by
  refine ⟨?_, ?_, ?_, ?_⟩
  · intro h100
    rw [checkEndingConditions_possessed now w hnone h100]
    exact ⟨rfl, triggerEnding_endingReached now _ w⟩
  · rintro h100 ⟨h0, t, hstart, hago⟩
    rw [checkEndingConditions_purified now w t hnone h100 hstart ⟨h0, hago⟩]
    exact ⟨rfl, triggerEnding_endingReached now _ w⟩
  · rintro h100 hp ⟨⟨t, hstart, hago⟩, h50⟩
    have hp1 : ¬ (w.store.possessionLevel = 0 ∧ now - t ≥ 300000) :=
      fun h => hp ⟨h.1, t, hstart, h.2⟩
    rw [checkEndingConditions_survivor now w t hnone h100 hstart hp1 ⟨hago, h50⟩]
    exact ⟨rfl, triggerEnding_endingReached now _ w⟩
  · intro h100 hp hs
    cases hstart : sessionStart w.store with
    | none => exact checkEndingConditions_not_started now w hnone h100 hstart
    | some t =>
      exact checkEndingConditions_none now w t hnone h100 hstart
        (fun h => hp ⟨h.1, t, hstart, h.2⟩) (fun h => hs ⟨⟨t, hstart, h.1⟩, h.2⟩)

theorem possessedWorld_level : possessedWorld.store.possessionLevel = 100 := by
  norm_num [possessedWorld, setPossessionLevel, debouncedSave]

theorem ending_decision_witness :
    (checkEndingConditions 5000000 possessedWorld).1 = some .possessed ∧
    (checkEndingConditions 5000000 possessedWorld).2.store.endingReached = some .possessed :=
  (ending_decision 5000000 possessedWorld rfl).1 (by rw [possessedWorld_level])

/-- C7. Endings are absorbing: once `endingReached` is set, `checkEndingConditions`
returns that ending and leaves the whole world unchanged, whatever the level and the
time; so a second call after one that reached an ending changes nothing, and two calls at
the same instant leave the same `endingReached` as one. -/
theorem endings_absorbing (now : ℚ) (w : World) :
    (∀ e, w.store.endingReached = some e → checkEndingConditions now w = (some e, w)) ∧
    (∀ later, (checkEndingConditions now w).2.store.endingReached ≠ none →
      checkEndingConditions later (checkEndingConditions now w).2 =
        ((checkEndingConditions now w).2.store.endingReached,
          (checkEndingConditions now w).2)) ∧
    (checkEndingConditions now (checkEndingConditions now w).2).2.store.endingReached =
      (checkEndingConditions now w).2.store.endingReached := by
  have hsecond : ∀ later, (checkEndingConditions now w).2.store.endingReached ≠ none →
      checkEndingConditions later (checkEndingConditions now w).2 =
        ((checkEndingConditions now w).2.store.endingReached,
          (checkEndingConditions now w).2) := by
    intro later hne
    cases he : (checkEndingConditions now w).2.store.endingReached with
    | none => exact absurd he hne
    | some e => exact checkEndingConditions_of_some later _ e he
  refine ⟨fun e he => checkEndingConditions_of_some now w e he, hsecond, ?_⟩
  cases he : (checkEndingConditions now w).2.store.endingReached with
  | none =>
    rw [checkEndingConditions_of_none now w he]
    exact he
  | some e =>
    rw [hsecond now (by rw [he]; simp)]
    exact he

theorem possessedWorld_checked :
    (checkEndingConditions 5000000 possessedWorld).2.store.endingReached = some .possessed := by
  rw [checkEndingConditions_possessed 5000000 possessedWorld rfl
    (by rw [possessedWorld_level])]
  exact triggerEnding_endingReached _ _ _

theorem endings_absorbing_witness :
    checkEndingConditions 9000000 (checkEndingConditions 5000000 possessedWorld).2 =
      ((checkEndingConditions 5000000 possessedWorld).2.store.endingReached,
        (checkEndingConditions 5000000 possessedWorld).2) :=
  (endings_absorbing 5000000 possessedWorld).2.1 9000000 (by
    rw [possessedWorld_checked]
    simp)

/-! ### C9: unlocking is idempotent -/

theorem unlockAchievement_locked (now : ℚ) (achievementId : String)
    (name description : Option String) (w : World) (h : achievementId ∉ w.store.achievements) :
    (unlockAchievement now achievementId name description w).1 = true ∧
    (unlockAchievement now achievementId name description w).2.store.achievements =
      w.store.achievements ++ [achievementId] ∧
    (unlockAchievement now achievementId name description w).2.store.statistics.achievementsUnlocked
      = w.store.statistics.achievementsUnlocked + 1 ∧
    (unlockAchievement now achievementId name description w).2.dispatched =
      w.dispatched ++ [("necro-achievement-unlocked",
        .obj [("id", .str achievementId), ("name", .ofOptStr name),
              ("description", .ofOptStr description)])] := by
  unfold unlockAchievement
  rw [if_neg h]
  simp [dispatchEvent, debouncedSave, recordEvent, setAdd, h]

theorem unlockAchievement_unlocked (now : ℚ) (achievementId : String)
    (name description : Option String) (w : World) (h : achievementId ∈ w.store.achievements) :
    unlockAchievement now achievementId name description w = (false, w) := by
  unfold unlockAchievement
  rw [if_pos h]

theorem GameplayService.serviceUnlock_locked (now : ℚ) (achievementId : String) (w : World)
    (hdef : achievementId = "exorcist" ∨ achievementId = "paranormal-investigator")
    (h : achievementId ∉ w.store.achievements) :
    (GameplayService.unlockAchievement now achievementId w).1 = true ∧
    (GameplayService.unlockAchievement now achievementId w).2.store.achievements =
      w.store.achievements ++ [achievementId] ∧
    (GameplayService.unlockAchievement now achievementId w).2.store.statistics.achievementsUnlocked
      = w.store.statistics.achievementsUnlocked + 1 ∧
    ∃ detail, (GameplayService.unlockAchievement now achievementId w).2.dispatched =
      w.dispatched ++ [("achievement-unlocked", detail)] := by
  rcases hdef with rfl | rfl
  · unfold GameplayService.unlockAchievement
    have hfind : GameplayService.achievementDefinitions.find? (fun d => d.1 == "exorcist") =
        some ("exorcist", "Exorcist", "Perform 5 exorcisms within 180 seconds", "✝️") := rfl
    rw [hfind]
    dsimp only
    rw [if_neg h, saveToLocalStorage_eq]
    simp [dispatchEvent, recordEvent, setAdd, h]
  · unfold GameplayService.unlockAchievement
    have hfind : GameplayService.achievementDefinitions.find?
        (fun d => d.1 == "paranormal-investigator") =
        some ("paranormal-investigator", "Paranormal Investigator",
          "Discover all easter eggs", "🔍") := rfl
    rw [hfind]
    dsimp only
    rw [if_neg h, saveToLocalStorage_eq]
    simp [dispatchEvent, recordEvent, setAdd, h]

theorem GameplayService.serviceUnlock_again (now later : ℚ) (achievementId : String)
    (w : World) :
    GameplayService.unlockAchievement later achievementId
      (GameplayService.unlockAchievement now achievementId w).2 =
        (false, (GameplayService.unlockAchievement now achievementId w).2) := by
  cases hfind : GameplayService.achievementDefinitions.find? (fun d => d.1 == achievementId) with
  | none =>
    have h1 : GameplayService.unlockAchievement now achievementId w = (false, w) := by
      unfold GameplayService.unlockAchievement
      rw [hfind]
    rw [h1]
    unfold GameplayService.unlockAchievement
    rw [hfind]
  | some d =>
    have hmem : achievementId ∈
        (GameplayService.unlockAchievement now achievementId w).2.store.achievements := by
      by_cases h : achievementId ∈ w.store.achievements
      · have h1 : GameplayService.unlockAchievement now achievementId w = (false, w) := by
          unfold GameplayService.unlockAchievement
          rw [hfind]
          dsimp only
          rw [if_pos h]
        rw [h1]
        exact h
      · have hdef : achievementId = "exorcist" ∨ achievementId = "paranormal-investigator" := by
          have := List.find?_some hfind
          have hm := List.mem_of_find?_eq_some hfind
          simp only [GameplayService.achievementDefinitions, List.mem_cons, List.mem_singleton,
            List.not_mem_nil, or_false] at hm
          rcases hm with rfl | rfl
          · left
            have hid : "exorcist" = achievementId := by simpa using this
            exact hid.symm
          · right
            have hid : "paranormal-investigator" = achievementId := by simpa using this
            exact hid.symm
        rw [(GameplayService.serviceUnlock_locked now achievementId w hdef h).2.1]
        simp
    generalize (GameplayService.unlockAchievement now achievementId w).2 = w1 at hmem
    unfold GameplayService.unlockAchievement
    rw [hfind]
    dsimp only
    rw [if_pos hmem]

theorem unlockAchievement_again (now later : ℚ) (achievementId : String)
    (name description : Option String) (w : World) :
    unlockAchievement later achievementId name description
      (unlockAchievement now achievementId name description w).2 =
        (false, (unlockAchievement now achievementId name description w).2) := by
  apply unlockAchievement_unlocked
  by_cases h : achievementId ∈ w.store.achievements
  · rw [unlockAchievement_unlocked now achievementId name description w h]
    exact h
  · rw [(unlockAchievement_locked now achievementId name description w h).2.1]
    simp

/-- C9. Unlocking is idempotent, for the store action and for the gameplay-service method:
a second `unlockAchievement(id)` right after the first returns false and changes nothing;
and for an achievement that was still locked (for the service: one of its two defined
achievements) the two calls together add exactly one element to `achievements`, add
exactly 1 to `statistics.achievementsUnlocked` and dispatch exactly one unlock
notification. -/
theorem unlock_idempotent (now later : ℚ) (achievementId : String)
    (name description : Option String) (w : World) :
    unlockAchievement later achievementId name description
      (unlockAchievement now achievementId name description w).2 =
        (false, (unlockAchievement now achievementId name description w).2) ∧
    GameplayService.unlockAchievement later achievementId
      (GameplayService.unlockAchievement now achievementId w).2 =
        (false, (GameplayService.unlockAchievement now achievementId w).2) ∧
    (achievementId ∉ w.store.achievements →
      (unlockAchievement later achievementId name description
        (unlockAchievement now achievementId name description w).2).2.store.achievements.length
          = w.store.achievements.length + 1 ∧
      (unlockAchievement later achievementId name description
        (unlockAchievement now achievementId name description
          w).2).2.store.statistics.achievementsUnlocked
          = w.store.statistics.achievementsUnlocked + 1 ∧
      ∃ detail, (unlockAchievement later achievementId name description
        (unlockAchievement now achievementId name description w).2).2.dispatched
          = w.dispatched ++ [("necro-achievement-unlocked", detail)]) ∧
    (achievementId ∉ w.store.achievements →
      achievementId = "exorcist" ∨ achievementId = "paranormal-investigator" →
      (GameplayService.unlockAchievement later achievementId
        (GameplayService.unlockAchievement now achievementId w).2).2.store.achievements.length
          = w.store.achievements.length + 1 ∧
      (GameplayService.unlockAchievement later achievementId
        (GameplayService.unlockAchievement now achievementId
          w).2).2.store.statistics.achievementsUnlocked
          = w.store.statistics.achievementsUnlocked + 1 ∧
      ∃ detail, (GameplayService.unlockAchievement later achievementId
        (GameplayService.unlockAchievement now achievementId w).2).2.dispatched
          = w.dispatched ++ [("achievement-unlocked", detail)]) := by
  refine ⟨unlockAchievement_again now later achievementId name description w,
    GameplayService.serviceUnlock_again now later achievementId w, ?_, ?_⟩
  · intro h
    obtain ⟨_, hach, hstat, hdisp⟩ :=
      unlockAchievement_locked now achievementId name description w h
    rw [unlockAchievement_again now later achievementId name description w]
    refine ⟨by rw [hach]; simp, hstat, _, hdisp⟩
  · intro h hdef
    obtain ⟨_, hach, hstat, hdisp⟩ :=
      GameplayService.serviceUnlock_locked now achievementId w hdef h
    rw [GameplayService.serviceUnlock_again now later achievementId w]
    exact ⟨by rw [hach]; simp, hstat, hdisp⟩

theorem unlock_idempotent_witness :
    (unlockAchievement 2000 "exorcist" none none
      (unlockAchievement 1000 "exorcist" none none World.fresh).2).2.store.achievements.length
        = World.fresh.store.achievements.length + 1 ∧
    (GameplayService.unlockAchievement 2000 "exorcist"
      (GameplayService.unlockAchievement 1000 "exorcist"
        World.fresh).2).2.store.achievements.length
        = World.fresh.store.achievements.length + 1 :=
  have h := unlock_idempotent 1000 2000 "exorcist" none none World.fresh
  ⟨(h.2.2.1 (by simp [World.fresh, Store.fresh])).1,
   (h.2.2.2 (by simp [World.fresh, Store.fresh]) (Or.inl rfl)).1⟩

/-! ### C8: the Exorcist window -/

theorem GameplayService.recordExorcism_history (now : ℚ) (type : String)
    (g : GameplayService) :
    (GameplayService.recordExorcism now type g).exorcismHistory =
      g.exorcismHistory.filter (fun e => decide (e.timestamp > now - 180000)) ++
        [{ type := type, timestamp := now }] := by
  unfold GameplayService.recordExorcism
  simp [List.filter_append]

theorem GameplayService.checkStep_achievements (now : ℚ) (achievementId : String) (w : World)
    (hdef : achievementId = "exorcist" ∨ achievementId = "paranormal-investigator") :
    (if achievementId ∈ w.store.achievements then w
      else if GameplayService.condition achievementId w then
        (GameplayService.unlockAchievement now achievementId w).2
      else w).store.achievements =
      if achievementId ∉ w.store.achievements ∧ GameplayService.condition achievementId w = true
      then w.store.achievements ++ [achievementId] else w.store.achievements := by
  by_cases h : achievementId ∈ w.store.achievements
  · simp [h]
  · by_cases hc : GameplayService.condition achievementId w = true
    · simp only [h, hc, if_false, if_true, not_false_eq_true, and_self]
      exact (GameplayService.serviceUnlock_locked now achievementId w hdef h).2.1
    · simp [h, hc]

theorem GameplayService.checkAchievements_exorcist (now : ℚ) (w : World) :
    "exorcist" ∈ (GameplayService.checkAchievements now w).store.achievements ↔
      "exorcist" ∈ w.store.achievements ∨
        GameplayService.checkExorcistCondition w.service = true := by
  simp only [GameplayService.checkAchievements, GameplayService.achievementDefinitions,
    List.foldl_cons, List.foldl_nil]
  rw [GameplayService.checkStep_achievements now "paranormal-investigator" _ (Or.inr rfl),
    GameplayService.checkStep_achievements now "exorcist" w (Or.inl rfl)]
  have hcond : GameplayService.condition "exorcist" w =
      GameplayService.checkExorcistCondition w.service := by
    simp [GameplayService.condition]
  rw [hcond]
  by_cases h : "exorcist" ∈ w.store.achievements <;>
    by_cases hc : GameplayService.checkExorcistCondition w.service = true <;>
    split_ifs <;> simp_all

theorem GameplayService.recordAll_five_kept (t1 t2 t3 t4 t5 : ℚ) (k1 k2 k3 k4 k5 : String)
    (g : GameplayService) (hempty : g.exorcismHistory = [])
    (h12 : t1 ≤ t2) (h23 : t2 ≤ t3) (h34 : t3 ≤ t4) (h45 : t4 ≤ t5)
    (hspan : t5 - t1 < 180000) :
    (GameplayService.recordAll [(t1, k1), (t2, k2), (t3, k3), (t4, k4), (t5, k5)]
      g).exorcismHistory =
      [⟨k1, t1⟩, ⟨k2, t2⟩, ⟨k3, t3⟩, ⟨k4, t4⟩, ⟨k5, t5⟩] := by
  have a12 : t2 - 180000 < t1 := by linarith
  have a13 : t3 - 180000 < t1 := by linarith
  have a14 : t4 - 180000 < t1 := by linarith
  have a15 : t5 - 180000 < t1 := by linarith
  have a23 : t3 - 180000 < t2 := by linarith
  have a24 : t4 - 180000 < t2 := by linarith
  have a25 : t5 - 180000 < t2 := by linarith
  have a34 : t4 - 180000 < t3 := by linarith
  have a35 : t5 - 180000 < t3 := by linarith
  have a45 : t5 - 180000 < t4 := by linarith
  simp [GameplayService.recordAll, GameplayService.recordExorcism_history, hempty,
    a12, a13, a14, a15, a23, a24, a25, a34, a35, a45]

theorem GameplayService.recordAll_five_pruned (t1 t2 t3 t4 t5 : ℚ) (k1 k2 k3 k4 k5 : String)
    (g : GameplayService) (hempty : g.exorcismHistory = [])
    (hspan : 180000 ≤ t5 - t1) :
    (GameplayService.recordAll [(t1, k1), (t2, k2), (t3, k3), (t4, k4), (t5, k5)]
      g).exorcismHistory.length ≤ 4 := by
  have a15 : ¬ (t5 - 180000 < t1) := by linarith
  simp only [GameplayService.recordAll, List.foldl_cons, List.foldl_nil,
    GameplayService.recordExorcism_history, hempty, List.filter_nil, List.nil_append,
    List.filter_append, List.filter_filter, List.length_append, List.length_singleton]
  simp only [List.filter_cons, List.filter_nil, gt_iff_lt, a15, decide_False, Bool.false_and,
    Bool.false_eq_true, if_false, List.length_nil, zero_add]
  split_ifs <;> simp

theorem GameplayService.checkExorcistCondition_five (r1 r2 r3 r4 r5 : ExorcismRecord)
    (g : GameplayService) (h : g.exorcismHistory = [r1, r2, r3, r4, r5]) :
    GameplayService.checkExorcistCondition g = decide (r5.timestamp - r1.timestamp ≤ 180000) := by
  unfold GameplayService.checkExorcistCondition
  rw [h]
  simp [sliceLast]

theorem GameplayService.checkExorcistCondition_short (g : GameplayService)
    (h : g.exorcismHistory.length ≤ 4) :
    GameplayService.checkExorcistCondition g = false := by
  unfold GameplayService.checkExorcistCondition
  rw [if_neg (by omega)]

/-- What the code does for five recorded exorcisms: starting from an empty history with
`exorcist` locked, it is unlocked iff the span is strictly below 180000 ms. -/
theorem fiveExorcisms_exorcist_iff (t1 t2 t3 t4 t5 : ℚ) (k1 k2 k3 k4 k5 : String)
    (checkAt : ℚ) (w : World) (hempty : w.service.exorcismHistory = [])
    (hlocked : "exorcist" ∉ w.store.achievements)
    (h12 : t1 ≤ t2) (h23 : t2 ≤ t3) (h34 : t3 ≤ t4) (h45 : t4 ≤ t5) :
    "exorcist" ∈ (fiveExorcisms t1 t2 t3 t4 t5 k1 k2 k3 k4 k5 checkAt w).store.achievements ↔
      t5 - t1 < 180000 := by
  unfold fiveExorcisms
  rw [GameplayService.checkAchievements_exorcist]
  dsimp only
  by_cases hspan : t5 - t1 < 180000
  · have hkept := GameplayService.recordAll_five_kept t1 t2 t3 t4 t5 k1 k2 k3 k4 k5 w.service
      hempty h12 h23 h34 h45 hspan
    rw [GameplayService.checkExorcistCondition_five _ _ _ _ _ _ hkept]
    simp only [hlocked, false_or, decide_eq_true_eq, hspan, iff_true]
    linarith
  · have hpruned := GameplayService.recordAll_five_pruned t1 t2 t3 t4 t5 k1 k2 k3 k4 k5
      w.service hempty (by linarith)
    rw [GameplayService.checkExorcistCondition_short _ hpruned]
    simp [hlocked, hspan]

/-- C8, the code at the boundary: five exorcisms recorded from an empty history at times
1000000, 1030000, 1060000, 1120000 and 1180000 span exactly 180000 ms, yet after
`checkAchievements()` the achievement `exorcist` is not unlocked: the fifth
`recordExorcism` prunes the first entry, which is exactly 180000 ms old. -/
theorem exorcist_boundary_not_unlocked :
    (1180000 : ℚ) - 1000000 ≤ 180000 ∧
    "exorcist" ∉ (fiveExorcisms 1000000 1030000 1060000 1120000 1180000
      "text" "file" "puzzle" "text" "file" 1180000 World.fresh).store.achievements := by
  refine ⟨by norm_num, ?_⟩
  rw [fiveExorcisms_exorcist_iff _ _ _ _ _ _ _ _ _ _ _ _ rfl (by simp [World.fresh, Store.fresh])
    (by norm_num) (by norm_num) (by norm_num) (by norm_num)]
  norm_num

/-! ### What each step of the loader leaves alone, and when `getStatistics()` throws -/

theorem restorePossessionLevel_frame (data : Json) (x : Store) :
    restorePossessionLevel data x = { x with possessionLevel := (restorePossessionLevel data x).possessionLevel } := by
  unfold restorePossessionLevel
  repeat' split
  all_goals rfl

theorem restorePossessionLevel_congr (data : Json) (x y : Store) (h : x.possessionLevel = y.possessionLevel) :
    (restorePossessionLevel data x).possessionLevel = (restorePossessionLevel data y).possessionLevel := by
  unfold restorePossessionLevel
  repeat' split
  all_goals first | rfl | exact h

theorem restorePossessionLevel_others (data : Json) (x : Store) :
    (restorePossessionLevel data x).difficulty = x.difficulty ∧
    (restorePossessionLevel data x).sessionStartTime = x.sessionStartTime ∧
    (restorePossessionLevel data x).exorcismCooldowns = x.exorcismCooldowns ∧
    (restorePossessionLevel data x).discoveredEasterEggs = x.discoveredEasterEggs ∧
    (restorePossessionLevel data x).achievements = x.achievements ∧
    (restorePossessionLevel data x).endingReached = x.endingReached ∧
    (restorePossessionLevel data x).customization = x.customization ∧
    (restorePossessionLevel data x).statistics = x.statistics := by
  rw [restorePossessionLevel_frame]
  exact ⟨rfl, rfl, rfl, rfl, rfl, rfl, rfl, rfl⟩

theorem restoreDifficulty_frame (data : Json) (x : Store) :
    restoreDifficulty data x = { x with difficulty := (restoreDifficulty data x).difficulty } := by
  unfold restoreDifficulty
  repeat' split
  all_goals rfl

theorem restoreDifficulty_congr (data : Json) (x y : Store) (h : x.difficulty = y.difficulty) :
    (restoreDifficulty data x).difficulty = (restoreDifficulty data y).difficulty := by
  unfold restoreDifficulty
  repeat' split
  all_goals first | rfl | exact h

theorem restoreDifficulty_others (data : Json) (x : Store) :
    (restoreDifficulty data x).possessionLevel = x.possessionLevel ∧
    (restoreDifficulty data x).sessionStartTime = x.sessionStartTime ∧
    (restoreDifficulty data x).exorcismCooldowns = x.exorcismCooldowns ∧
    (restoreDifficulty data x).discoveredEasterEggs = x.discoveredEasterEggs ∧
    (restoreDifficulty data x).achievements = x.achievements ∧
    (restoreDifficulty data x).endingReached = x.endingReached ∧
    (restoreDifficulty data x).customization = x.customization ∧
    (restoreDifficulty data x).statistics = x.statistics := by
  rw [restoreDifficulty_frame]
  exact ⟨rfl, rfl, rfl, rfl, rfl, rfl, rfl, rfl⟩

theorem restoreSessionStartTime_frame (data : Json) (x : Store) :
    restoreSessionStartTime data x = { x with sessionStartTime := (restoreSessionStartTime data x).sessionStartTime } := by
  unfold restoreSessionStartTime
  repeat' split
  all_goals rfl

theorem restoreSessionStartTime_congr (data : Json) (x y : Store) (h : x.sessionStartTime = y.sessionStartTime) :
    (restoreSessionStartTime data x).sessionStartTime = (restoreSessionStartTime data y).sessionStartTime := by
  unfold restoreSessionStartTime
  repeat' split
  all_goals first | rfl | exact h

theorem restoreSessionStartTime_others (data : Json) (x : Store) :
    (restoreSessionStartTime data x).possessionLevel = x.possessionLevel ∧
    (restoreSessionStartTime data x).difficulty = x.difficulty ∧
    (restoreSessionStartTime data x).exorcismCooldowns = x.exorcismCooldowns ∧
    (restoreSessionStartTime data x).discoveredEasterEggs = x.discoveredEasterEggs ∧
    (restoreSessionStartTime data x).achievements = x.achievements ∧
    (restoreSessionStartTime data x).endingReached = x.endingReached ∧
    (restoreSessionStartTime data x).customization = x.customization ∧
    (restoreSessionStartTime data x).statistics = x.statistics := by
  rw [restoreSessionStartTime_frame]
  exact ⟨rfl, rfl, rfl, rfl, rfl, rfl, rfl, rfl⟩

theorem restoreCooldowns_frame (data : Json) (x : Store) :
    restoreCooldowns data x = { x with exorcismCooldowns := (restoreCooldowns data x).exorcismCooldowns } := by
  unfold restoreCooldowns
  repeat' split
  all_goals rfl

theorem restoreCooldowns_congr (data : Json) (x y : Store) (h : x.exorcismCooldowns = y.exorcismCooldowns) :
    (restoreCooldowns data x).exorcismCooldowns = (restoreCooldowns data y).exorcismCooldowns := by
  unfold restoreCooldowns
  repeat' split
  all_goals first | rfl | exact h

theorem restoreCooldowns_others (data : Json) (x : Store) :
    (restoreCooldowns data x).possessionLevel = x.possessionLevel ∧
    (restoreCooldowns data x).difficulty = x.difficulty ∧
    (restoreCooldowns data x).sessionStartTime = x.sessionStartTime ∧
    (restoreCooldowns data x).discoveredEasterEggs = x.discoveredEasterEggs ∧
    (restoreCooldowns data x).achievements = x.achievements ∧
    (restoreCooldowns data x).endingReached = x.endingReached ∧
    (restoreCooldowns data x).customization = x.customization ∧
    (restoreCooldowns data x).statistics = x.statistics := by
  rw [restoreCooldowns_frame]
  exact ⟨rfl, rfl, rfl, rfl, rfl, rfl, rfl, rfl⟩

theorem restoreEasterEggs_frame (data : Json) (x : Store) :
    restoreEasterEggs data x = { x with discoveredEasterEggs := (restoreEasterEggs data x).discoveredEasterEggs } := by
  unfold restoreEasterEggs
  repeat' split
  all_goals rfl

theorem restoreEasterEggs_congr (data : Json) (x y : Store) (h : x.discoveredEasterEggs = y.discoveredEasterEggs) :
    (restoreEasterEggs data x).discoveredEasterEggs = (restoreEasterEggs data y).discoveredEasterEggs := by
  unfold restoreEasterEggs
  repeat' split
  all_goals first | rfl | exact h

theorem restoreEasterEggs_others (data : Json) (x : Store) :
    (restoreEasterEggs data x).possessionLevel = x.possessionLevel ∧
    (restoreEasterEggs data x).difficulty = x.difficulty ∧
    (restoreEasterEggs data x).sessionStartTime = x.sessionStartTime ∧
    (restoreEasterEggs data x).exorcismCooldowns = x.exorcismCooldowns ∧
    (restoreEasterEggs data x).achievements = x.achievements ∧
    (restoreEasterEggs data x).endingReached = x.endingReached ∧
    (restoreEasterEggs data x).customization = x.customization ∧
    (restoreEasterEggs data x).statistics = x.statistics := by
  rw [restoreEasterEggs_frame]
  exact ⟨rfl, rfl, rfl, rfl, rfl, rfl, rfl, rfl⟩

theorem restoreAchievements_frame (data : Json) (x : Store) :
    restoreAchievements data x = { x with achievements := (restoreAchievements data x).achievements } := by
  unfold restoreAchievements
  repeat' split
  all_goals rfl

theorem restoreAchievements_congr (data : Json) (x y : Store) (h : x.achievements = y.achievements) :
    (restoreAchievements data x).achievements = (restoreAchievements data y).achievements := by
  unfold restoreAchievements
  repeat' split
  all_goals first | rfl | exact h

theorem restoreAchievements_others (data : Json) (x : Store) :
    (restoreAchievements data x).possessionLevel = x.possessionLevel ∧
    (restoreAchievements data x).difficulty = x.difficulty ∧
    (restoreAchievements data x).sessionStartTime = x.sessionStartTime ∧
    (restoreAchievements data x).exorcismCooldowns = x.exorcismCooldowns ∧
    (restoreAchievements data x).discoveredEasterEggs = x.discoveredEasterEggs ∧
    (restoreAchievements data x).endingReached = x.endingReached ∧
    (restoreAchievements data x).customization = x.customization ∧
    (restoreAchievements data x).statistics = x.statistics := by
  rw [restoreAchievements_frame]
  exact ⟨rfl, rfl, rfl, rfl, rfl, rfl, rfl, rfl⟩

theorem restoreEnding_frame (data : Json) (x : Store) :
    restoreEnding data x = { x with endingReached := (restoreEnding data x).endingReached } := by
  unfold restoreEnding
  repeat' split
  all_goals rfl

theorem restoreEnding_congr (data : Json) (x y : Store) (h : x.endingReached = y.endingReached) :
    (restoreEnding data x).endingReached = (restoreEnding data y).endingReached := by
  unfold restoreEnding
  repeat' split
  all_goals first | rfl | exact h

theorem restoreEnding_others (data : Json) (x : Store) :
    (restoreEnding data x).possessionLevel = x.possessionLevel ∧
    (restoreEnding data x).difficulty = x.difficulty ∧
    (restoreEnding data x).sessionStartTime = x.sessionStartTime ∧
    (restoreEnding data x).exorcismCooldowns = x.exorcismCooldowns ∧
    (restoreEnding data x).discoveredEasterEggs = x.discoveredEasterEggs ∧
    (restoreEnding data x).achievements = x.achievements ∧
    (restoreEnding data x).customization = x.customization ∧
    (restoreEnding data x).statistics = x.statistics := by
  rw [restoreEnding_frame]
  exact ⟨rfl, rfl, rfl, rfl, rfl, rfl, rfl, rfl⟩

theorem restore_possessionLevel (data : Json) (s : Store) :
    (restore data s).possessionLevel = (restorePossessionLevel data s).possessionLevel := by
  unfold restore
  simp only [restorePossessionLevel_others, restoreDifficulty_others,
    restoreSessionStartTime_others, restoreCooldowns_others, restoreEasterEggs_others,
    restoreAchievements_others, restoreEnding_others]

theorem restore_difficulty (data : Json) (s : Store) :
    (restore data s).difficulty = (restoreDifficulty data s).difficulty := by
  unfold restore
  simp only [restorePossessionLevel_others, restoreDifficulty_others,
    restoreSessionStartTime_others, restoreCooldowns_others, restoreEasterEggs_others,
    restoreAchievements_others, restoreEnding_others]
  exact restoreDifficulty_congr data _ _ (by
    simp only [restorePossessionLevel_others, restoreDifficulty_others,
      restoreSessionStartTime_others, restoreCooldowns_others, restoreEasterEggs_others,
      restoreAchievements_others, restoreEnding_others])

theorem restore_exorcismCooldowns (data : Json) (s : Store) :
    (restore data s).exorcismCooldowns = (restoreCooldowns data s).exorcismCooldowns := by
  unfold restore
  simp only [restorePossessionLevel_others, restoreDifficulty_others,
    restoreSessionStartTime_others, restoreCooldowns_others, restoreEasterEggs_others,
    restoreAchievements_others, restoreEnding_others]
  exact restoreCooldowns_congr data _ _ (by
    simp only [restorePossessionLevel_others, restoreDifficulty_others,
      restoreSessionStartTime_others, restoreCooldowns_others, restoreEasterEggs_others,
      restoreAchievements_others, restoreEnding_others])

theorem restore_discoveredEasterEggs (data : Json) (s : Store) :
    (restore data s).discoveredEasterEggs = (restoreEasterEggs data s).discoveredEasterEggs := by
  unfold restore
  simp only [restorePossessionLevel_others, restoreDifficulty_others,
    restoreSessionStartTime_others, restoreCooldowns_others, restoreEasterEggs_others,
    restoreAchievements_others, restoreEnding_others]
  exact restoreEasterEggs_congr data _ _ (by
    simp only [restorePossessionLevel_others, restoreDifficulty_others,
      restoreSessionStartTime_others, restoreCooldowns_others, restoreEasterEggs_others,
      restoreAchievements_others, restoreEnding_others])

theorem restore_achievements (data : Json) (s : Store) :
    (restore data s).achievements = (restoreAchievements data s).achievements := by
  unfold restore
  simp only [restorePossessionLevel_others, restoreDifficulty_others,
    restoreSessionStartTime_others, restoreCooldowns_others, restoreEasterEggs_others,
    restoreAchievements_others, restoreEnding_others]
  exact restoreAchievements_congr data _ _ (by
    simp only [restorePossessionLevel_others, restoreDifficulty_others,
      restoreSessionStartTime_others, restoreCooldowns_others, restoreEasterEggs_others,
      restoreAchievements_others, restoreEnding_others])

theorem restore_endingReached (data : Json) (s : Store) :
    (restore data s).endingReached = (restoreEnding data s).endingReached := by
  unfold restore
  simp only [restorePossessionLevel_others, restoreDifficulty_others,
    restoreSessionStartTime_others, restoreCooldowns_others, restoreEasterEggs_others,
    restoreAchievements_others, restoreEnding_others]
  exact restoreEnding_congr data _ _ (by
    simp only [restorePossessionLevel_others, restoreDifficulty_others,
      restoreSessionStartTime_others, restoreCooldowns_others, restoreEasterEggs_others,
      restoreAchievements_others, restoreEnding_others])

theorem restore_customization (data : Json) (s : Store) :
    (restore data s).customization = loadCustomization data s.customization := by
  unfold restore
  simp only [restorePossessionLevel_others, restoreDifficulty_others,
    restoreSessionStartTime_others, restoreCooldowns_others, restoreEasterEggs_others,
    restoreAchievements_others, restoreEnding_others]

theorem restore_statistics (data : Json) (s : Store) :
    (restore data s).statistics = loadStatistics data s.statistics := by
  unfold restore
  simp only [restorePossessionLevel_others, restoreDifficulty_others,
    restoreSessionStartTime_others, restoreCooldowns_others, restoreEasterEggs_others,
    restoreAchievements_others, restoreEnding_others]

theorem getStatisticsThrows_iff (s : Store) :
    getStatisticsThrows s = true ↔
      ∃ e ∈ sliceLast 10 s.statistics.eventsHistory, eventThrows e = true := by
  unfold getStatisticsThrows
  rw [List.any_eq_true]

theorem eventThrows_of_numeric (e : Json) (n : ℚ) (h : e.get "timestamp" = some (.num n)) :
    eventThrows e = false := by
  cases e with
  | obj fields =>
    unfold eventThrows
    dsimp only
    rw [h]
    simp [Json.toPrimitiveThrows]
  | null => simp [Json.get] at h
  | bool b => simp [Json.get] at h
  | num m => simp [Json.get] at h
  | str s => simp [Json.get] at h
  | arr xs => simp [Json.get] at h

theorem getStatisticsThrows_of_numeric (s : Store)
    (h : ∀ e ∈ s.statistics.eventsHistory, ∃ n, e.get "timestamp" = some (.num n)) :
    getStatisticsThrows s = false := by
  rw [← Bool.not_eq_true, getStatisticsThrows_iff]
  rintro ⟨e, he, hthrows⟩
  obtain ⟨n, hn⟩ := h e (List.mem_of_mem_drop he)
  rw [eventThrows_of_numeric e n hn] at hthrows
  exact absurd hthrows (by simp)

theorem getStatisticsThrows_of_nil (s : Store) (h : s.statistics.eventsHistory = []) :
    getStatisticsThrows s = false :=
  getStatisticsThrows_of_numeric s (by
    intro e he
    rw [h] at he
    exact absurd he (List.not_mem_nil e))

theorem loadFromLocalStorage_object (data : Json) (w : World)
    (hsaved : w.savedProgress = some (.json data)) (hobj : data.isObject = true) :
    loadFromLocalStorage w =
      (!getStatisticsThrows (restore data w.store),
        { w with store := restore data w.store }) := by
  have htruthy : data.truthy = true := by
    cases data <;> simp [Json.isObject] at hobj <;> rfl
  unfold loadFromLocalStorage
  rw [hsaved]
  dsimp only
  rw [htruthy, hobj]
  cases getStatisticsThrows (restore data w.store) <;> rfl

theorem restore_snapshotWith_eventsHistory (events : List Json) (s x : Store) :
    (restore (snapshotWith events s) x).statistics.eventsHistory =
      sliceLast 100 (events.filter isStoredEvent) := by
  rw [restore_statistics]
  rfl

theorem mem_of_mem_stored (events : List Json) (e : Json)
    (h : e ∈ sliceLast 100 (events.filter isStoredEvent)) : e ∈ events :=
  List.mem_of_mem_filter (List.mem_of_mem_drop h)

/-! ### C10: the persistence round trip -/

theorem stringsOf_map_str (xs : List String) : stringsOf (xs.map Json.str) = xs := by
  induction xs with
  | nil => rfl
  | cons x rest ih =>
    simp only [stringsOf, List.map_cons, List.filterMap_cons] at ih ⊢
    rw [ih]

theorem foldl_setAdd_nodup {α : Type} [DecidableEq α] (xs acc : List α)
    (h : (acc ++ xs).Nodup) : xs.foldl setAdd acc = acc ++ xs := by
  induction xs generalizing acc with
  | nil => simp
  | cons x rest ih =>
    have hx : x ∉ acc := by
      intro hmem
      have := List.nodup_append.mp h
      exact this.2.2 hmem (List.mem_cons_self _ _)
    have hstep : setAdd acc x = acc ++ [x] := by
      unfold setAdd
      rw [if_neg hx]
    rw [List.foldl_cons, hstep, ih (acc ++ [x]) (by simpa using h)]
    simp

theorem setOf_nodup {α : Type} [DecidableEq α] (xs : List α) (h : xs.Nodup) : setOf xs = xs := by
  unfold setOf
  rw [foldl_setAdd_nodup xs [] (by simpa using h)]
  rfl

theorem cooldownEntries_ofEntries (m : List (String × ℚ)) :
    cooldownEntries (m.map (fun e => Json.arr [.str e.1, .num e.2])) = some m := by
  induction m with
  | nil => rfl
  | cons e rest ih =>
    simp only [List.map_cons, cooldownEntries, cooldownEntry, ih]
    rfl

theorem foldl_mapSet_nodup (es acc : List (String × ℚ))
    (h : ((acc ++ es).map Prod.fst).Nodup) :
    es.foldl (fun m e => mapSet m e.1 e.2) acc = acc ++ es := by
  induction es generalizing acc with
  | nil => simp
  | cons e rest ih =>
    have hk : ¬ acc.any (fun x => x.1 == e.1) = true := by
      intro hany
      rw [List.any_eq_true] at hany
      obtain ⟨x, hx, hxe⟩ := hany
      have hxe1 : x.1 = e.1 := by simpa using hxe
      rw [List.map_append, List.nodup_append] at h
      exact h.2.2 (List.mem_map_of_mem Prod.fst hx)
        (by rw [hxe1]; exact List.mem_map_of_mem Prod.fst (List.mem_cons_self _ _))
    have hstep : mapSet acc e.1 e.2 = acc ++ [e] := by
      unfold mapSet
      rw [if_neg hk]
    rw [List.foldl_cons, hstep, ih (acc ++ [e]) (by simpa using h)]
    simp

theorem mapOf_nodup (m : List (String × ℚ)) (h : (m.map Prod.fst).Nodup) : mapOf m = m := by
  unfold mapOf
  rw [foldl_mapSet_nodup m [] (by simpa using h)]
  rfl

theorem restore_snapshotWith (events : List Json) (s : Store) (hp : persistable s) :
    (restore (snapshotWith events s) Store.fresh).possessionLevel = s.possessionLevel ∧
    (restore (snapshotWith events s) Store.fresh).difficulty = s.difficulty ∧
    (restore (snapshotWith events s) Store.fresh).achievements = s.achievements ∧
    (restore (snapshotWith events s) Store.fresh).discoveredEasterEggs =
      s.discoveredEasterEggs ∧
    (restore (snapshotWith events s) Store.fresh).exorcismCooldowns = s.exorcismCooldowns ∧
    (restore (snapshotWith events s) Store.fresh).endingReached = s.endingReached ∧
    (restore (snapshotWith events s) Store.fresh).sessionStartTime = s.sessionStartTime := by
  obtain ⟨⟨h0, h100⟩, hdiff, hach, heggs, hmap, hstart⟩ := hp
  have hclamp : max 0 (min 100 s.possessionLevel) = s.possessionLevel := by
    rw [min_eq_right h100, max_eq_right h0]
  have hending : ∀ e : Ending, Ending.ofString e.toString = some e := by
    intro e
    cases e <;> rfl
  have e1 : ∀ x : Store, restorePossessionLevel (snapshotWith events s) x =
      { x with possessionLevel := s.possessionLevel } := by
    intro x
    have g : (snapshotWith events s).get "possessionLevel" =
      some (.num s.possessionLevel) := rfl
    simp only [restorePossessionLevel, g, hclamp]
  have e2 : ∀ x : Store, restoreDifficulty (snapshotWith events s) x =
      { x with difficulty := s.difficulty } := by
    intro x
    have g : (snapshotWith events s).get "difficulty" = some (.str s.difficulty) := rfl
    simp only [restoreDifficulty, g, hdiff, if_true]
  have e3 : ∀ x : Store, x.sessionStartTime = none →
      restoreSessionStartTime (snapshotWith events s) x =
        { x with sessionStartTime := s.sessionStartTime } := by
    intro x hx
    have g : (snapshotWith events s).get "sessionStartTime" =
      some (.ofOptNum s.sessionStartTime) := rfl
    cases ht : s.sessionStartTime with
    | none =>
      simp only [restoreSessionStartTime, g, ht, Json.ofOptNum]
      rw [← hx]
    | some t => simp only [restoreSessionStartTime, g, ht, Json.ofOptNum, hstart t ht, gt_iff_lt,
        if_true]
  have e4 : ∀ x : Store, restoreCooldowns (snapshotWith events s) x =
      { x with exorcismCooldowns := s.exorcismCooldowns } := by
    intro x
    have g : (snapshotWith events s).get "exorcismCooldowns" =
      some (.ofEntries s.exorcismCooldowns) := rfl
    simp only [restoreCooldowns, g, Json.ofEntries, cooldownEntries_ofEntries,
      mapOf_nodup _ hmap]
  have e5 : ∀ x : Store, restoreEasterEggs (snapshotWith events s) x =
      { x with discoveredEasterEggs := s.discoveredEasterEggs } := by
    intro x
    have g : (snapshotWith events s).get "discoveredEasterEggs" =
      some (.ofStrings s.discoveredEasterEggs) := rfl
    simp only [restoreEasterEggs, g, Json.ofStrings, stringsOf_map_str, setOf_nodup _ heggs]
  have e6 : ∀ x : Store, restoreAchievements (snapshotWith events s) x =
      { x with achievements := s.achievements } := by
    intro x
    have g : (snapshotWith events s).get "achievements" =
      some (.ofStrings s.achievements) := rfl
    simp only [restoreAchievements, g, Json.ofStrings, stringsOf_map_str, setOf_nodup _ hach]
  have e7 : ∀ x : Store, x.endingReached = none →
      restoreEnding (snapshotWith events s) x =
        { x with endingReached := s.endingReached } := by
    intro x hx
    have g : (snapshotWith events s).get "endingReached" =
      some (.ofOptEnding s.endingReached) := rfl
    cases he : s.endingReached with
    | none =>
      simp only [restoreEnding, g, he, Json.ofOptEnding]
      rw [← hx]
    | some e => simp only [restoreEnding, g, he, Json.ofOptEnding, hending]
  unfold restore
  simp only [e1, e2, e4, e5, e6]
  rw [e3 _ rfl, e7 _ rfl]
  exact ⟨rfl, rfl, rfl, rfl, rfl, rfl, rfl⟩

theorem saveToLocalStorage_accepted (w : World)
    (h : w.setItem (snapshotData w.store) = .ok) :
    (saveToLocalStorage w).savedProgress = some (.json (snapshotData w.store)) := by
  unfold saveToLocalStorage
  rw [h]

theorem saveToLocalStorage_compressed (w : World)
    (h : w.setItem (snapshotData w.store) = .quotaExceeded)
    (hc : w.setItem (compressedData w.store) = .ok) :
    (saveToLocalStorage w).savedProgress = some (.json (compressedData w.store)) := by
  unfold saveToLocalStorage
  rw [h]
  dsimp only
  rw [hc]

theorem reloaded_of_saved (events : List Json) (s : Store) (w : World)
    (h : (saveToLocalStorage w).savedProgress = some (.json (snapshotWith events s))) :
    (reloaded w).1 = !getStatisticsThrows (restore (snapshotWith events s) Store.fresh) ∧
    (reloaded w).2.store = restore (snapshotWith events s) Store.fresh := by
  unfold reloaded
  rw [loadFromLocalStorage_object (snapshotWith events s)
    { World.fresh with savedProgress := (saveToLocalStorage w).savedProgress } h rfl]
  exact ⟨rfl, rfl⟩

theorem restore_sessionStartTime (data : Json) (s : Store) :
    (restore data s).sessionStartTime = (restoreSessionStartTime data s).sessionStartTime := by
  have f1 : ∀ x : Store, (restorePossessionLevel data x).sessionStartTime =
      x.sessionStartTime := by
    intro x
    unfold restorePossessionLevel
    split <;> rfl
  have f2 : ∀ x : Store, (restoreDifficulty data x).sessionStartTime = x.sessionStartTime := by
    intro x
    unfold restoreDifficulty
    split
    · split_ifs <;> rfl
    · rfl
  have f3 : ∀ x y : Store, x.sessionStartTime = y.sessionStartTime →
      (restoreSessionStartTime data x).sessionStartTime =
        (restoreSessionStartTime data y).sessionStartTime := by
    intro x y hxy
    unfold restoreSessionStartTime
    split
    · split_ifs
      · rfl
      · exact hxy
    · exact hxy
  have f4 : ∀ x : Store, (restoreCooldowns data x).sessionStartTime = x.sessionStartTime := by
    intro x
    unfold restoreCooldowns
    split
    · split <;> rfl
    · rfl
  have f5 : ∀ x : Store, (restoreEasterEggs data x).sessionStartTime = x.sessionStartTime := by
    intro x
    unfold restoreEasterEggs
    split <;> rfl
  have f6 : ∀ x : Store, (restoreAchievements data x).sessionStartTime =
      x.sessionStartTime := by
    intro x
    unfold restoreAchievements
    split <;> rfl
  have f7 : ∀ x : Store, (restoreEnding data x).sessionStartTime = x.sessionStartTime := by
    intro x
    unfold restoreEnding
    split
    · split <;> rfl
    · rfl
  unfold restore
  dsimp only
  rw [f7, f6, f5, f4]
  exact f3 _ _ (by rw [f2, f1])

theorem restore_achievements_of_absent (data : Json) (s : Store)
    (h : data.get "achievements" = none) :
    (restore data s).achievements = s.achievements := by
  have f1 : ∀ x : Store, (restorePossessionLevel data x).achievements = x.achievements := by
    intro x
    unfold restorePossessionLevel
    split <;> rfl
  have f2 : ∀ x : Store, (restoreDifficulty data x).achievements = x.achievements := by
    intro x
    unfold restoreDifficulty
    split
    · split_ifs <;> rfl
    · rfl
  have f3 : ∀ x : Store, (restoreSessionStartTime data x).achievements = x.achievements := by
    intro x
    unfold restoreSessionStartTime
    split
    · split_ifs <;> rfl
    · rfl
  have f4 : ∀ x : Store, (restoreCooldowns data x).achievements = x.achievements := by
    intro x
    unfold restoreCooldowns
    split
    · split <;> rfl
    · rfl
  have f5 : ∀ x : Store, (restoreEasterEggs data x).achievements = x.achievements := by
    intro x
    unfold restoreEasterEggs
    split <;> rfl
  have f6 : ∀ x : Store, (restoreAchievements data x).achievements = x.achievements := by
    intro x
    unfold restoreAchievements
    rw [h]
  have f7 : ∀ x : Store, (restoreEnding data x).achievements = x.achievements := by
    intro x
    unfold restoreEnding
    split
    · split <;> rfl
    · rfl
  unfold restore
  dsimp only
  rw [f7, f6, f5, f4, f3, f2, f1]

/-- C10, as stated, fails, in two ways.  First, a store at level 66, difficulty nightmare,
with `exorcist` unlocked, no cooldowns, no ending and `sessionStartTime` 0 meets every
condition the claim lists, its snapshot is written, and loading it into a fresh store
returns true but leaves `sessionStartTime` null, because the loader only restores a start
time above 0.  Second, when `localStorage` rejects the full and the compressed snapshot
for lack of space, `saveToLocalStorage` writes the minimal snapshot, and loading it leaves
`achievements` empty although `exorcist` was unlocked. -/
theorem persistence_round_trip_counterexample :
    (levelInRange epochWorld.store ∧
      epochWorld.store.difficulty ∈ ["tourist", "normal", "nightmare", "permadeath"] ∧
      epochWorld.store.exorcismCooldowns = [] ∧
      epochWorld.store.endingReached = none ∧
      (saveToLocalStorage epochWorld).savedProgress =
        some (.json (snapshotData epochWorld.store)) ∧
      (reloaded epochWorld).1 = true ∧
      (reloaded epochWorld).2.store.sessionStartTime = none ∧
      (reloaded epochWorld).2.store.sessionStartTime ≠ epochWorld.store.sessionStartTime) ∧
    (levelInRange crampedWorld.store ∧
      crampedWorld.store.difficulty ∈ ["tourist", "normal", "nightmare", "permadeath"] ∧
      crampedWorld.store.endingReached = none ∧
      (saveToLocalStorage crampedWorld).savedProgress =
        some (.json (minimalData crampedWorld.store)) ∧
      (reloaded crampedWorld).1 = true ∧
      (reloaded crampedWorld).2.store.achievements = [] ∧
      (reloaded crampedWorld).2.store.achievements ≠ crampedWorld.store.achievements) := by
  constructor
  · have hsaved := saveToLocalStorage_accepted epochWorld rfl
    have hload := reloaded_of_saved epochWorld.store.statistics.eventsHistory epochWorld.store
      epochWorld hsaved
    have hnone : (reloaded epochWorld).2.store.sessionStartTime = none := by
      rw [hload.2, restore_sessionStartTime]
      have g : (snapshotWith epochWorld.store.statistics.eventsHistory epochWorld.store).get
        "sessionStartTime" = some (.num 0) := rfl
      simp only [restoreSessionStartTime, g, gt_iff_lt, lt_self_iff_false, if_false]
      rfl
    have htrue : (reloaded epochWorld).1 = true := by
      rw [hload.1, getStatisticsThrows_of_nil _
        (by rw [restore_snapshotWith_eventsHistory]; rfl)]
      rfl
    refine ⟨by norm_num [levelInRange, epochWorld, Store.fresh], by simp [epochWorld], rfl, rfl,
      hsaved, htrue, hnone, ?_⟩
    rw [hnone]
    simp [epochWorld]
  · have hsaved : (saveToLocalStorage crampedWorld).savedProgress =
        some (.json (minimalData crampedWorld.store)) := rfl
    have hload : (reloaded crampedWorld).1 = true ∧
        (reloaded crampedWorld).2.store = restore (minimalData crampedWorld.store) Store.fresh := by
      unfold reloaded
      rw [loadFromLocalStorage_object (minimalData crampedWorld.store)
        { World.fresh with savedProgress := (saveToLocalStorage crampedWorld).savedProgress }
        hsaved rfl,
        getStatisticsThrows_of_nil _ (by rw [restore_statistics]; rfl)]
      exact ⟨rfl, rfl⟩
    have hempty : (reloaded crampedWorld).2.store.achievements = [] := by
      have g : (minimalData crampedWorld.store).get "achievements" = none := rfl
      rw [hload.2, restore_achievements_of_absent _ _ g]
      rfl
    refine ⟨by norm_num [levelInRange, crampedWorld, savedWorld, Store.fresh],
      by simp [crampedWorld, savedWorld], rfl, hsaved, hload.1, hempty, ?_⟩
    rw [hempty]
    simp [crampedWorld, savedWorld]

/-- C10 (amended). Persistence round trip: for every store state with the level in
`[0, 100]`, a valid difficulty, well-formed sets and cooldown map, and `sessionStartTime`
null or positive, when `localStorage` accepts the snapshot (in full, or without the events
history after a first quota error), loading what `saveToLocalStorage` wrote into a fresh
default store yields the same `possessionLevel`, `difficulty`, `achievements`,
`discoveredEasterEggs`, `exorcismCooldowns`, `endingReached` and `sessionStartTime`; it
returns true when the events of the history carry number timestamps, as the events that
`recordEvent` writes do (the `getStatistics()` call that ends the loader then cannot
throw). -/
theorem persistence_round_trip (w : World) (hp : persistable w.store)
    (hwrite : w.setItem (snapshotData w.store) = .ok ∨
      (w.setItem (snapshotData w.store) = .quotaExceeded ∧
        w.setItem (compressedData w.store) = .ok)) :
    ((∀ e ∈ w.store.statistics.eventsHistory, ∃ n, e.get "timestamp" = some (.num n)) →
      (reloaded w).1 = true) ∧
    (reloaded w).2.store.possessionLevel = w.store.possessionLevel ∧
    (reloaded w).2.store.difficulty = w.store.difficulty ∧
    (reloaded w).2.store.achievements = w.store.achievements ∧
    (reloaded w).2.store.discoveredEasterEggs = w.store.discoveredEasterEggs ∧
    (reloaded w).2.store.exorcismCooldowns = w.store.exorcismCooldowns ∧
    (reloaded w).2.store.endingReached = w.store.endingReached ∧
    (reloaded w).2.store.sessionStartTime = w.store.sessionStartTime := by
  have hload : ∃ events, (∀ e ∈ events, e ∈ w.store.statistics.eventsHistory) ∧
      (reloaded w).1 = !getStatisticsThrows (restore (snapshotWith events w.store) Store.fresh) ∧
      (reloaded w).2.store = restore (snapshotWith events w.store) Store.fresh := by
    rcases hwrite with hok | ⟨hquota, hok⟩
    · exact ⟨w.store.statistics.eventsHistory, fun e he => he,
        reloaded_of_saved _ w.store w (saveToLocalStorage_accepted w hok)⟩
    · exact ⟨[], fun e he => absurd he (List.not_mem_nil e),
        reloaded_of_saved [] w.store w (saveToLocalStorage_compressed w hquota hok)⟩
  obtain ⟨events, hsub, hok, hstore⟩ := hload
  rw [hstore, hok]
  refine ⟨?_, restore_snapshotWith events w.store hp⟩
  intro hnum
  rw [getStatisticsThrows_of_numeric _ (by
    intro e he
    rw [restore_snapshotWith_eventsHistory] at he
    exact hnum e (hsub e (mem_of_mem_stored events e he)))]
  rfl

theorem savedWorld_persistable : persistable savedWorld.store := by
  refine ⟨by norm_num [levelInRange, savedWorld, Store.fresh], by simp [savedWorld],
    by simp [savedWorld], by simp [savedWorld, Store.fresh], by simp [savedWorld], ?_⟩
  intro t ht
  have : t = 1000000 := by
    simp only [savedWorld, Option.some.injEq] at ht
    exact ht.symm
  rw [this]
  norm_num

theorem persistence_round_trip_witness :
    (reloaded savedWorld).1 = true ∧
    (reloaded savedWorld).2.store.possessionLevel = 66 ∧
    (reloaded savedWorld).2.store.difficulty = "nightmare" ∧
    (reloaded savedWorld).2.store.achievements = ["exorcist"] :=
  have h := persistence_round_trip savedWorld savedWorld_persistable (Or.inl rfl)
  ⟨h.1 (fun e he => absurd he (List.not_mem_nil e)), h.2.1, h.2.2.1, h.2.2.2.1⟩

/-! ### C11 to C13: seasonal events and the escalation rate -/

theorem getCurrentSeasonalEvent_halloween (now : JsDate) (h : isHalloween now) :
    getCurrentSeasonalEvent now = some halloweenEvent := by
  have h1 : now.month = 9 ∧ now.date = 31 := h
  unfold getCurrentSeasonalEvent
  rw [if_pos h1]

theorem getCurrentSeasonalEvent_friday13 (now : JsDate) (hh : ¬ isHalloween now)
    (h : isFriday13 now) : getCurrentSeasonalEvent now = some friday13Event := by
  have h1 : ¬ (now.month = 9 ∧ now.date = 31) := hh
  have h2 : now.day = 5 ∧ now.date = 13 := h
  unfold getCurrentSeasonalEvent
  rw [if_neg h1, if_pos h2]

theorem isWitchingHour_iff (now : JsDate) :
    (now.hours = 3 ∧ now.minutes ≥ 33 ∧ now.minutes < 34) ↔ isWitchingHour now := by
  unfold isWitchingHour
  constructor
  · rintro ⟨h3, h1, h2⟩
    exact ⟨h3, by omega⟩
  · rintro ⟨h3, h1⟩
    exact ⟨h3, by omega, by omega⟩

theorem getCurrentSeasonalEvent_witchingHour (now : JsDate) (hh : ¬ isHalloween now)
    (hf : ¬ isFriday13 now) (h : isWitchingHour now) :
    getCurrentSeasonalEvent now = some witchingHourEvent := by
  have h1 : ¬ (now.month = 9 ∧ now.date = 31) := hh
  have h2 : ¬ (now.day = 5 ∧ now.date = 13) := hf
  unfold getCurrentSeasonalEvent
  rw [if_neg h1, if_neg h2, if_pos ((isWitchingHour_iff now).mpr h)]

theorem getCurrentSeasonalEvent_fullMoon (now : JsDate) (hh : ¬ isHalloween now)
    (hf : ¬ isFriday13 now) (hw : ¬ isWitchingHour now) (h : isFullMoon now) :
    getCurrentSeasonalEvent now = some fullMoonEvent := by
  have h1 : ¬ (now.month = 9 ∧ now.date = 31) := hh
  have h2 : ¬ (now.day = 5 ∧ now.date = 13) := hf
  have h3 : calculateMoonPhase now ≥ 95 / 100 ∧ calculateMoonPhase now ≤ 105 / 100 :=
    ⟨h.1, h.2⟩
  unfold getCurrentSeasonalEvent
  rw [if_neg h1, if_neg h2, if_neg (fun hc => hw ((isWitchingHour_iff now).mp hc)), if_pos h3]

theorem getCurrentSeasonalEvent_none (now : JsDate) (hh : ¬ isHalloween now)
    (hf : ¬ isFriday13 now) (hw : ¬ isWitchingHour now) (hm : ¬ isFullMoon now) :
    getCurrentSeasonalEvent now = none := by
  have h1 : ¬ (now.month = 9 ∧ now.date = 31) := hh
  have h2 : ¬ (now.day = 5 ∧ now.date = 13) := hf
  have h3 : ¬ (calculateMoonPhase now ≥ 95 / 100 ∧ calculateMoonPhase now ≤ 105 / 100) :=
    fun hc => hm ⟨hc.1, hc.2⟩
  unfold getCurrentSeasonalEvent
  rw [if_neg h1, if_neg h2, if_neg (fun hc => hw ((isWitchingHour_iff now).mp hc)), if_neg h3]

/-- C11. Seasonal precedence and exclusivity: `getCurrentSeasonalEvent()` returns null or
one of the four event objects, the first that matches in the order Halloween (31
October), Friday the 13th, Witching Hour (03:33), Full Moon; an instant that is both a
Friday the 13th and in the Witching Hour yields the `friday13` event. -/
theorem seasonal_precedence (now : JsDate) :
    (getCurrentSeasonalEvent now = none ∨
      getCurrentSeasonalEvent now = some halloweenEvent ∨
      getCurrentSeasonalEvent now = some friday13Event ∨
      getCurrentSeasonalEvent now = some witchingHourEvent ∨
      getCurrentSeasonalEvent now = some fullMoonEvent) ∧
    (isHalloween now → getCurrentSeasonalEvent now = some halloweenEvent) ∧
    (¬ isHalloween now → isFriday13 now →
      getCurrentSeasonalEvent now = some friday13Event) ∧
    (¬ isHalloween now → ¬ isFriday13 now → isWitchingHour now →
      getCurrentSeasonalEvent now = some witchingHourEvent) ∧
    (¬ isHalloween now → ¬ isFriday13 now → ¬ isWitchingHour now → isFullMoon now →
      getCurrentSeasonalEvent now = some fullMoonEvent) ∧
    (¬ isHalloween now → ¬ isFriday13 now → ¬ isWitchingHour now → ¬ isFullMoon now →
      getCurrentSeasonalEvent now = none) ∧
    (isFriday13 now → isWitchingHour now →
      getCurrentSeasonalEvent now = some friday13Event) := by
  refine ⟨?_, getCurrentSeasonalEvent_halloween now, getCurrentSeasonalEvent_friday13 now,
    getCurrentSeasonalEvent_witchingHour now, getCurrentSeasonalEvent_fullMoon now,
    getCurrentSeasonalEvent_none now, ?_⟩
  · by_cases hh : isHalloween now
    · exact Or.inr (Or.inl (getCurrentSeasonalEvent_halloween now hh))
    · by_cases hf : isFriday13 now
      · exact Or.inr (Or.inr (Or.inl (getCurrentSeasonalEvent_friday13 now hh hf)))
      · by_cases hw : isWitchingHour now
        · exact Or.inr (Or.inr (Or.inr (Or.inl
            (getCurrentSeasonalEvent_witchingHour now hh hf hw))))
        · by_cases hm : isFullMoon now
          · exact Or.inr (Or.inr (Or.inr (Or.inr
              (getCurrentSeasonalEvent_fullMoon now hh hf hw hm))))
          · exact Or.inl (getCurrentSeasonalEvent_none now hh hf hw hm)
  · intro hf _
    have hh : ¬ isHalloween now := by
      intro hh
      have h13 := hf.2
      have h31 := hh.2
      omega
    exact getCurrentSeasonalEvent_friday13 now hh hf

theorem seasonal_precedence_witness :
    getCurrentSeasonalEvent fridayWitchingDate = some friday13Event :=
  (seasonal_precedence fridayWitchingDate).2.2.2.2.2.2 ⟨rfl, rfl⟩ ⟨rfl, rfl⟩

theorem applySeasonalModifiers_of_event (now : JsDate) (baseAmount : ℚ) :
    (getCurrentSeasonalEvent now = none → applySeasonalModifiers now baseAmount = baseAmount) ∧
    (getCurrentSeasonalEvent now = some halloweenEvent →
      applySeasonalModifiers now baseAmount = baseAmount * 2) ∧
    (getCurrentSeasonalEvent now = some friday13Event →
      applySeasonalModifiers now baseAmount = baseAmount) ∧
    (getCurrentSeasonalEvent now = some witchingHourEvent →
      applySeasonalModifiers now baseAmount = baseAmount * (3 / 2)) ∧
    (getCurrentSeasonalEvent now = some fullMoonEvent →
      applySeasonalModifiers now baseAmount = baseAmount) := by
  refine ⟨?_, ?_, ?_, ?_, ?_⟩ <;> intro h <;> unfold applySeasonalModifiers <;> rw [h] <;>
    simp [halloweenEvent, friday13Event, witchingHourEvent, fullMoonEvent, truthyNum]

theorem witchingDate_event : getCurrentSeasonalEvent witchingDate = some witchingHourEvent :=
  getCurrentSeasonalEvent_witchingHour witchingDate (by simp [isHalloween, witchingDate])
    (by simp [isFriday13, witchingDate]) ⟨rfl, rfl⟩

/-- C12, as stated, fails: on a Monday 1 January at 03:33 the active event is the Witching
Hour, and for a fresh store (difficulty normal, rate 1.5) the escalation tick passes
2.25, the rate scaled by the haunting multiplier 1.5, to `increasePossession`. -/
theorem witching_hour_scales_counterexample :
    getCurrentSeasonalEvent witchingDate = some witchingHourEvent ∧
    possessionIncreaseRate Store.fresh = 3 / 2 ∧
    escalationAmount witchingDate Store.fresh = 9 / 4 ∧
    escalationAmount witchingDate Store.fresh ≠ possessionIncreaseRate Store.fresh := by
  have hrate : possessionIncreaseRate Store.fresh = 3 / 2 := by
    simp [possessionIncreaseRate, difficultyMultiplier, Store.fresh]
  have hamount : escalationAmount witchingDate Store.fresh = 9 / 4 := by
    unfold escalationAmount
    rw [(applySeasonalModifiers_of_event witchingDate _).2.2.2.1 witchingDate_event, hrate]
    norm_num
  refine ⟨witchingDate_event, hrate, hamount, ?_⟩
  rw [hamount, hrate]
  norm_num

/-- C12 (amended). When the active seasonal event is the Witching Hour, the amount the
escalation tick passes to `increasePossession` is the base difficulty rate multiplied by
the haunting multiplier 1.5. -/
theorem witching_hour_scales (now : JsDate) (s : Store)
    (h : getCurrentSeasonalEvent now = some witchingHourEvent) (t : ℚ) :
    escalationAmount now s = possessionIncreaseRate s * (3 / 2) ∧
    escalationTick t now s = increasePossession t (possessionIncreaseRate s * (3 / 2)) s := by
  have hamount := (applySeasonalModifiers_of_event now (possessionIncreaseRate s)).2.2.2.1 h
  refine ⟨hamount, ?_⟩
  unfold escalationTick
  dsimp only
  rw [hamount]

theorem witching_hour_scales_witness :
    escalationAmount witchingDate Store.fresh = possessionIncreaseRate Store.fresh * (3 / 2) :=
  (witching_hour_scales witchingDate Store.fresh witchingDate_event 0).1

/-- C13. Escalation rate: the difficulty multiplier is 0.5 for tourist, 1.5 for normal,
3 for nightmare and 1.5 for permadeath; the escalation tick passes exactly that rate to
`increasePossession` when no seasonal event is active or the active event is Friday the
13th or Full Moon, and exactly twice that rate on Halloween. -/
theorem escalation_rate (now : JsDate) (s : Store) (t : ℚ) :
    (s.difficulty = "tourist" → difficultyMultiplier s = 1 / 2) ∧
    (s.difficulty = "normal" → difficultyMultiplier s = 3 / 2) ∧
    (s.difficulty = "nightmare" → difficultyMultiplier s = 3) ∧
    (s.difficulty = "permadeath" → difficultyMultiplier s = 3 / 2) ∧
    escalationTick t now s = increasePossession t (escalationAmount now s) s ∧
    (getCurrentSeasonalEvent now = none ∨ getCurrentSeasonalEvent now = some friday13Event ∨
        getCurrentSeasonalEvent now = some fullMoonEvent →
      escalationAmount now s = difficultyMultiplier s) ∧
    (isHalloween now → escalationAmount now s = 2 * difficultyMultiplier s) := by
  have hmod := applySeasonalModifiers_of_event now (possessionIncreaseRate s)
  refine ⟨?_, ?_, ?_, ?_, rfl, ?_, ?_⟩
  · intro h
    simp [difficultyMultiplier, h]
  · intro h
    simp [difficultyMultiplier, h]
  · intro h
    simp [difficultyMultiplier, h]
  · intro h
    simp [difficultyMultiplier, h]
  · rintro (h | h | h)
    · exact hmod.1 h
    · exact hmod.2.2.1 h
    · exact hmod.2.2.2.2 h
  · intro h
    unfold escalationAmount
    rw [hmod.2.1 (getCurrentSeasonalEvent_halloween now h), mul_comm]
    rfl

theorem escalation_rate_witness :
    difficultyMultiplier Store.fresh = 3 / 2 ∧
    escalationAmount halloweenDate Store.fresh = 2 * difficultyMultiplier Store.fresh :=
  have h := escalation_rate halloweenDate Store.fresh 0
  ⟨h.2.1 rfl, h.2.2.2.2.2.2 ⟨rfl, rfl⟩⟩

/-! ### C14 to C16: difficulty selection and the throttle queues -/

/-- C14. `setDifficulty(mode)`: an invalid mode leaves the whole world, hence the whole
store state, unchanged; a valid mode becomes the difficulty, the level becomes 40 when the
mode is nightmare and the level was exactly 0, and nothing else in the store changes. -/
theorem setDifficulty_effect (mode : String) (w : World) :
    (mode ∉ ["tourist", "normal", "nightmare", "permadeath"] → setDifficulty mode w = w) ∧
    (mode ∈ ["tourist", "normal", "nightmare", "permadeath"] →
      (setDifficulty mode w).store =
        { w.store with
          difficulty := mode
          possessionLevel :=
            if mode = "nightmare" ∧ w.store.possessionLevel = 0 then 40
            else w.store.possessionLevel }) ∧
    (mode ∈ ["tourist", "normal", "nightmare", "permadeath"] →
      (setDifficulty mode w).store.difficulty = mode ∧
      (mode = "nightmare" ∧ w.store.possessionLevel = 0 →
        (setDifficulty mode w).store.possessionLevel = 40) ∧
      (¬ (mode = "nightmare" ∧ w.store.possessionLevel = 0) →
        (setDifficulty mode w).store.possessionLevel = w.store.possessionLevel)) := by
  have hstore : mode ∈ ["tourist", "normal", "nightmare", "permadeath"] →
      (setDifficulty mode w).store =
        { w.store with
          difficulty := mode
          possessionLevel :=
            if mode = "nightmare" ∧ w.store.possessionLevel = 0 then 40
            else w.store.possessionLevel } := by
    intro h
    unfold setDifficulty
    rw [if_neg (not_not.mpr h), saveToLocalStorage_store]
    dsimp only
    split_ifs <;> rfl
  refine ⟨?_, hstore, ?_⟩
  · intro h
    unfold setDifficulty
    rw [if_pos h]
  · intro h
    rw [hstore h]
    refine ⟨rfl, ?_, ?_⟩
    · intro hn
      dsimp only
      rw [if_pos hn]
    · intro hn
      dsimp only
      rw [if_neg hn]

theorem setDifficulty_effect_witness :
    setDifficulty "easy" World.fresh = World.fresh ∧
    (setDifficulty "nightmare" World.fresh).store.possessionLevel = 40 :=
  have h := setDifficulty_effect "nightmare" World.fresh
  ⟨(setDifficulty_effect "easy" World.fresh).1 (by decide),
   (h.2.2 (by decide)).2.1 ⟨rfl, rfl⟩⟩

theorem increasePossession_throttled (now amount : ℚ) (s : Store) (h : throttled now s) :
    increasePossession now amount s =
      (s.possessionLevel,
        { s with _queuedPossessionIncrease := s._queuedPossessionIncrease + amount }) := by
  have h1 : now - s._lastPossessionUpdateTime < _possessionUpdateThrottle := h
  unfold increasePossession
  rw [if_pos h1]
  by_cases hq : s._queuedPossessionIncrease = 0 <;> simp [hq]

theorem decreasePossession_throttled (now amount : ℚ) (s : Store) (h : throttled now s) :
    decreasePossession now amount s =
      (s.possessionLevel,
        { s with _queuedPossessionDecrease := s._queuedPossessionDecrease + amount }) := by
  have h1 : now - s._lastPossessionUpdateTime < _possessionUpdateThrottle := h
  unfold decreasePossession
  rw [if_pos h1]
  by_cases hq : s._queuedPossessionDecrease = 0 <;> simp [hq]

/-- C15. A throttled call mutates nothing visible: when less than 1000 ms have elapsed
since the last applied possession mutation, `increasePossession(a)` and
`decreasePossession(a)` return the current level and change nothing in the store (level,
statistics, event history, last-applied timestamp) except that `a` is added to their
pending queue. -/
theorem throttled_call_only_queues (now amount : ℚ) (s : Store)
    (h : now - s._lastPossessionUpdateTime < 1000) :
    increasePossession now amount s =
      (s.possessionLevel,
        { s with _queuedPossessionIncrease := s._queuedPossessionIncrease + amount }) ∧
    decreasePossession now amount s =
      (s.possessionLevel,
        { s with _queuedPossessionDecrease := s._queuedPossessionDecrease + amount }) :=
  ⟨increasePossession_throttled now amount s h, decreasePossession_throttled now amount s h⟩

theorem throttled_call_only_queues_witness :
    increasePossession 1000500 10 raisedWorld.store =
      (raisedWorld.store.possessionLevel,
        { raisedWorld.store with
          _queuedPossessionIncrease := raisedWorld.store._queuedPossessionIncrease + 10 }) :=
  (throttled_call_only_queues 1000500 10 raisedWorld.store
    (by rw [raisedWorld_lastUpdate]; norm_num)).1

theorem raisedWorld_increaseQueue : raisedWorld.store._queuedPossessionIncrease = 0 := by
  simp only [raisedWorld, increasePossession_queue]
  norm_num [throttled, Store.fresh, _possessionUpdateThrottle]

theorem queuedStore_eq :
    queuedStore =
      { raisedWorld.store with
        _queuedPossessionIncrease := 10
        _queuedPossessionDecrease := 10 } := by
  have t1 : throttled 1000100 raisedWorld.store := by
    rw [throttled, raisedWorld_lastUpdate, _possessionUpdateThrottle]
    norm_num
  unfold queuedStore
  rw [increasePossession_throttled _ _ _ t1]
  have t2 : throttled 1000200
      { raisedWorld.store with
        _queuedPossessionIncrease := raisedWorld.store._queuedPossessionIncrease + 10 } := by
    show (1000200 : ℚ) - raisedWorld.store._lastPossessionUpdateTime < _possessionUpdateThrottle
    rw [raisedWorld_lastUpdate, _possessionUpdateThrottle]
    norm_num
  rw [decreasePossession_throttled _ _ _ t2]
  simp [raisedWorld_increaseQueue, raisedWorld_queue]

theorem queuedStore_facts :
    queuedStore.possessionLevel = 50 ∧ queuedStore._queuedPossessionIncrease = 10 ∧
    queuedStore._queuedPossessionDecrease = 10 ∧ ¬ throttled 1001500 queuedStore := by
  rw [queuedStore_eq]
  refine ⟨raisedWorld_level, rfl, rfl, ?_⟩
  show ¬ ((1001500 : ℚ) - raisedWorld.store._lastPossessionUpdateTime < _possessionUpdateThrottle)
  rw [raisedWorld_lastUpdate, _possessionUpdateThrottle]
  norm_num

/-- C16, as stated, fails: at level 50, with an increase of 10 and a decrease of 10 both
queued in one throttle window, the next allowed mutation `increasePossession(5)` raises
the level to 65, its own 5 plus the queued increase, not to 55; and the next allowed
`decreasePossession(5)` would lower it to 35, not to 45. -/
theorem queued_deltas_counterexample :
    queuedStore.possessionLevel = 50 ∧
    queuedStore._queuedPossessionIncrease = 10 ∧
    queuedStore._queuedPossessionDecrease = 10 ∧
    ¬ throttled 1001500 queuedStore ∧
    (increasePossession 1001500 5 queuedStore).2.possessionLevel = 65 ∧
    (increasePossession 1001500 5 queuedStore).2.possessionLevel ≠
      queuedStore.possessionLevel + 5 ∧
    (decreasePossession 1001500 5 queuedStore).2.possessionLevel = 35 ∧
    (decreasePossession 1001500 5 queuedStore).2.possessionLevel ≠
      queuedStore.possessionLevel - 5 := by
  obtain ⟨hl, hi, hd, ht⟩ := queuedStore_facts
  have h1 : (increasePossession 1001500 5 queuedStore).2.possessionLevel = 65 := by
    rw [increasePossession_level, if_neg ht, hl, hi]
    norm_num
  have h2 : (decreasePossession 1001500 5 queuedStore).2.possessionLevel = 35 := by
    rw [decreasePossession_level, if_neg ht, hl, hd]
    norm_num
  refine ⟨hl, hi, hd, ht, h1, ?_, h2, ?_⟩
  · rw [h1, hl]
    norm_num
  · rw [h2, hl]
    norm_num

/-- C16 (amended). Queued increases and queued decreases are kept in separate queues and
do not cancel: with an increase of `a` and a decrease of `a` both queued, the next allowed
`increasePossession(b)` moves the level to `min(100, level + b + a)` and leaves the
decrease of `a` queued, and the next allowed `decreasePossession(b)` moves it to
`max(0, level - b - a)` and leaves the increase of `a` queued. -/
theorem queued_deltas_apply_separately (now a b : ℚ) (s : Store)
    (hi : s._queuedPossessionIncrease = a) (hd : s._queuedPossessionDecrease = a)
    (ht : ¬ throttled now s) :
    ((increasePossession now b s).2.possessionLevel = min 100 (s.possessionLevel + (b + a)) ∧
      (increasePossession now b s).2._queuedPossessionIncrease = 0 ∧
      (increasePossession now b s).2._queuedPossessionDecrease = a) ∧
    ((decreasePossession now b s).2.possessionLevel = max 0 (s.possessionLevel - (b + a)) ∧
      (decreasePossession now b s).2._queuedPossessionDecrease = 0 ∧
      (decreasePossession now b s).2._queuedPossessionIncrease = a) := by
  refine ⟨⟨?_, ?_, ?_⟩, ?_, ?_, ?_⟩
  · rw [increasePossession_level, if_neg ht, hi]
  · rw [increasePossession_queue, if_neg ht]
  · rw [increasePossession_other_queue, hd]
  · rw [decreasePossession_level, if_neg ht, hd]
  · rw [decreasePossession_queue, if_neg ht]
  · rw [decreasePossession_other_queue, hi]

theorem queued_deltas_apply_separately_witness :
    (increasePossession 1001500 5 queuedStore).2.possessionLevel = min 100 (50 + (5 + 10)) ∧
    (increasePossession 1001500 5 queuedStore).2._queuedPossessionDecrease = 10 := by
  have h := (queued_deltas_apply_separately 1001500 10 5 queuedStore queuedStore_facts.2.1
    queuedStore_facts.2.2.1 queuedStore_facts.2.2.2).1
  rw [queuedStore_facts.1] at h
  exact ⟨h.1, h.2.2⟩

/-! ### C17: cooldowns are independent per kind -/

theorem mapGet_map_replace (m : List (String × ℚ)) (k k' : String) (v : ℚ) :
    mapGet (m.map (fun e => if e.1 == k then (k, v) else e)) k' =
      if k' = k then (if m.any (fun e => e.1 == k) then some v else none)
      else mapGet m k' := by
  induction m with
  | nil => simp [mapGet]
  | cons e rest ih =>
    unfold mapGet at ih ⊢
    by_cases hkk : k' = k
    · subst hkk
      by_cases he : e.1 = k'
      · simp_all [List.find?_cons]
      · have hb : (e.1 == k') = false := by simpa using he
        simp only [List.map_cons, List.find?_cons, List.any_cons, hb, Bool.false_or,
          Bool.false_eq_true, if_false] at ih ⊢
        simpa using ih
    · by_cases he : e.1 = k <;> by_cases he' : e.1 = k' <;> simp_all [List.find?_cons]

theorem mapGet_append_single (m : List (String × ℚ)) (k k' : String) (v : ℚ)
    (h : ¬ m.any (fun e => e.1 == k) = true) :
    mapGet (m ++ [(k, v)]) k' = if k' = k then some v else mapGet m k' := by
  unfold mapGet
  by_cases hkk : k' = k
  · subst hkk
    have hnone : m.find? (fun e => e.1 == k') = none := by
      rw [List.find?_eq_none]
      intro x hx hxk
      exact h (List.any_eq_true.mpr ⟨x, hx, hxk⟩)
    simp [List.find?_append, hnone]
  · have hne : ¬ k = k' := fun h' => hkk h'.symm
    simp [List.find?_append, List.find?_cons, hkk, hne]

theorem mapGet_mapSet_self (m : List (String × ℚ)) (k : String) (v : ℚ) :
    mapGet (mapSet m k v) k = some v := by
  unfold mapSet
  split_ifs with h
  · rw [mapGet_map_replace, if_pos rfl, if_pos h]
  · rw [mapGet_append_single m k k v h, if_pos rfl]

theorem mapGet_mapSet_other (m : List (String × ℚ)) (k k' : String) (v : ℚ) (hk : k' ≠ k) :
    mapGet (mapSet m k v) k' = mapGet m k' := by
  unfold mapSet
  split_ifs with h
  · rw [mapGet_map_replace, if_neg hk]
  · rw [mapGet_append_single m k k' v h, if_neg hk]

theorem onlyCooldownSet_of_mapSet (kind : String) (now : ℚ) (before after : Store)
    (h : after.exorcismCooldowns = mapSet before.exorcismCooldowns kind now) :
    onlyCooldownSet kind now before after := by
  refine ⟨?_, ?_, ?_⟩
  · rw [h, mapGet_mapSet_self]
  · intro k hk
    rw [h, mapGet_mapSet_other _ _ _ _ hk]
  · intro k t hk
    unfold isExorcismOnCooldown
    rw [h, mapGet_mapSet_other _ _ _ _ hk]

theorem GameplayService.applyExorcism_cooldowns (now : ℚ) (kind : String) (amount : ℚ)
    (w : World) :
    (GameplayService.applyExorcism now kind amount w).store.exorcismCooldowns =
      mapSet w.store.exorcismCooldowns kind now := by
  obtain ⟨level, st, timer, last, queued, h⟩ := decreasePossession_frame now amount w.store
  unfold GameplayService.applyExorcism
  dsimp only
  rw [h]

theorem GameplayService.performTextExorcism_cooldowns (now : ℚ) (phrase : String) (w : World)
    (h : (GameplayService.performTextExorcism now phrase w).1 = true) :
    (GameplayService.performTextExorcism now phrase w).2.store.exorcismCooldowns =
      mapSet w.store.exorcismCooldowns "text" now := by
  unfold GameplayService.performTextExorcism at h ⊢
  by_cases hcd : isExorcismOnCooldown now w.store "text" = true
  · rw [if_pos hcd] at h
    exact absurd h (by simp)
  · rw [if_neg hcd] at h ⊢
    by_cases hphrase : GameplayService.normalizedPhrase phrase = "begone spirit".data
    · rw [if_pos hphrase]
      dsimp only
      rw [GameplayService.checkAchievements_eq]
      simp only [dispatchEvent, GameplayService.triggerExorcismFlash,
        GameplayService.triggerCleansingEffect, recordEvent]
      split_ifs <;> exact GameplayService.applyExorcism_cooldowns now "text" 15 w
    · rw [if_neg hphrase] at h
      exact absurd h (by simp)

theorem GameplayService.deleteCursedFile_cooldowns (now : ℚ) (fileId : String) (w : World)
    (h : (GameplayService.deleteCursedFile now fileId w).1 = true) :
    (GameplayService.deleteCursedFile now fileId w).2.store.exorcismCooldowns =
      mapSet w.store.exorcismCooldowns "file" now := by
  unfold GameplayService.deleteCursedFile at h ⊢
  cases hidx : w.service.cursedFiles.findIdx? (fun f => f.id == fileId) with
  | none =>
    rw [hidx] at h
    exact absurd h (by simp)
  | some fileIndex =>
    rw [hidx] at h
    dsimp only at h ⊢
    cases hfile : w.service.cursedFiles.get? fileIndex with
    | none =>
      rw [hfile] at h
      exact absurd h (by simp)
    | some file =>
      rw [hfile] at h
      dsimp only at h ⊢
      by_cases hcd : isExorcismOnCooldown now w.store "file" = true
      · rw [if_pos hcd] at h
        exact absurd h (by simp)
      · rw [if_neg hcd]
        rw [GameplayService.checkAchievements_eq]
        simp only [dispatchEvent, recordEvent]
        exact GameplayService.applyExorcism_cooldowns now "file" file.possessionValue _

theorem GameplayService.performPuzzleExorcism_cooldowns (now : ℚ) (puzzleId : String)
    (solution : Json) (w : World) (r : ℚ)
    (h : (GameplayService.performPuzzleExorcism now puzzleId solution w).1 =
      GameplayService.PuzzleOutcome.success r) :
    (GameplayService.performPuzzleExorcism now puzzleId solution w).2.store.exorcismCooldowns =
      mapSet w.store.exorcismCooldowns "puzzle" now := by
  unfold GameplayService.performPuzzleExorcism at h ⊢
  by_cases hcd : isExorcismOnCooldown now w.store "puzzle" = true
  · rw [if_pos hcd] at h
    exact absurd h (by simp)
  · rw [if_neg hcd] at h ⊢
    dsimp only at h ⊢
    by_cases hvalid : (GameplayService.validatePuzzleSolution now puzzleId solution
        w.service).1 = true
    · simp only [hvalid, Bool.not_true, Bool.false_eq_true, if_false]
      rw [GameplayService.checkAchievements_eq]
      simp only [dispatchEvent, GameplayService.triggerExorcismFlash,
        GameplayService.triggerCleansingEffect, recordEvent]
      split_ifs <;> exact GameplayService.applyExorcism_cooldowns now "puzzle" 20 _
    · have hfalse : (GameplayService.validatePuzzleSolution now puzzleId solution
          w.service).1 = false := by simpa using hvalid
      simp only [hfalse, Bool.not_false, if_true] at h
      exact absurd h (by simp)

/-- C17. Cooldowns are independent per kind: a successful exorcism of a kind (text, file
or puzzle) sets the cooldown entry of that kind to the current time and leaves the entry
of every other kind unchanged, so `isExorcismOnCooldown` of every other kind, at every
time, is the same before and after. -/
theorem cooldowns_independent (now : ℚ) (w : World) (phrase fileId puzzleId : String)
    (solution : Json) :
    ((GameplayService.performTextExorcism now phrase w).1 = true →
      onlyCooldownSet "text" now w.store
        (GameplayService.performTextExorcism now phrase w).2.store) ∧
    ((GameplayService.deleteCursedFile now fileId w).1 = true →
      onlyCooldownSet "file" now w.store
        (GameplayService.deleteCursedFile now fileId w).2.store) ∧
    ((∃ r, (GameplayService.performPuzzleExorcism now puzzleId solution w).1 =
        GameplayService.PuzzleOutcome.success r) →
      onlyCooldownSet "puzzle" now w.store
        (GameplayService.performPuzzleExorcism now puzzleId solution w).2.store) := by
  refine ⟨?_, ?_, ?_⟩
  · intro h
    exact onlyCooldownSet_of_mapSet _ _ _ _
      (GameplayService.performTextExorcism_cooldowns now phrase w h)
  · intro h
    exact onlyCooldownSet_of_mapSet _ _ _ _
      (GameplayService.deleteCursedFile_cooldowns now fileId w h)
  · rintro ⟨r, h⟩
    exact onlyCooldownSet_of_mapSet _ _ _ _
      (GameplayService.performPuzzleExorcism_cooldowns now puzzleId solution w r h)

theorem cooldowns_independent_witness :
    onlyCooldownSet "text" 1002000 raisedWorld.store
      (GameplayService.performTextExorcism 1002000 "begone spirit" raisedWorld).2.store :=
  (cooldowns_independent 1002000 raisedWorld "begone spirit" "" "" .null).1
    (GameplayService.performTextExorcism_applied 1002000 "begone spirit" raisedWorld
      (raisedWorld_not_on_cooldown 1002000 "text") (by decide)).1

/-! ### C18 and C19: the tolerant loader -/

theorem updatedCustomization_scareIntensity (settings : Json) (c : Customization) :
    (updatedCustomization settings c).scareIntensity =
      match settings.get "scareIntensity" with
      | some (.num n) => max 0 (min 100 n)
      | _ => c.scareIntensity := by
  unfold updatedCustomization
  dsimp only
  repeat' split
  all_goals rfl

theorem updatedCustomization_enabledBehaviors (settings : Json) (c : Customization) :
    (updatedCustomization settings c).enabledBehaviors =
      match settings.get "enabledBehaviors" with
      | some (.arr xs) =>
        setOf ((stringsOf xs).filter (fun b =>
          decide (b ∈ ["possessedApps", "audioHaunting", "visualCorruption"])))
      | _ => c.enabledBehaviors := by
  unfold updatedCustomization
  dsimp only
  repeat' split
  all_goals rfl

theorem updatedCustomization_theme (settings : Json) (c : Customization) :
    (updatedCustomization settings c).theme =
      match settings.get "theme" with
      | some (.str t) =>
        if t ∈ ["default", "hospital", "asylum", "cemetery"] then t else c.theme
      | _ => c.theme := by
  unfold updatedCustomization
  dsimp only
  repeat' split
  all_goals rfl

theorem updatedCustomization_reducedMotion (settings : Json) (c : Customization) :
    (updatedCustomization settings c).reducedMotion =
      match settings.get "reducedMotion" with
      | some (.bool b) => b
      | _ => c.reducedMotion := by
  unfold updatedCustomization
  dsimp only
  repeat' split
  all_goals rfl

theorem updatedCustomization_visualCuesForAudio (settings : Json) (c : Customization) :
    (updatedCustomization settings c).visualCuesForAudio =
      match settings.get "visualCuesForAudio" with
      | some (.bool b) => b
      | _ => c.visualCuesForAudio := by
  unfold updatedCustomization
  dsimp only
  repeat' split
  all_goals rfl

theorem updatedCustomization_restored (cd : Json) (c : Customization) :
    customizationRestored cd c (updatedCustomization cd c) := by
  unfold customizationRestored
  rw [updatedCustomization_scareIntensity, updatedCustomization_enabledBehaviors,
    updatedCustomization_theme, updatedCustomization_reducedMotion,
    updatedCustomization_visualCuesForAudio]
  refine ⟨?_, ?_, ?_, ?_, ?_, ?_, ?_, ?_, ?_, ?_⟩
  · intro h
    split
    · next n hn => exact absurd hn (h n)
    · rfl
  · intro n hn
    rw [hn]
  · intro h
    split
    · next xs hxs => exact absurd hxs (h xs)
    · rfl
  · intro xs hxs
    rw [hxs]
  · intro h
    split
    · next t ht => rw [if_neg (h t ht)]
    · rfl
  · intro t ht hmem
    rw [ht]
    dsimp only
    rw [if_pos hmem]
  · intro h
    split
    · next b hb => exact absurd hb (h b)
    · rfl
  · intro b hb
    rw [hb]
  · intro h
    split
    · next b hb => exact absurd hb (h b)
    · rfl
  · intro b hb
    rw [hb]

theorem truthy_of_isObject (value : Json) (h : value.isObject = true) : value.truthy = true := by
  cases value <;> simp [Json.isObject] at h <;> rfl

theorem loadCustomization_of_object (data cd : Json) (c : Customization)
    (h : data.get "customization" = some cd) (hobj : cd.isObject = true) :
    loadCustomization data c = updatedCustomization cd c := by
  unfold loadCustomization updatedCustomization
  rw [h]
  dsimp only
  rw [truthy_of_isObject cd hobj, hobj]
  rfl

theorem loadCustomization_of_other (data : Json) (c : Customization)
    (h : ∀ cd, data.get "customization" = some cd → cd.isObject = false) :
    loadCustomization data c = c := by
  unfold loadCustomization
  cases hcd : data.get "customization" with
  | none => rfl
  | some cd =>
    dsimp only
    rw [h cd hcd]
    simp

theorem loadCounter_restored (sd : Json) (key : String) (current : ℚ) :
    counterRestored sd key current (loadCounter sd key current) := by
  unfold counterRestored loadCounter
  refine ⟨?_, ?_⟩
  · intro h
    split
    · next n hn => exact absurd hn (h n)
    · rfl
  · intro n hn
    rw [hn]

theorem loadStatistics_of_object (data sd : Json) (st : Statistics)
    (h : data.get "statistics" = some sd) (hobj : sd.isObject = true) :
    statisticsRestored sd st (loadStatistics data st) := by
  unfold loadStatistics
  rw [h]
  dsimp only
  rw [truthy_of_isObject sd hobj, hobj]
  simp only [Bool.and_self, Bool.not_true, Bool.false_eq_true, if_false]
  unfold statisticsRestored
  refine ⟨loadCounter_restored _ _ _, loadCounter_restored _ _ _, loadCounter_restored _ _ _,
    loadCounter_restored _ _ _, loadCounter_restored _ _ _, loadCounter_restored _ _ _,
    loadCounter_restored _ _ _, ?_, ?_, ?_, ?_, ?_, ?_, ?_, ?_⟩
  · intro hn
    dsimp only
    split
    · next n hk => exact absurd hk (hn n)
    · rfl
  · intro n hk
    dsimp only
    rw [hk]
  · intro hn
    dsimp only
    split
    · next xs hk => exact absurd hk (hn xs)
    · rfl
  · intro xs hk
    dsimp only
    rw [hk]
  · intro hn
    dsimp only
    split
    · next xs hk => exact absurd hk (hn xs)
    · rfl
  · intro xs hk
    dsimp only
    rw [hk]
  · intro hn
    dsimp only
    split
    · next xs hk => exact absurd hk (hn xs)
    · rfl
  · intro xs hk
    dsimp only
    rw [hk]

theorem loadStatistics_of_other (data : Json) (st : Statistics)
    (h : ∀ sd, data.get "statistics" = some sd → sd.isObject = false) :
    loadStatistics data st = st := by
  unfold loadStatistics
  cases hsd : data.get "statistics" with
  | none => rfl
  | some sd =>
    dsimp only
    rw [h sd hsd]
    simp

/-- C18, as stated, fails: for a snapshot whose `possessionLevel` is a string and whose
events history holds an event with the timestamp `(toString: 1)`, the loader keeps the
level, applies the valid `difficulty` and restores the event, and then returns false, not
true: the `getStatistics()` call that ends the loader throws on that timestamp. -/
theorem load_returns_false_counterexample :
    poisonedSnapshot.isObject = true ∧
    (loadFromLocalStorage (worldWithSaved poisonedSnapshot)).1 = false ∧
    (loadFromLocalStorage (worldWithSaved poisonedSnapshot)).2.store.possessionLevel = 0 ∧
    (loadFromLocalStorage (worldWithSaved poisonedSnapshot)).2.store.difficulty =
      "nightmare" ∧
    (loadFromLocalStorage (worldWithSaved poisonedSnapshot)).2.store.statistics.eventsHistory =
      [.obj [("type", .str "x"), ("timestamp", .obj [("toString", .num 1)])]] := by
  have hhist : (restore poisonedSnapshot (worldWithSaved poisonedSnapshot).store).statistics.eventsHistory =
      [.obj [("type", .str "x"), ("timestamp", .obj [("toString", .num 1)])]] := by
    rw [restore_statistics]
    rfl
  have hthrows : getStatisticsThrows
      (restore poisonedSnapshot (worldWithSaved poisonedSnapshot).store) = true := by
    unfold getStatisticsThrows
    rw [hhist]
    simp [sliceLast, eventThrows, Json.get, Json.toPrimitiveThrows]
  have hload := loadFromLocalStorage_object poisonedSnapshot (worldWithSaved poisonedSnapshot)
    rfl rfl
  rw [hload, hthrows]
  refine ⟨rfl, rfl, ?_, ?_, hhist⟩
  · dsimp only
    rw [restore_possessionLevel]
    rfl
  · dsimp only
    rw [restore_difficulty]
    rfl

/-- C18 (amended). Field-by-field tolerant load: for every parsed snapshot object, each
state field is decided by the snapshot's field of the same name alone: a field of the
wrong type leaves the state field at its previous value, and a valid field is applied
whatever the other fields hold; the same holds field by field inside the `customization`
and `statistics` objects.  Nothing but the store changes.  The loader returns false
exactly when the `getStatistics()` call that ends it throws, that is when one of the last
ten restored events is null or has a timestamp that cannot be converted to a primitive;
in particular it returns true when every restored event has a number timestamp. -/
theorem load_field_by_field (data : Json) (w : World)
    (hsaved : w.savedProgress = some (.json data)) (hobj : data.isObject = true) :
    ((loadFromLocalStorage w).1 = false ↔
      ∃ e ∈ sliceLast 10 (loadFromLocalStorage w).2.store.statistics.eventsHistory,
        eventThrows e = true) ∧
    ((∀ e ∈ (loadFromLocalStorage w).2.store.statistics.eventsHistory,
        ∃ n, e.get "timestamp" = some (.num n)) →
      (loadFromLocalStorage w).1 = true) ∧
    (loadFromLocalStorage w).2 = { w with store := (loadFromLocalStorage w).2.store } ∧
    (((∀ n, data.get "possessionLevel" ≠ some (.num n)) →
        (loadFromLocalStorage w).2.store.possessionLevel = w.store.possessionLevel) ∧
      (∀ n, data.get "possessionLevel" = some (.num n) →
        (loadFromLocalStorage w).2.store.possessionLevel = max 0 (min 100 n))) ∧
    (((∀ d, data.get "difficulty" ≠ some (.str d)) →
        (loadFromLocalStorage w).2.store.difficulty = w.store.difficulty) ∧
      (∀ d, data.get "difficulty" = some (.str d) →
        d ∈ ["tourist", "normal", "nightmare", "permadeath"] →
        (loadFromLocalStorage w).2.store.difficulty = d)) ∧
    (((∀ t, data.get "sessionStartTime" ≠ some (.num t)) →
        (loadFromLocalStorage w).2.store.sessionStartTime = w.store.sessionStartTime) ∧
      (∀ t, data.get "sessionStartTime" = some (.num t) → 0 < t →
        (loadFromLocalStorage w).2.store.sessionStartTime = some t)) ∧
    (((∀ xs, data.get "exorcismCooldowns" ≠ some (.arr xs)) →
        (loadFromLocalStorage w).2.store.exorcismCooldowns = w.store.exorcismCooldowns) ∧
      (∀ xs es, data.get "exorcismCooldowns" = some (.arr xs) → cooldownEntries xs = some es →
        (loadFromLocalStorage w).2.store.exorcismCooldowns = mapOf es)) ∧
    (((∀ xs, data.get "discoveredEasterEggs" ≠ some (.arr xs)) →
        (loadFromLocalStorage w).2.store.discoveredEasterEggs = w.store.discoveredEasterEggs) ∧
      (∀ xs, data.get "discoveredEasterEggs" = some (.arr xs) →
        (loadFromLocalStorage w).2.store.discoveredEasterEggs = setOf (stringsOf xs))) ∧
    (((∀ xs, data.get "achievements" ≠ some (.arr xs)) →
        (loadFromLocalStorage w).2.store.achievements = w.store.achievements) ∧
      (∀ xs, data.get "achievements" = some (.arr xs) →
        (loadFromLocalStorage w).2.store.achievements = setOf (stringsOf xs))) ∧
    (((∀ e, data.get "endingReached" ≠ some (.str e)) →
        (loadFromLocalStorage w).2.store.endingReached = w.store.endingReached) ∧
      (∀ e ending, data.get "endingReached" = some (.str e) →
        Ending.ofString e = some ending →
        (loadFromLocalStorage w).2.store.endingReached = some ending)) ∧
    ((∀ cd, data.get "customization" = some cd → cd.isObject = true →
        customizationRestored cd w.store.customization
          (loadFromLocalStorage w).2.store.customization) ∧
      ((∀ cd, data.get "customization" = some cd → cd.isObject = false) →
        (loadFromLocalStorage w).2.store.customization = w.store.customization)) ∧
    ((∀ sd, data.get "statistics" = some sd → sd.isObject = true →
        statisticsRestored sd w.store.statistics
          (loadFromLocalStorage w).2.store.statistics) ∧
      ((∀ sd, data.get "statistics" = some sd → sd.isObject = false) →
        (loadFromLocalStorage w).2.store.statistics = w.store.statistics)) := by
  rw [loadFromLocalStorage_object data w hsaved hobj]
  dsimp only
  refine ⟨?_, ?_, rfl, ?_⟩
  · rw [Bool.not_eq_false', getStatisticsThrows_iff]
  · intro h
    rw [getStatisticsThrows_of_numeric _ h]
    rfl
  rw [restore_possessionLevel, restore_difficulty, restore_sessionStartTime,
    restore_exorcismCooldowns, restore_discoveredEasterEggs, restore_achievements,
    restore_endingReached, restore_customization, restore_statistics]
  refine ⟨⟨?_, ?_⟩, ⟨?_, ?_⟩, ⟨?_, ?_⟩, ⟨?_, ?_⟩, ⟨?_, ?_⟩, ⟨?_, ?_⟩, ⟨?_, ?_⟩, ⟨?_, ?_⟩,
    ?_, ?_⟩
  · intro h
    unfold restorePossessionLevel
    split
    · next n hn => exact absurd hn (h n)
    · rfl
  · intro n hn
    unfold restorePossessionLevel
    rw [hn]
  · intro h
    unfold restoreDifficulty
    split
    · next d hd => exact absurd hd (h d)
    · rfl
  · intro d hd hmem
    unfold restoreDifficulty
    rw [hd]
    dsimp only
    rw [if_pos hmem]
  · intro h
    unfold restoreSessionStartTime
    split
    · next t ht => exact absurd ht (h t)
    · rfl
  · intro t ht hpos
    unfold restoreSessionStartTime
    rw [ht]
    dsimp only
    rw [if_pos hpos]
  · intro h
    unfold restoreCooldowns
    split
    · next xs hxs => exact absurd hxs (h xs)
    · rfl
  · intro xs es hxs hes
    unfold restoreCooldowns
    rw [hxs]
    dsimp only
    rw [hes]
  · intro h
    unfold restoreEasterEggs
    split
    · next xs hxs => exact absurd hxs (h xs)
    · rfl
  · intro xs hxs
    unfold restoreEasterEggs
    rw [hxs]
  · intro h
    unfold restoreAchievements
    split
    · next xs hxs => exact absurd hxs (h xs)
    · rfl
  · intro xs hxs
    unfold restoreAchievements
    rw [hxs]
  · intro h
    unfold restoreEnding
    split
    · next e he => exact absurd he (h e)
    · rfl
  · intro e ending he hending
    unfold restoreEnding
    rw [he]
    dsimp only
    rw [hending]
  · intro cd hcd hcdobj
    rw [loadCustomization_of_object data cd _ hcd hcdobj]
    exact updatedCustomization_restored cd _
  · intro h
    exact loadCustomization_of_other data _ h
  · intro sd hsd hsdobj
    exact loadStatistics_of_object data sd _ hsd hsdobj
  · intro h
    exact loadStatistics_of_other data _ h

theorem load_field_by_field_witness :
    (loadFromLocalStorage (worldWithSaved mistypedSnapshot)).1 = true ∧
    (loadFromLocalStorage (worldWithSaved mistypedSnapshot)).2.store.possessionLevel = 0 ∧
    (loadFromLocalStorage (worldWithSaved mistypedSnapshot)).2.store.difficulty = "nightmare" ∧
    (loadFromLocalStorage (worldWithSaved mistypedSnapshot)).2.store.achievements =
      setOf (stringsOf [.str "exorcist"]) ∧
    (loadFromLocalStorage (worldWithSaved mistypedSnapshot)).2.store.customization.theme =
      "default" ∧
    (loadFromLocalStorage
      (worldWithSaved mistypedSnapshot)).2.store.customization.scareIntensity =
        max 0 (min 100 40) :=
  have h := load_field_by_field mistypedSnapshot (worldWithSaved mistypedSnapshot) rfl rfl
  have hc := h.2.2.2.2.2.2.2.2.2.2.1.1
    (.obj [("theme", .num 3), ("scareIntensity", .num 40)]) rfl rfl
  ⟨h.2.1 (by
     intro e he
     have hstat := h.2.2.2.2.2.2.2.2.2.2.2.2 (by
       intro sd hsd
       have g : mistypedSnapshot.get "statistics" = none := rfl
       rw [g] at hsd
       exact absurd hsd (by simp))
     rw [hstat] at he
     exact absurd he (List.not_mem_nil e)),
   h.2.2.2.1.1 (by
     intro n hn
     have g : mistypedSnapshot.get "possessionLevel" = some (.str "66") := rfl
     rw [g] at hn
     simp at hn),
   h.2.2.2.2.1.2 "nightmare" rfl (by decide),
   h.2.2.2.2.2.2.2.2.1.2 [.str "exorcist"] rfl,
   hc.2.2.2.2.1 (by
     intro t ht
     have g : (Json.obj [("theme", .num 3), ("scareIntensity", .num 40)]).get "theme" =
       some (.num 3) := rfl
     rw [g] at ht
     simp at ht),
   hc.2.1 40 rfl⟩

/-- C19, as stated, fails: a snapshot whose `possessionLevel` is 150 is not skipped: loaded
into a fresh store it sets the level to 100, not the default 0. -/
theorem load_out_of_range_counterexample :
    (loadFromLocalStorage (worldWithSaved (.obj [("possessionLevel", .num 150)]))).1 = true ∧
    (worldWithSaved (.obj [("possessionLevel", .num 150)])).store.possessionLevel = 0 ∧
    (loadFromLocalStorage
      (worldWithSaved (.obj [("possessionLevel", .num 150)]))).2.store.possessionLevel = 100 ∧
    (loadFromLocalStorage
      (worldWithSaved (.obj [("possessionLevel", .num 150)]))).2.store.possessionLevel ≠ 0 := by
  have hload := loadFromLocalStorage_object (.obj [("possessionLevel", .num 150)])
    (worldWithSaved (.obj [("possessionLevel", .num 150)])) rfl rfl
  have hlevel : (loadFromLocalStorage
      (worldWithSaved (.obj [("possessionLevel", .num 150)]))).2.store.possessionLevel = 100 := by
    rw [hload]
    dsimp only
    rw [restore_possessionLevel]
    have g : (Json.obj [("possessionLevel", .num 150)]).get "possessionLevel" =
      some (.num 150) := rfl
    simp only [restorePossessionLevel, g]
    norm_num
  refine ⟨?_, rfl, hlevel, ?_⟩
  · rw [hload, getStatisticsThrows_of_nil _ (by rw [restore_statistics]; rfl)]
    rfl
  · rw [hlevel]
    norm_num

/-- C19 (amended). A `possessionLevel` outside the range is clamped on load, not skipped:
when the snapshot's `possessionLevel` is a number `n`, `loadFromLocalStorage` into a fresh
store sets the level to `max(0, min(100, n))`, which is 100 for `n` above 100 and 0 for
`n` below 0. -/
theorem load_clamps_level (data : Json) (n : ℚ) (hobj : data.isObject = true)
    (hlevel : data.get "possessionLevel" = some (.num n)) :
    (loadFromLocalStorage (worldWithSaved data)).2.store.possessionLevel =
      max 0 (min 100 n) ∧
    (100 < n → (loadFromLocalStorage (worldWithSaved data)).2.store.possessionLevel = 100) ∧
    (n < 0 → (loadFromLocalStorage (worldWithSaved data)).2.store.possessionLevel = 0) := by
  have h : (loadFromLocalStorage (worldWithSaved data)).2.store.possessionLevel =
      max 0 (min 100 n) := by
    rw [loadFromLocalStorage_object data (worldWithSaved data) rfl hobj]
    dsimp only
    rw [restore_possessionLevel]
    unfold restorePossessionLevel
    rw [hlevel]
  refine ⟨h, ?_, ?_⟩
  · intro hn
    rw [h, min_eq_left (le_of_lt hn)]
    norm_num
  · intro hn
    rw [h, min_eq_right (by linarith), max_eq_left (le_of_lt hn)]

theorem load_clamps_level_witness :
    (loadFromLocalStorage
      (worldWithSaved (.obj [("possessionLevel", .num (-5))]))).2.store.possessionLevel = 0 :=
  (load_clamps_level (.obj [("possessionLevel", .num (-5))]) (-5) rfl rfl).2.2 (by norm_num)

/-! ### C20: clearing progress -/

theorem clearProgress_store (now : ℚ) (w : World) :
    (clearProgress now w).store =
      { w.store with
        possessionLevel := 0
        difficulty := "normal"
        sessionStartTime := none
        exorcismCooldowns := []
        discoveredEasterEggs := []
        achievements := []
        endingReached := none
        customization := Customization.default
        statistics :=
          { Statistics.default with
            eventsHistory :=
              [.obj [("type", .str "progress_cleared"), ("timestamp", .num now),
                     ("data", .obj [])]] } } := by
  unfold clearProgress recordEvent
  simp [Statistics.default]

/-- C20, as stated, fails: after `clearProgress()` on a fresh world the statistics are not
the default value, because `clearProgress` records a `progress_cleared` event after the
reset and `eventsHistory` holds that one event. -/
theorem clearProgress_counterexample :
    (clearProgress 1000000 World.fresh).store.statistics.eventsHistory.length = 1 ∧
    Statistics.default.eventsHistory.length = 0 ∧
    (clearProgress 1000000 World.fresh).store.statistics ≠ Statistics.default := by
  have h := clearProgress_store 1000000 World.fresh
  refine ⟨by rw [h]; rfl, rfl, ?_⟩
  intro heq
  have hlen : (clearProgress 1000000 World.fresh).store.statistics.eventsHistory.length =
      Statistics.default.eventsHistory.length := by rw [heq]
  rw [h] at hlen
  exact absurd hlen (by decide)

/-- C20 (amended). `clearProgress` resets the state to defaults and records the reset: from
every store state, after `clearProgress()` the level is 0, the difficulty is `normal`,
`sessionStartTime` and `endingReached` are null, the cooldowns, easter eggs and
achievements are empty, the persisted snapshot is deleted, and the statistics equal their
default value except that `eventsHistory` holds exactly the `progress_cleared` event that
`clearProgress` itself records. -/
theorem clearProgress_resets (now : ℚ) (w : World) :
    (clearProgress now w).store.possessionLevel = 0 ∧
    (clearProgress now w).store.difficulty = "normal" ∧
    (clearProgress now w).store.sessionStartTime = none ∧
    (clearProgress now w).store.endingReached = none ∧
    (clearProgress now w).store.exorcismCooldowns = [] ∧
    (clearProgress now w).store.discoveredEasterEggs = [] ∧
    (clearProgress now w).store.achievements = [] ∧
    (clearProgress now w).savedProgress = none ∧
    (clearProgress now w).store.statistics =
      { Statistics.default with
        eventsHistory :=
          [.obj [("type", .str "progress_cleared"), ("timestamp", .num now),
                 ("data", .obj [])]] } := by
  rw [clearProgress_store]
  exact ⟨rfl, rfl, rfl, rfl, rfl, rfl, rfl, rfl, rfl⟩

/-! ### C21: the achievement ledger -/

theorem subset_of_eq {a b : List String} (h : a = b) : a ⊆ b := by
  rw [h]
  exact List.Subset.refl b

theorem subset_setAdd (s : List String) (x : String) : s ⊆ setAdd s x := by
  unfold setAdd
  split_ifs
  · exact List.Subset.refl s
  · exact List.subset_append_left s [x]

theorem unlockAchievement_subset (now : ℚ) (achievementId : String)
    (name description : Option String) (w : World) :
    w.store.achievements ⊆
      (unlockAchievement now achievementId name description w).2.store.achievements := by
  by_cases h : achievementId ∈ w.store.achievements
  · rw [unlockAchievement_unlocked now achievementId name description w h]
    exact List.Subset.refl _
  · rw [(unlockAchievement_locked now achievementId name description w h).2.1]
    exact List.subset_append_left _ _

theorem GameplayService.serviceUnlock_subset (now : ℚ) (achievementId : String) (w : World) :
    w.store.achievements ⊆
      (GameplayService.unlockAchievement now achievementId w).2.store.achievements := by
  unfold GameplayService.unlockAchievement
  split
  · exact List.Subset.refl _
  · by_cases h : achievementId ∈ w.store.achievements
    · rw [if_pos h]
      exact List.Subset.refl _
    · rw [if_neg h]
      dsimp only
      rw [saveToLocalStorage_store]
      exact subset_setAdd _ _

theorem GameplayService.checkAchievements_subset (now : ℚ) (w : World) :
    w.store.achievements ⊆ (GameplayService.checkAchievements now w).store.achievements := by
  have step : ∀ (id : String) (v : World),
      v.store.achievements ⊆
        (if id ∈ v.store.achievements then v
          else if GameplayService.condition id v then
            (GameplayService.unlockAchievement now id v).2
          else v).store.achievements := by
    intro id v
    split_ifs
    · exact List.Subset.refl _
    · exact GameplayService.serviceUnlock_subset now id v
    · exact List.Subset.refl _
  unfold GameplayService.checkAchievements GameplayService.achievementDefinitions
  simp only [List.foldl_cons, List.foldl_nil]
  exact List.Subset.trans (step _ _) (step _ _)

theorem increasePossession_achievements (now amount : ℚ) (s : Store) :
    (increasePossession now amount s).2.achievements = s.achievements := by
  obtain ⟨level, st, timer, last, queued, h⟩ := increasePossession_frame now amount s
  rw [h]

theorem decreasePossession_achievements (now amount : ℚ) (s : Store) :
    (decreasePossession now amount s).2.achievements = s.achievements := by
  obtain ⟨level, st, timer, last, queued, h⟩ := decreasePossession_frame now amount s
  rw [h]

theorem GameplayService.applyExorcism_achievements (now : ℚ) (kind : String) (amount : ℚ)
    (w : World) :
    (GameplayService.applyExorcism now kind amount w).store.achievements =
      w.store.achievements := by
  unfold GameplayService.applyExorcism
  dsimp only
  exact decreasePossession_achievements now amount w.store

theorem GameplayService.performTextExorcism_subset (now : ℚ) (phrase : String) (w : World) :
    w.store.achievements ⊆
      (GameplayService.performTextExorcism now phrase w).2.store.achievements := by
  unfold GameplayService.performTextExorcism
  by_cases hcd : isExorcismOnCooldown now w.store "text" = true
  · rw [if_pos hcd]
    exact List.Subset.refl _
  · rw [if_neg hcd]
    by_cases hphrase : GameplayService.normalizedPhrase phrase = "begone spirit".data
    · rw [if_pos hphrase]
      dsimp only
      refine List.Subset.trans ?_ (GameplayService.checkAchievements_subset now _)
      simp only [dispatchEvent, GameplayService.triggerExorcismFlash,
        GameplayService.triggerCleansingEffect, recordEvent]
      split_ifs <;>
        exact subset_of_eq (GameplayService.applyExorcism_achievements now "text" 15 w).symm
    · rw [if_neg hphrase]
      exact List.Subset.refl _

theorem GameplayService.deleteCursedFile_subset (now : ℚ) (fileId : String) (w : World) :
    w.store.achievements ⊆
      (GameplayService.deleteCursedFile now fileId w).2.store.achievements := by
  unfold GameplayService.deleteCursedFile
  cases hidx : w.service.cursedFiles.findIdx? (fun f => f.id == fileId) with
  | none => exact List.Subset.refl _
  | some fileIndex =>
    dsimp only
    cases hfile : w.service.cursedFiles.get? fileIndex with
    | none => exact List.Subset.refl _
    | some file =>
      dsimp only
      by_cases hcd : isExorcismOnCooldown now w.store "file" = true
      · rw [if_pos hcd]
        exact List.Subset.refl _
      · rw [if_neg hcd]
        refine List.Subset.trans ?_ (GameplayService.checkAchievements_subset now _)
        simp only [dispatchEvent, recordEvent]
        exact subset_of_eq (GameplayService.applyExorcism_achievements now "file" file.possessionValue
          _).symm

theorem GameplayService.performPuzzleExorcism_subset (now : ℚ) (puzzleId : String)
    (solution : Json) (w : World) :
    w.store.achievements ⊆
      (GameplayService.performPuzzleExorcism now puzzleId solution w).2.store.achievements := by
  unfold GameplayService.performPuzzleExorcism
  by_cases hcd : isExorcismOnCooldown now w.store "puzzle" = true
  · rw [if_pos hcd]
    exact List.Subset.refl _
  · rw [if_neg hcd]
    dsimp only
    by_cases hvalid : (GameplayService.validatePuzzleSolution now puzzleId solution
        w.service).1 = true
    · simp only [hvalid, Bool.not_true, Bool.false_eq_true, if_false]
      refine List.Subset.trans ?_ (GameplayService.checkAchievements_subset now _)
      simp only [dispatchEvent, GameplayService.triggerExorcismFlash,
        GameplayService.triggerCleansingEffect, recordEvent]
      split_ifs <;>
        exact subset_of_eq (GameplayService.applyExorcism_achievements now "puzzle" 20 _).symm
    · simp only [hvalid, Bool.not_false, if_true]
      exact List.Subset.refl _

theorem setDifficulty_achievements (mode : String) (w : World) :
    (setDifficulty mode w).store.achievements = w.store.achievements := by
  unfold setDifficulty
  by_cases h : mode ∉ ["tourist", "normal", "nightmare", "permadeath"]
  · rw [if_pos h]
  · rw [if_neg h, saveToLocalStorage_store]
    dsimp only
    split_ifs <;> rfl

theorem endSession_achievements (now : ℚ) (w : World) :
    (endSession now w).store.achievements = w.store.achievements := by
  obtain ⟨st, timer, saved, h⟩ := endSession_frame now w
  rw [h]

theorem triggerEnding_achievements (now : ℚ) (e : Ending) (w : World) :
    (triggerEnding now e w).store.achievements = w.store.achievements := by
  unfold triggerEnding
  simp only [dispatchEvent, saveToLocalStorage_store, endSession_achievements]
  rfl

theorem checkEndingConditions_achievements (now : ℚ) (w : World) :
    (checkEndingConditions now w).2.store.achievements = w.store.achievements := by
  unfold checkEndingConditions
  split
  · rfl
  · split_ifs
    · exact triggerEnding_achievements now _ w
    · split
      · rfl
      · split_ifs
        · exact triggerEnding_achievements now _ w
        · exact triggerEnding_achievements now _ w
        · rfl

theorem checkParanormalInvestigatorAchievement_subset (now : ℚ) (w : World) :
    w.store.achievements ⊆
      (checkParanormalInvestigatorAchievement now w).store.achievements := by
  unfold checkParanormalInvestigatorAchievement
  split_ifs
  · exact unlockAchievement_subset now _ _ _ w
  · exact List.Subset.refl _

theorem discoverEasterEgg_subset (now : ℚ) (eggId : String) (w : World) :
    w.store.achievements ⊆ (discoverEasterEgg now eggId w).2.store.achievements := by
  unfold discoverEasterEgg
  by_cases h : eggId ∈ w.store.discoveredEasterEggs
  · rw [if_pos h]
    exact List.Subset.refl _
  · rw [if_neg h]
    dsimp only [debouncedSave]
    exact checkParanormalInvestigatorAchievement_subset now
      { w with store := (recordEvent now "easter_egg_discovered" (.obj [("eggId", .str eggId)])
          { w.store with
            discoveredEasterEggs := setAdd w.store.discoveredEasterEggs eggId
            statistics :=
              { w.store.statistics with
                easterEggsFound := w.store.statistics.easterEggsFound + 1 } }) }

theorem updateCustomization_achievements (now : ℚ) (settings : Json) (w : World) :
    (updateCustomization now settings w).store.achievements = w.store.achievements := by
  unfold updateCustomization
  cases settings with
  | null => rfl
  | bool b => rw [saveToLocalStorage_store]; rfl
  | num n => rw [saveToLocalStorage_store]; rfl
  | str s => rw [saveToLocalStorage_store]; rfl
  | arr xs => rw [saveToLocalStorage_store]; rfl
  | obj fields => rw [saveToLocalStorage_store]; rfl

theorem beforeUnloadHandler_store (now : ℚ) (w : World) :
    (beforeUnloadHandler now w).store = w.store := by
  unfold beforeUnloadHandler
  split_ifs
  · dsimp only
    split <;> rfl
  · rfl

theorem loadFromLocalStorage_achievements (w : World) :
    (loadFromLocalStorage w).2.store.achievements =
      match w.savedProgress with
      | some (.json data) =>
        if data.truthy && data.isObject then (restoreAchievements data w.store).achievements
        else w.store.achievements
      | _ => w.store.achievements := by
  unfold loadFromLocalStorage
  cases w.savedProgress with
  | none => rfl
  | some item =>
    cases item with
    | empty => rfl
    | corrupt => rfl
    | json data =>
      dsimp only
      by_cases h : (data.truthy && data.isObject) = true
      · rw [h]
        simp only [Bool.not_true, Bool.false_eq_true, if_false, if_true]
        split_ifs <;> exact restore_achievements data w.store
      · rw [Bool.not_eq_true] at h
        rw [h]
        simp

theorem unsavedUnlockWorld_facts :
    unsavedUnlockWorld.store.achievements = ["paranormal_investigator"] ∧
    unsavedUnlockWorld.savedProgress = some (.json (snapshotData Store.fresh)) := by
  have hd : setDifficulty "normal" World.fresh =
      { World.fresh with savedProgress := some (.json (snapshotData Store.fresh)) } := by
    unfold setDifficulty
    rw [if_neg (by decide)]
    rfl
  unfold unsavedUnlockWorld
  rw [hd]
  refine ⟨?_, ?_⟩
  · rw [(unlockAchievement_locked _ _ _ _ _ (by simp [World.fresh, Store.fresh])).2.1]
    rfl
  · unfold unlockAchievement
    rw [if_neg (by simp [World.fresh, Store.fresh])]
    rfl

/-- C21, as stated, fails for `loadFromLocalStorage`: after the progress was saved with no
achievement and `paranormal_investigator` was then unlocked by the store action (which
only schedules a save), `loadFromLocalStorage()` replaces the achievements by the saved,
empty set. -/
theorem ledger_load_counterexample :
    unsavedUnlockWorld.store.achievements = ["paranormal_investigator"] ∧
    (loadFromLocalStorage unsavedUnlockWorld).1 = true ∧
    (loadFromLocalStorage unsavedUnlockWorld).2.store.achievements = [] ∧
    ¬ (unsavedUnlockWorld.store.achievements ⊆
      (runOperation 3000 .loadFromLocalStorage unsavedUnlockWorld).store.achievements) := by
  obtain ⟨hach, hsaved⟩ := unsavedUnlockWorld_facts
  have hload := loadFromLocalStorage_object (snapshotData Store.fresh) unsavedUnlockWorld
    hsaved rfl
  have hempty : (loadFromLocalStorage unsavedUnlockWorld).2.store.achievements = [] := by
    rw [hload]
    dsimp only
    rw [restore_achievements]
    rfl
  refine ⟨hach, ?_, hempty, ?_⟩
  · have hquiet : getStatisticsThrows
        (restore (snapshotData Store.fresh) unsavedUnlockWorld.store) = false :=
      getStatisticsThrows_of_nil _
        (restore_snapshotWith_eventsHistory [] Store.fresh unsavedUnlockWorld.store)
    rw [hload, hquiet]
    rfl
  intro hsub
  have hmem : "paranormal_investigator" ∈
      (loadFromLocalStorage unsavedUnlockWorld).2.store.achievements :=
    hsub (by rw [hach]; exact List.mem_singleton_self _)
  rw [hempty] at hmem
  exact absurd hmem (List.not_mem_nil _)

theorem restoreAchievements_of_array (data : Json) (xs : List Json) (s : Store)
    (h : data.get "achievements" = some (.arr xs)) :
    (restoreAchievements data s).achievements = setOf (stringsOf xs) := by
  unfold restoreAchievements
  rw [h]

theorem restoreAchievements_of_other (data : Json) (s : Store)
    (h : ∀ xs, data.get "achievements" ≠ some (.arr xs)) :
    (restoreAchievements data s).achievements = s.achievements := by
  unfold restoreAchievements
  split
  · next xs hxs => exact absurd hxs (h xs)
  · rfl

theorem isObject_of_get (data : Json) (key : String) (v : Json) (h : data.get key = some v) :
    data.truthy = true ∧ data.isObject = true := by
  cases data with
  | obj fields => exact ⟨rfl, rfl⟩
  | null => simp [Json.get] at h
  | bool b => simp [Json.get] at h
  | num n => simp [Json.get] at h
  | str s => simp [Json.get] at h
  | arr xs => simp [Json.get] at h

/-- C21 (amended). The achievement ledger only grows under every operation other than
`clearProgress` and `loadFromLocalStorage`: for `unlockAchievement` (store and service),
`checkAchievements`, `discoverEasterEgg`, the three exorcisms, the possession mutations
and the escalation tick, `setDifficulty`, `checkEndingConditions`, `endSession`,
`updateCustomization`, `saveToLocalStorage` and the `beforeunload` listener, the
achievements after the operation include those before it.  `loadFromLocalStorage` replaces
the set by the string elements of the saved snapshot's `achievements` array when there is
one, and leaves it unchanged otherwise. -/
theorem ledger_only_grows (now : ℚ) (op : Operation) (w : World)
    (hload : op ≠ .loadFromLocalStorage) (hclear : op ≠ .clearProgress) :
    w.store.achievements ⊆ (runOperation now op w).store.achievements ∧
    (∀ data xs, w.savedProgress = some (.json data) →
      data.get "achievements" = some (.arr xs) →
      (runOperation now .loadFromLocalStorage w).store.achievements = setOf (stringsOf xs)) ∧
    ((∀ data xs, w.savedProgress = some (.json data) →
        data.get "achievements" ≠ some (.arr xs)) →
      (runOperation now .loadFromLocalStorage w).store.achievements =
        w.store.achievements) := by
  refine ⟨?_, ?_, ?_⟩
  · cases op with
    | unlockAchievement achievementId name description =>
      exact unlockAchievement_subset now achievementId name description w
    | serviceUnlockAchievement achievementId =>
      exact GameplayService.serviceUnlock_subset now achievementId w
    | checkAchievements => exact GameplayService.checkAchievements_subset now w
    | discoverEasterEgg eggId => exact discoverEasterEgg_subset now eggId w
    | performTextExorcism phrase => exact GameplayService.performTextExorcism_subset now phrase w
    | deleteCursedFile fileId => exact GameplayService.deleteCursedFile_subset now fileId w
    | performPuzzleExorcism puzzleId solution =>
      exact GameplayService.performPuzzleExorcism_subset now puzzleId solution w
    | increasePossession amount =>
      exact subset_of_eq (increasePossession_achievements now amount w.store).symm
    | decreasePossession amount =>
      exact subset_of_eq (decreasePossession_achievements now amount w.store).symm
    | setPossessionLevel level => exact List.Subset.refl _
    | escalationTick date =>
      exact subset_of_eq (increasePossession_achievements now _ w.store).symm
    | setDifficulty mode => exact subset_of_eq (setDifficulty_achievements mode w).symm
    | checkEndingConditions =>
      exact subset_of_eq (checkEndingConditions_achievements now w).symm
    | endSession => exact subset_of_eq (endSession_achievements now w).symm
    | updateCustomization settings =>
      exact subset_of_eq (updateCustomization_achievements now settings w).symm
    | saveToLocalStorage =>
      show w.store.achievements ⊆ (saveToLocalStorage w).store.achievements
      rw [saveToLocalStorage_store]
      exact List.Subset.refl _
    | beforeUnload =>
      show w.store.achievements ⊆ (beforeUnloadHandler now w).store.achievements
      rw [beforeUnloadHandler_store]
      exact List.Subset.refl _
    | loadFromLocalStorage => exact absurd rfl hload
    | clearProgress => exact absurd rfl hclear
  · intro data xs hsaved hget
    show (loadFromLocalStorage w).2.store.achievements = _
    obtain ⟨ht, ho⟩ := isObject_of_get data "achievements" _ hget
    rw [loadFromLocalStorage_achievements, hsaved]
    dsimp only
    rw [ht, ho]
    simp only [Bool.and_self, if_true]
    exact restoreAchievements_of_array data xs w.store hget
  · intro h
    show (loadFromLocalStorage w).2.store.achievements = _
    rw [loadFromLocalStorage_achievements]
    split
    · next data hsaved =>
      split_ifs
      · exact restoreAchievements_of_other data w.store (fun xs => h data xs hsaved)
      · rfl
    · rfl

theorem ledger_only_grows_witness :
    unsavedUnlockWorld.store.achievements ⊆
      (runOperation 3000 (.performTextExorcism "begone spirit")
        unsavedUnlockWorld).store.achievements :=
  (ledger_only_grows 3000 (.performTextExorcism "begone spirit") unsavedUnlockWorld
    (by intro h; cases h) (by intro h; cases h)).1

/-! ### C22: the bounded event history -/

theorem recordEvent_history (now : ℚ) (eventType : String) (data : Json) (s : Store) :
    (recordEvent now eventType data s).statistics.eventsHistory =
      if (s.statistics.eventsHistory ++ [eventObject now eventType data]).length > 100 then
        sliceLast 100 (s.statistics.eventsHistory ++ [eventObject now eventType data])
      else s.statistics.eventsHistory ++ [eventObject now eventType data] := rfl

/-- C22. Bounded FIFO event history: when `statistics.eventsHistory` has `n ≤ 100`
entries, after `recordEvent(type, data)` it has at most 100 entries and is the last
`min(100, n + 1)` entries of the old history followed by the new event: the old history
with the new event appended when `n < 100`, and the old history without its oldest entry
with the new event appended when `n = 100`. -/
theorem recordEvent_bounded_fifo (now : ℚ) (eventType : String) (data : Json) (s : Store)
    (h : s.statistics.eventsHistory.length ≤ 100) :
    (recordEvent now eventType data s).statistics.eventsHistory.length ≤ 100 ∧
    (recordEvent now eventType data s).statistics.eventsHistory.length =
      min 100 (s.statistics.eventsHistory.length + 1) ∧
    (recordEvent now eventType data s).statistics.eventsHistory =
      sliceLast (min 100 (s.statistics.eventsHistory.length + 1))
        (s.statistics.eventsHistory ++ [eventObject now eventType data]) ∧
    (s.statistics.eventsHistory.length < 100 →
      (recordEvent now eventType data s).statistics.eventsHistory =
        s.statistics.eventsHistory ++ [eventObject now eventType data]) ∧
    (s.statistics.eventsHistory.length = 100 →
      (recordEvent now eventType data s).statistics.eventsHistory =
        s.statistics.eventsHistory.tail ++ [eventObject now eventType data]) := by
  rw [recordEvent_history]
  by_cases hfull : s.statistics.eventsHistory.length = 100
  · have hlen : (s.statistics.eventsHistory ++ [eventObject now eventType data]).length > 100 := by
      simp [hfull]
    rw [if_pos hlen]
    have hslice : sliceLast 100 (s.statistics.eventsHistory ++ [eventObject now eventType data]) =
        s.statistics.eventsHistory.tail ++ [eventObject now eventType data] := by
      unfold sliceLast
      cases hh : s.statistics.eventsHistory with
      | nil => rw [hh] at hfull; simp at hfull
      | cons e rest =>
        rw [hh] at hfull
        simp only [List.length_cons] at hfull
        simp [hfull]
    refine ⟨?_, ?_, ?_, ?_, ?_⟩
    · rw [hslice]
      simp [hfull]
    · rw [hslice]
      simp [hfull]
    · rw [hfull]
      rfl
    · intro hlt
      omega
    · intro _
      exact hslice
  · have hlt : s.statistics.eventsHistory.length < 100 := by omega
    have hlen : ¬ (s.statistics.eventsHistory ++ [eventObject now eventType data]).length > 100 := by
      simp only [List.length_append, List.length_singleton]
      omega
    rw [if_neg hlen]
    refine ⟨?_, ?_, ?_, ?_, ?_⟩
    · simp only [List.length_append, List.length_singleton]
      omega
    · simp only [List.length_append, List.length_singleton]
      omega
    · unfold sliceLast
      have hmin : min 100 (s.statistics.eventsHistory.length + 1) =
          s.statistics.eventsHistory.length + 1 := by omega
      rw [hmin]
      simp
    · intro _
      rfl
    · intro hcontra
      exact absurd hcontra hfull

theorem fullHistoryStore_length : fullHistoryStore.statistics.eventsHistory.length = 100 := by
  simp [fullHistoryStore]

theorem recordEvent_bounded_fifo_witness :
    (recordEvent 5 "possession_increase" (.obj []) fullHistoryStore).statistics.eventsHistory.length
      ≤ 100 ∧
    (recordEvent 5 "possession_increase" (.obj []) fullHistoryStore).statistics.eventsHistory =
      fullHistoryStore.statistics.eventsHistory.tail ++
        [eventObject 5 "possession_increase" (.obj [])] :=
  have h := recordEvent_bounded_fifo 5 "possession_increase" (.obj []) fullHistoryStore
    (le_of_eq fullHistoryStore_length)
  ⟨h.1, h.2.2.2.2 fullHistoryStore_length⟩

/-! ### C26: out-of-range scare intensity -/

theorem updateCustomization_customization (now : ℚ) (settings : Json) (w : World)
    (h : settings ≠ .null) :
    (updateCustomization now settings w).store.customization =
      updatedCustomization settings w.store.customization := by
  unfold updateCustomization
  cases settings with
  | null => exact absurd rfl h
  | bool b => rw [saveToLocalStorage_store]; rfl
  | num n => rw [saveToLocalStorage_store]; rfl
  | str s => rw [saveToLocalStorage_store]; rfl
  | arr xs => rw [saveToLocalStorage_store]; rfl
  | obj fields => rw [saveToLocalStorage_store]; rfl

theorem updateCustomization_scareIntensity (now n : ℚ) (settings : Json) (w : World)
    (h : settings.get "scareIntensity" = some (.num n)) :
    (updateCustomization now settings w).store.customization.scareIntensity =
      max 0 (min 100 n) := by
  have hnull : settings ≠ .null := by
    intro hs
    rw [hs] at h
    simp [Json.get] at h
  rw [updateCustomization_customization now settings w hnull,
    updatedCustomization_scareIntensity, h]

theorem dimmedWorld_scareIntensity : dimmedWorld.store.customization.scareIntensity = 50 := by
  unfold dimmedWorld
  rw [updateCustomization_scareIntensity 1000 50 (.obj [("scareIntensity", .num 50)]) World.fresh rfl]
  norm_num

/-- C26, as stated, fails: with the scare intensity at 50,
`updateCustomization((scareIntensity: 150))` sets it to 100 and
`updateCustomization((scareIntensity: -1))` sets it to 0; neither leaves it at 50. -/
theorem scare_intensity_counterexample :
    dimmedWorld.store.customization.scareIntensity = 50 ∧
    (updateCustomization 2000 (.obj [("scareIntensity", .num 150)])
      dimmedWorld).store.customization.scareIntensity = 100 ∧
    (updateCustomization 2000 (.obj [("scareIntensity", .num (-1))])
      dimmedWorld).store.customization.scareIntensity = 0 ∧
    (updateCustomization 2000 (.obj [("scareIntensity", .num 150)])
      dimmedWorld).store.customization.scareIntensity ≠
        dimmedWorld.store.customization.scareIntensity := by
  have h150 : (updateCustomization 2000 (.obj [("scareIntensity", .num 150)])
      dimmedWorld).store.customization.scareIntensity = 100 := by
    rw [updateCustomization_scareIntensity 2000 150 (.obj [("scareIntensity", .num 150)])
      dimmedWorld rfl]
    norm_num
  refine ⟨dimmedWorld_scareIntensity, h150, ?_, ?_⟩
  · rw [updateCustomization_scareIntensity 2000 (-1) (.obj [("scareIntensity", .num (-1))])
      dimmedWorld rfl]
    norm_num
  · rw [h150, dimmedWorld_scareIntensity]
    norm_num

/-- C26 (amended). Out-of-range numeric settings are clamped, not rejected: for every
numeric `scareIntensity` `n`, `updateCustomization((scareIntensity: n, ..))` sets
`customization.scareIntensity` to `max(0, min(100, n))`: 100 for `n` above 100, 0 for `n`
below 0, and `n` itself inside the range. -/
theorem scare_intensity_clamped (now n : ℚ) (settings : Json) (w : World)
    (h : settings.get "scareIntensity" = some (.num n)) :
    (updateCustomization now settings w).store.customization.scareIntensity =
      max 0 (min 100 n) ∧
    (100 < n →
      (updateCustomization now settings w).store.customization.scareIntensity = 100) ∧
    (n < 0 → (updateCustomization now settings w).store.customization.scareIntensity = 0) ∧
    (0 ≤ n → n ≤ 100 →
      (updateCustomization now settings w).store.customization.scareIntensity = n) := by
  rw [updateCustomization_scareIntensity now n settings w h]
  refine ⟨rfl, ?_, ?_, ?_⟩
  · intro hn
    rw [min_eq_left (le_of_lt hn)]
    norm_num
  · intro hn
    rw [min_eq_right (by linarith), max_eq_left (le_of_lt hn)]
  · intro h0 h100
    rw [min_eq_right h100, max_eq_right h0]

theorem scare_intensity_clamped_witness :
    (updateCustomization 2000 (.obj [("scareIntensity", .num 150)])
      World.fresh).store.customization.scareIntensity = 100 :=
  (scare_intensity_clamped 2000 150 (.obj [("scareIntensity", .num 150)]) World.fresh
    rfl).2.1 (by norm_num)

/-! ### C23: the consumed warning -/

/-- C23. Consumed is recorded, not acted on: the `beforeunload` listener changes nothing
but the stored consumed warning (the store state, and `endingReached` in particular, are
untouched); it writes the warning `(timestamp, possessionLevel)` only if
`possessionLevel > 60` and `endingReached` is null, and in that case the warning is stored
whenever `localStorage` accepts the write.  So with no warning stored before and a
`localStorage` that accepts the write, a warning is stored afterwards iff the condition
holds. -/
theorem consumed_recorded_not_acted_on (now : ℚ) (w : World) :
    beforeUnloadHandler now w =
      { w with consumedWarning := (beforeUnloadHandler now w).consumedWarning } ∧
    (beforeUnloadHandler now w).store = w.store ∧
    (beforeUnloadHandler now w).store.endingReached = w.store.endingReached ∧
    (¬ consumedCondition w.store → beforeUnloadHandler now w = w) ∧
    (consumedCondition w.store → w.setItem (consumedWarningObject now w.store) = .ok →
      (beforeUnloadHandler now w).consumedWarning =
        some (.json (consumedWarningObject now w.store))) ∧
    (w.consumedWarning = none → w.setItem (consumedWarningObject now w.store) = .ok →
      ((beforeUnloadHandler now w).consumedWarning =
          some (.json (consumedWarningObject now w.store)) ↔
        consumedCondition w.store)) := by
  have hframe : beforeUnloadHandler now w =
      { w with consumedWarning := (beforeUnloadHandler now w).consumedWarning } := by
    unfold beforeUnloadHandler
    split_ifs
    · dsimp only
      split <;> rfl
    · rfl
  have hno : ¬ consumedCondition w.store → beforeUnloadHandler now w = w := by
    intro hc
    have hc1 : ¬ (w.store.possessionLevel > 60 ∧ w.store.endingReached = none) := hc
    unfold beforeUnloadHandler
    rw [if_neg hc1]
  have hyes : consumedCondition w.store →
      w.setItem (consumedWarningObject now w.store) = .ok →
      (beforeUnloadHandler now w).consumedWarning =
        some (.json (consumedWarningObject now w.store)) := by
    intro hc hok
    have hc1 : w.store.possessionLevel > 60 ∧ w.store.endingReached = none := hc
    have hok1 : w.setItem (Json.obj [("timestamp", .num now),
        ("possessionLevel", .num w.store.possessionLevel)]) = .ok := hok
    unfold beforeUnloadHandler
    rw [if_pos hc1]
    dsimp only
    rw [hok1]
    rfl
  refine ⟨hframe, ?_, ?_, hno, hyes, ?_⟩
  · rw [hframe]
  · rw [hframe]
  · intro hnone hok
    constructor
    · intro hstored
      by_contra hc
      rw [hno hc, hnone] at hstored
      exact absurd hstored (by simp)
    · intro hc
      exact hyes hc hok

theorem hauntedWorld_condition : consumedCondition hauntedWorld.store := by
  unfold consumedCondition hauntedWorld setPossessionLevel debouncedSave
  refine ⟨?_, rfl⟩
  norm_num [Store.fresh]

theorem consumed_recorded_not_acted_on_witness :
    (beforeUnloadHandler 5000 hauntedWorld).consumedWarning =
      some (.json (consumedWarningObject 5000 hauntedWorld.store)) ∧
    (beforeUnloadHandler 5000 hauntedWorld).store.endingReached = none :=
  have h := consumed_recorded_not_acted_on 5000 hauntedWorld
  ⟨h.2.2.2.2.1 hauntedWorld_condition rfl, h.2.2.1⟩

/-! ### C24: the visual corruption thresholds -/

theorem possessionWatcher_reached (random : ℚ) (s : Store) (level : ℚ) (oldLevel : Option ℚ)
    (vc : VisualCorruption) :
    (possessionWatcher random s level oldLevel vc).reached60 =
      (isFeatureEnabled s "visualCorruption" &&
        (decide (level ≥ 60) && oldLevelBelow oldLevel 60)) ∧
    (possessionWatcher random s level oldLevel vc).reached80 =
      (isFeatureEnabled s "visualCorruption" &&
        (decide (level ≥ 80) && oldLevelBelow oldLevel 80)) := by
  unfold possessionWatcher
  cases isFeatureEnabled s "visualCorruption" <;> simp

theorem oldLevelBelow_iff (oldLevel : Option ℚ) (boundary : ℚ) :
    oldLevelBelow oldLevel boundary = true ↔ ∃ old, oldLevel = some old ∧ old < boundary := by
  cases oldLevel <;> simp [oldLevelBelow]

theorem effectsOffWorld_disabled :
    isFeatureEnabled effectsOffWorld.store "visualCorruption" = false := by
  unfold isFeatureEnabled effectsOffWorld
  rw [updateCustomization_customization _ _ _ (by simp), updatedCustomization_enabledBehaviors]
  rfl

/-- C24, as stated, fails: once the `visualCorruption` behaviour has been switched off in
the customization, a change of the level from 50 to 65 does not fire the "possession
reached 60" trigger, and a change from 50 to 85 fires neither trigger, although the old
level is below the boundary and the new one is not. -/
theorem threshold_trigger_counterexample :
    isFeatureEnabled effectsOffWorld.store "visualCorruption" = false ∧
    (possessionWatcher 0 effectsOffWorld.store 65 (some 50) ⟨[], 30000⟩).reached60 = false ∧
    (possessionWatcher 0 effectsOffWorld.store 85 (some 50) ⟨[], 30000⟩).reached60 = false ∧
    (possessionWatcher 0 effectsOffWorld.store 85 (some 50) ⟨[], 30000⟩).reached80 = false := by
  refine ⟨effectsOffWorld_disabled, ?_, ?_, ?_⟩
  · rw [(possessionWatcher_reached _ _ _ _ _).1, effectsOffWorld_disabled]
    rfl
  · rw [(possessionWatcher_reached _ _ _ _ _).1, effectsOffWorld_disabled]
    rfl
  · rw [(possessionWatcher_reached _ _ _ _ _).2, effectsOffWorld_disabled]
    rfl

/-- C24 (amended). Threshold hysteresis: the "possession reached 60" trigger (and likewise
the 80 trigger) fires on a run of the watcher exactly when the `visualCorruption`
behaviour is enabled and old level < boundary <= new level (never on the immediate first
run, which has no old level); hence over every sequence of level changes, if it fires at
two changes, the level was below the boundary somewhere after the new level of the first
and up to the old level of the second. -/
theorem threshold_hysteresis (random : ℚ) (s : Store) (level : ℚ) (oldLevel : Option ℚ)
    (vc : VisualCorruption) (stores : ℕ → Store) (randoms : ℕ → ℚ)
    (vcs : ℕ → VisualCorruption) (i j : ℕ) (hij : i < j) :
    ((possessionWatcher random s level oldLevel vc).reached60 = true ↔
      isFeatureEnabled s "visualCorruption" = true ∧
        ∃ old, oldLevel = some old ∧ old < 60 ∧ 60 ≤ level) ∧
    ((possessionWatcher random s level oldLevel vc).reached80 = true ↔
      isFeatureEnabled s "visualCorruption" = true ∧
        ∃ old, oldLevel = some old ∧ old < 80 ∧ 80 ≤ level) ∧
    ((watcherRunAt stores randoms vcs i).reached60 = true →
      (watcherRunAt stores randoms vcs j).reached60 = true →
      ∃ k, i + 1 < k ∧ k ≤ j ∧ (stores k).possessionLevel < 60) ∧
    ((watcherRunAt stores randoms vcs i).reached80 = true →
      (watcherRunAt stores randoms vcs j).reached80 = true →
      ∃ k, i + 1 < k ∧ k ≤ j ∧ (stores k).possessionLevel < 80) := by
  have h60 : ∀ (random : ℚ) (s : Store) (level : ℚ) (oldLevel : Option ℚ)
      (vc : VisualCorruption),
      (possessionWatcher random s level oldLevel vc).reached60 = true ↔
        isFeatureEnabled s "visualCorruption" = true ∧
          ∃ old, oldLevel = some old ∧ old < 60 ∧ 60 ≤ level := by
    intro random s level oldLevel vc
    rw [(possessionWatcher_reached random s level oldLevel vc).1, Bool.and_eq_true,
      Bool.and_eq_true, oldLevelBelow_iff, decide_eq_true_eq]
    constructor
    · rintro ⟨he, hl, old, ho, hlt⟩
      exact ⟨he, old, ho, hlt, hl⟩
    · rintro ⟨he, old, ho, hlt, hl⟩
      exact ⟨he, hl, old, ho, hlt⟩
  have h80 : ∀ (random : ℚ) (s : Store) (level : ℚ) (oldLevel : Option ℚ)
      (vc : VisualCorruption),
      (possessionWatcher random s level oldLevel vc).reached80 = true ↔
        isFeatureEnabled s "visualCorruption" = true ∧
          ∃ old, oldLevel = some old ∧ old < 80 ∧ 80 ≤ level := by
    intro random s level oldLevel vc
    rw [(possessionWatcher_reached random s level oldLevel vc).2, Bool.and_eq_true,
      Bool.and_eq_true, oldLevelBelow_iff, decide_eq_true_eq]
    constructor
    · rintro ⟨he, hl, old, ho, hlt⟩
      exact ⟨he, old, ho, hlt, hl⟩
    · rintro ⟨he, old, ho, hlt, hl⟩
      exact ⟨he, hl, old, ho, hlt⟩
  refine ⟨h60 random s level oldLevel vc, h80 random s level oldLevel vc, ?_, ?_⟩
  · intro hi hj
    unfold watcherRunAt at hi hj
    obtain ⟨_, oldi, hoi, _, hnew⟩ := (h60 _ _ _ _ _).mp hi
    obtain ⟨_, oldj, hoj, hold, _⟩ := (h60 _ _ _ _ _).mp hj
    rw [← Option.some.inj hoj] at hold
    refine ⟨j, ?_, le_refl j, hold⟩
    rcases Nat.lt_or_ge (i + 1) j with hlt | hge
    · exact hlt
    · have heq : j = i + 1 := by omega
      rw [heq] at hold
      linarith
  · intro hi hj
    unfold watcherRunAt at hi hj
    obtain ⟨_, oldi, hoi, _, hnew⟩ := (h80 _ _ _ _ _).mp hi
    obtain ⟨_, oldj, hoj, hold, _⟩ := (h80 _ _ _ _ _).mp hj
    rw [← Option.some.inj hoj] at hold
    refine ⟨j, ?_, le_refl j, hold⟩
    rcases Nat.lt_or_ge (i + 1) j with hlt | hge
    · exact hlt
    · have heq : j = i + 1 := by omega
      rw [heq] at hold
      linarith

theorem threshold_hysteresis_witness :
    (possessionWatcher 0 Store.fresh 65 (some 50) ⟨[], 30000⟩).reached60 = true :=
  ((threshold_hysteresis 0 Store.fresh 65 (some 50) ⟨[], 30000⟩ (fun _ => Store.fresh)
    (fun _ => 0) (fun _ => ⟨[], 30000⟩) 0 1 (by decide)).1).mpr
    ⟨rfl, 50, rfl, by norm_num, by norm_num⟩

/-! ### C25: the moon phase at the reference full moon -/

theorem remOne_natCast (n : ℕ) : remOne (n : ℚ) = 0 := by
  unfold remOne
  rw [if_pos (Nat.cast_nonneg n)]
  have h : Int.floor ((n : ℚ)) = (n : ℤ) := by
    simp
  rw [h]
  simp

theorem lunarCycle_pos : 0 < lunarCycle := by
  unfold lunarCycle
  norm_num

theorem calculateMoonPhase_whole_cycles (date : JsDate) (n : ℕ) :
    calculateMoonPhase { date with time := knownFullMoon + n * lunarCycle } = 0 := by
  unfold calculateMoonPhase
  dsimp only
  have hc : (knownFullMoon + (n : ℚ) * lunarCycle - knownFullMoon) / lunarCycle = (n : ℚ) := by
    rw [add_sub_cancel_left, mul_div_assoc, div_self (ne_of_gt lunarCycle_pos), mul_one]
  rw [hc, remOne_natCast]
  norm_num

theorem calculateMoonPhase_quarter_cycle (date : JsDate) :
    calculateMoonPhase { date with time := knownFullMoon + lunarCycle / 4 } = 1 := by
  unfold calculateMoonPhase
  dsimp only
  have hc : (knownFullMoon + lunarCycle / 4 - knownFullMoon) / lunarCycle = 1 / 4 := by
    rw [add_sub_cancel_left, div_div, mul_comm, ← div_div,
      div_self (ne_of_gt lunarCycle_pos)]
  have hfloor : Int.floor ((1 : ℚ) / 4) = 0 := by
    rw [Int.floor_eq_iff]
    norm_num
  rw [hc]
  unfold remOne
  rw [if_pos (by norm_num), hfloor]
  norm_num [abs_of_neg, abs_of_pos]

/-- C25, the code at the reference: at the reference full moon `2023-01-06T00:00Z` and at
every whole number of lunar cycles after it, `calculateMoonPhase` returns 0, not 1, in
exact arithmetic, so `getCurrentSeasonalEvent()` does not report the Full Moon event
there, whatever the calendar fields; at the reference instant itself it reports no event
at all.  The value 1 is returned a quarter of a cycle after the reference. -/
theorem moon_phase_at_reference (date : JsDate) (n : ℕ) :
    calculateMoonPhase { date with time := knownFullMoon + n * lunarCycle } = 0 ∧
    getCurrentSeasonalEvent { date with time := knownFullMoon + n * lunarCycle } ≠
      some fullMoonEvent ∧
    calculateMoonPhase referenceFullMoonDate = 0 ∧
    getCurrentSeasonalEvent referenceFullMoonDate = none ∧
    calculateMoonPhase { date with time := knownFullMoon + lunarCycle / 4 } = 1 := by
  have hphase := calculateMoonPhase_whole_cycles date n
  have href : calculateMoonPhase referenceFullMoonDate = 0 := by
    have h := calculateMoonPhase_whole_cycles referenceFullMoonDate 0
    have hd : ({ referenceFullMoonDate with time := knownFullMoon + (0 : ℕ) * lunarCycle } :
        JsDate) = referenceFullMoonDate := by
      simp [referenceFullMoonDate, knownFullMoon]
    rw [hd] at h
    exact h
  refine ⟨hphase, ?_, href, ?_, calculateMoonPhase_quarter_cycle date⟩
  · unfold getCurrentSeasonalEvent
    rw [hphase]
    split_ifs with h1 h2 h3 h4
    · intro h
      have := congrArg (fun e => e.map SeasonalEvent.type) h
      simp [halloweenEvent, fullMoonEvent] at this
    · intro h
      have := congrArg (fun e => e.map SeasonalEvent.type) h
      simp [friday13Event, fullMoonEvent] at this
    · intro h
      have := congrArg (fun e => e.map SeasonalEvent.type) h
      simp [witchingHourEvent, fullMoonEvent] at this
    · norm_num at h4
    · simp
  · unfold getCurrentSeasonalEvent
    rw [href]
    have h1 : ¬ (referenceFullMoonDate.month = 9 ∧ referenceFullMoonDate.date = 31) := by
      simp [referenceFullMoonDate]
    have h2 : ¬ (referenceFullMoonDate.day = 5 ∧ referenceFullMoonDate.date = 13) := by
      simp [referenceFullMoonDate]
    have h3 : ¬ (referenceFullMoonDate.hours = 3 ∧ referenceFullMoonDate.minutes ≥ 33 ∧
        referenceFullMoonDate.minutes < 34) := by
      simp [referenceFullMoonDate]
    rw [if_neg h1, if_neg h2, if_neg h3, if_neg (by norm_num)]

/-! ### C28: the two Paranormal Investigator evaluators -/

theorem allDiscovered_iff (s : Store) :
    allDiscovered s = true ↔
      "konami_code" ∈ s.discoveredEasterEggs ∧ "secret_phrase" ∈ s.discoveredEasterEggs ∧
      "secret_coordinate" ∈ s.discoveredEasterEggs ∧
      "secret_wallpaper" ∈ s.discoveredEasterEggs := by
  simp [allDiscovered, and_assoc]

theorem GameplayService.checkParanormalInvestigatorCondition_iff (s : Store) :
    GameplayService.checkParanormalInvestigatorCondition s = true ↔
      "konami-code" ∈ s.discoveredEasterEggs ∧ "notepad-help" ∈ s.discoveredEasterEggs ∧
      "possession-66" ∈ s.discoveredEasterEggs ∧
      "secret-coordinate" ∈ s.discoveredEasterEggs := by
  unfold GameplayService.checkParanormalInvestigatorCondition
  simp only [decide_eq_true_eq, List.length_cons, List.length_nil]
  by_cases h1 : "konami-code" ∈ s.discoveredEasterEggs <;>
  by_cases h2 : "notepad-help" ∈ s.discoveredEasterEggs <;>
  by_cases h3 : "possession-66" ∈ s.discoveredEasterEggs <;>
  by_cases h4 : "secret-coordinate" ∈ s.discoveredEasterEggs <;>
  simp [List.filter_cons, h1, h2, h3, h4]

/-- C28, the code on the two lists: the two Paranormal Investigator evaluators check different
egg sets: with the four eggs of the store's list discovered, the store's all-discovered
test holds and `gameplayService.checkParanormalInvestigatorCondition()` is false; with the
four eggs of the service's list discovered, it is the other way round. -/
theorem paranormal_evaluators_differ :
    (allDiscovered storeEggsFound = true ∧
      GameplayService.checkParanormalInvestigatorCondition storeEggsFound = false) ∧
    (allDiscovered serviceEggsFound = false ∧
      GameplayService.checkParanormalInvestigatorCondition serviceEggsFound = true) := by
  refine ⟨⟨?_, ?_⟩, ?_, ?_⟩
  · rw [allDiscovered_iff]
    simp [storeEggsFound]
  · rw [← Bool.not_eq_true, GameplayService.checkParanormalInvestigatorCondition_iff]
    simp [storeEggsFound]
  · rw [← Bool.not_eq_true, allDiscovered_iff]
    simp [serviceEggsFound]
  · rw [GameplayService.checkParanormalInvestigatorCondition_iff]
    simp [serviceEggsFound]

/-! ### C29: the remaining cooldown -/

theorem GameplayService.getRemainingCooldown_of_some (now last : ℚ) (s : Store) (kind : String)
    (h : mapGet s.exorcismCooldowns kind = some last) (h0 : last ≠ 0) :
    GameplayService.getRemainingCooldown now s kind =
      ((Int.ceil (max 0 (120000 - (now - last)) / 1000) : ℤ) : ℚ) := by
  unfold GameplayService.getRemainingCooldown
  rw [h]
  dsimp only
  rw [if_neg h0]

/-- C29. The remaining cooldown is consistent with the cooldown predicate: for every kind
and time, `getRemainingCooldown(kind)` is 0 for a kind never performed and is greater than
0 iff `isExorcismOnCooldown(kind)` is true; and when the time is not earlier than the
recorded non-zero timestamp, it is an integer between 0 and 120. -/
theorem remaining_cooldown_consistent (now : ℚ) (s : Store) (kind : String) :
    (mapGet s.exorcismCooldowns kind = none →
      GameplayService.getRemainingCooldown now s kind = 0) ∧
    (0 < GameplayService.getRemainingCooldown now s kind ↔
      isExorcismOnCooldown now s kind = true) ∧
    (∀ last, mapGet s.exorcismCooldowns kind = some last → last ≠ 0 → last ≤ now →
      ∃ n : ℕ, n ≤ 120 ∧ GameplayService.getRemainingCooldown now s kind = (n : ℚ)) := by
  refine ⟨?_, ?_, ?_⟩
  · intro h
    unfold GameplayService.getRemainingCooldown
    rw [h]
  · cases h : mapGet s.exorcismCooldowns kind with
    | none =>
      unfold GameplayService.getRemainingCooldown isExorcismOnCooldown
      rw [h]
      simp
    | some last =>
      by_cases h0 : last = 0
      · unfold GameplayService.getRemainingCooldown isExorcismOnCooldown
        rw [h]
        simp [h0]
      · rw [GameplayService.getRemainingCooldown_of_some now last s kind h h0]
        unfold isExorcismOnCooldown
        rw [h]
        dsimp only
        rw [if_neg h0, decide_eq_true_eq, Int.cast_pos, Int.ceil_pos]
        constructor
        · intro hpos
          have hmax : 0 < max 0 (120000 - (now - last)) := by
            by_contra hcon
            have : max 0 (120000 - (now - last)) / 1000 ≤ 0 :=
              div_nonpos_of_nonpos_of_nonneg (not_lt.mp hcon) (by norm_num)
            linarith
          rcases lt_max_iff.mp hmax with hlt | hlt
          · exact absurd hlt (lt_irrefl 0)
          · linarith
        · intro hlt
          apply div_pos _ (by norm_num)
          exact lt_max_iff.mpr (Or.inr (by linarith))
  · intro last h h0 hle
    rw [GameplayService.getRemainingCooldown_of_some now last s kind h h0]
    have hnonneg : 0 ≤ max 0 (120000 - (now - last)) / 1000 :=
      div_nonneg (le_max_left _ _) (by norm_num)
    have hle120 : max 0 (120000 - (now - last)) / 1000 ≤ ((120 : ℤ) : ℚ) := by
      rw [div_le_iff₀ (by norm_num)]
      apply max_le
      · norm_num
      · push_cast
        linarith
    have hceil0 : 0 ≤ Int.ceil (max 0 (120000 - (now - last)) / 1000) := Int.ceil_nonneg hnonneg
    have hceil120 : Int.ceil (max 0 (120000 - (now - last)) / 1000) ≤ 120 :=
      Int.ceil_le.mpr hle120
    refine ⟨(Int.ceil (max 0 (120000 - (now - last)) / 1000)).toNat, ?_, ?_⟩
    · omega
    · have hcast : (((Int.ceil (max 0 (120000 - (now - last)) / 1000)).toNat : ℤ)) =
          Int.ceil (max 0 (120000 - (now - last)) / 1000) := Int.toNat_of_nonneg hceil0
      calc ((Int.ceil (max 0 (120000 - (now - last)) / 1000) : ℤ) : ℚ)
          = ((((Int.ceil (max 0 (120000 - (now - last)) / 1000)).toNat : ℕ) : ℤ) : ℚ) := by
            rw [hcast]
        _ = (((Int.ceil (max 0 (120000 - (now - last)) / 1000)).toNat : ℕ) : ℚ) :=
            Int.cast_natCast _

theorem remaining_cooldown_consistent_witness :
    ∃ n : ℕ, n ≤ 120 ∧
      GameplayService.getRemainingCooldown 1030500
        (GameplayService.performTextExorcism 1002000 "begone spirit" raisedWorld).2.store
        "text" = (n : ℚ) :=
  (remaining_cooldown_consistent 1030500
    (GameplayService.performTextExorcism 1002000 "begone spirit" raisedWorld).2.store
    "text").2.2 1002000
    (by
      rw [GameplayService.performTextExorcism_cooldowns 1002000 "begone spirit" raisedWorld
        (GameplayService.performTextExorcism_applied 1002000 "begone spirit" raisedWorld
          (raisedWorld_not_on_cooldown 1002000 "text") rfl).1]
      exact mapGet_mapSet_self _ _ _)
    (by norm_num) (by norm_num)

/-! ### C30: pruning and the span test -/

theorem sliceLast_five_of_append {α : Type} (l : List α) (x : α) (h : (l ++ [x]).length ≥ 5) :
    ∃ a b c d, sliceLast 5 (l ++ [x]) = [a, b, c, d, x] ∧ a ∈ l ++ [x] := by
  have hl : l.length ≥ 4 := by
    simp only [List.length_append, List.length_singleton] at h
    omega
  have hdrop : sliceLast 5 (l ++ [x]) = l.drop (l.length - 4) ++ [x] := by
    unfold sliceLast
    have e : (l ++ [x]).length - 5 = l.length - 4 := by
      simp only [List.length_append, List.length_singleton]
      omega
    rw [e, List.drop_append_of_le_length (by omega)]
  have hlen : (l.drop (l.length - 4)).length = 4 := by
    rw [List.length_drop]
    omega
  match hd : l.drop (l.length - 4), hlen with
  | [a, b, c, d], _ =>
    refine ⟨a, b, c, d, ?_, ?_⟩
    · rw [hdrop, hd]
      rfl
    · have hmem : a ∈ l.drop (l.length - 4) := by
        rw [hd]
        exact List.mem_cons_self _ _
      exact List.mem_append_left _ (List.mem_of_mem_drop hmem)

/-- C30. Pruning makes the span test redundant: immediately after any `recordExorcism`
call, whatever the history was before, `checkExorcistCondition()` is true iff
`exorcismHistory` has at least 5 entries, because every retained entry is newer than
`now - 180000` and the newest one is the entry just recorded, at `now`. -/
theorem pruning_makes_span_redundant (now : ℚ) (type : String) (g : GameplayService) :
    (GameplayService.checkExorcistCondition (GameplayService.recordExorcism now type g) = true ↔
      (GameplayService.recordExorcism now type g).exorcismHistory.length ≥ 5) ∧
    (∀ e ∈ (GameplayService.recordExorcism now type g).exorcismHistory,
      e.timestamp > now - 180000) ∧
    (GameplayService.recordExorcism now type g).exorcismHistory.getLast? =
      some { type := type, timestamp := now } := by
  have hhist := GameplayService.recordExorcism_history now type g
  have hretained : ∀ e ∈ (GameplayService.recordExorcism now type g).exorcismHistory,
      e.timestamp > now - 180000 := by
    intro e he
    rw [hhist, List.mem_append] at he
    rcases he with he | he
    · have := (List.mem_filter.mp he).2
      simpa using this
    · rw [List.mem_singleton] at he
      rw [he]
      simp
  refine ⟨?_, hretained, ?_⟩
  · unfold GameplayService.checkExorcistCondition
    by_cases hlen : (GameplayService.recordExorcism now type g).exorcismHistory.length ≥ 5
    · rw [if_pos hlen]
      simp only [hlen, iff_true]
      rw [hhist] at hlen
      obtain ⟨a, b, c, d, hslice, hmem⟩ := sliceLast_five_of_append _ _ hlen
      have ha := hretained a (by rw [hhist]; exact hmem)
      rw [hhist, hslice]
      simp only [decide_eq_true_eq]
      linarith
    · rw [if_neg hlen]
      simp [hlen]
  · rw [hhist]
    simp

/-! ### C27: puzzle validation -/

theorem GameplayService.symbols_match_iff (f : Json × String → Bool)
    (hf : ∀ x s, f (x, s) = true ↔ x = Json.str s) (xs : List Json) (sequence : List String)
    (hlen : xs.length = sequence.length) :
    (List.zip xs sequence).all f = true ↔ xs = sequence.map Json.str := by
  induction xs generalizing sequence with
  | nil =>
    cases sequence with
    | nil => simp
    | cons s rest => simp at hlen
  | cons x xs ih =>
    cases sequence with
    | nil => simp at hlen
    | cons s rest =>
      have hl : xs.length = rest.length := by simpa using hlen
      simp only [List.zip_cons_cons, List.all_cons, Bool.and_eq_true, List.map_cons,
        List.cons.injEq, ih rest hl, hf]

theorem GameplayService.validatePuzzleSolution_iff (now : ℚ) (puzzleId : String)
    (solution : Json) (g : GameplayService) :
    (GameplayService.validatePuzzleSolution now puzzleId solution g).1 = true ↔
      ∃ puzzle, g.currentPuzzle = some puzzle ∧ puzzle.id = puzzleId ∧
        now - puzzle.createdAt ≤ 30000 ∧ solution = solutionOf puzzle.sequence := by
  unfold GameplayService.validatePuzzleSolution solutionOf
  cases hp : g.currentPuzzle with
  | none => simp
  | some puzzle =>
    dsimp only
    by_cases hid : puzzle.id = puzzleId
    · rw [if_neg (not_not.mpr hid)]
      by_cases hexp : now - puzzle.createdAt > 30000
      · rw [if_pos hexp]
        simp only [Bool.false_eq_true, Option.some.injEq, exists_eq_left', false_iff, not_and]
        intro _ hle
        exact absurd hexp (not_lt.mpr hle)
      · rw [if_neg hexp]
        cases solution with
        | arr xs =>
          dsimp only
          by_cases hlen : xs.length = puzzle.sequence.length
          · rw [if_neg (not_not.mpr hlen)]
            split_ifs with hall
            · have hxs := (GameplayService.symbols_match_iff _
                (by intro x s; cases x <;> simp) xs puzzle.sequence hlen).mp hall
              simp only [Option.some.injEq, exists_eq_left', true_iff]
              exact ⟨hid, not_lt.mp hexp, by rw [hxs]⟩
            · simp only [Bool.false_eq_true, Option.some.injEq, exists_eq_left', false_iff,
                not_and]
              intro _ _ hsol
              apply hall
              exact (GameplayService.symbols_match_iff _
                (by intro x s; cases x <;> simp) xs puzzle.sequence hlen).mpr
                (Json.arr.inj hsol)
          · rw [if_pos hlen]
            simp only [Bool.false_eq_true, Option.some.injEq, exists_eq_left', false_iff,
              not_and]
            intro _ _ hsol
            apply hlen
            rw [Json.arr.inj hsol, List.length_map]
        | null => simp
        | bool b => simp
        | num n => simp
        | str s => simp
        | obj fields => simp
    · rw [if_pos hid]
      simp only [Bool.false_eq_true, Option.some.injEq, exists_eq_left', false_iff, not_and]
      intro h
      exact absurd h hid

theorem GameplayService.generateSymbolPuzzle_current (t0 : ℚ) (random : PuzzleRandom)
    (difficulty : String) (g : GameplayService) :
    (GameplayService.generateSymbolPuzzle t0 random difficulty g).2.currentPuzzle =
      some (GameplayService.generateSymbolPuzzle t0 random difficulty g).1 ∧
    (GameplayService.generateSymbolPuzzle t0 random difficulty g).1.createdAt = t0 := ⟨rfl, rfl⟩

/-- C27. Puzzle validation: `validatePuzzleSolution(id, solution)` returns true iff a
current puzzle with that id exists, at most 30000 ms have elapsed since it was created, and
`solution` is the array of the puzzle's symbols, element by element; so the sequence
returned by `generateSymbolPuzzle` validates up to 30 s after the call and yields `false`
after expiry. -/
theorem puzzle_validation (now : ℚ) (puzzleId : String) (solution : Json)
    (g : GameplayService) (t0 : ℚ) (random : PuzzleRandom) (difficulty : String) :
    ((GameplayService.validatePuzzleSolution now puzzleId solution g).1 = true ↔
      ∃ puzzle, g.currentPuzzle = some puzzle ∧ puzzle.id = puzzleId ∧
        now - puzzle.createdAt ≤ 30000 ∧ solution = solutionOf puzzle.sequence) ∧
    (now - t0 ≤ 30000 →
      (GameplayService.validatePuzzleSolution now
        (GameplayService.generateSymbolPuzzle t0 random difficulty g).1.id
        (solutionOf (GameplayService.generateSymbolPuzzle t0 random difficulty g).1.sequence)
        (GameplayService.generateSymbolPuzzle t0 random difficulty g).2).1 = true) ∧
    (now - t0 > 30000 →
      (GameplayService.validatePuzzleSolution now
        (GameplayService.generateSymbolPuzzle t0 random difficulty g).1.id
        (solutionOf (GameplayService.generateSymbolPuzzle t0 random difficulty g).1.sequence)
        (GameplayService.generateSymbolPuzzle t0 random difficulty g).2).1 = false) := by
  obtain ⟨hcur, hcreated⟩ :=
    GameplayService.generateSymbolPuzzle_current t0 random difficulty g
  refine ⟨GameplayService.validatePuzzleSolution_iff now puzzleId solution g, ?_, ?_⟩
  · intro hle
    rw [GameplayService.validatePuzzleSolution_iff]
    exact ⟨_, hcur, rfl, by rw [hcreated]; exact hle, rfl⟩
  · intro hgt
    rw [← Bool.not_eq_true, GameplayService.validatePuzzleSolution_iff]
    rintro ⟨puzzle, hp, _, hle, _⟩
    rw [hcur] at hp
    rw [← Option.some.inj hp, hcreated] at hle
    exact absurd hgt (not_lt.mpr hle)

theorem puzzle_validation_witness :
    (GameplayService.validatePuzzleSolution 1020000
      (GameplayService.generateSymbolPuzzle 1000000 sampleRandom "normal"
        GameplayService.fresh).1.id
      (solutionOf (GameplayService.generateSymbolPuzzle 1000000 sampleRandom "normal"
        GameplayService.fresh).1.sequence)
      (GameplayService.generateSymbolPuzzle 1000000 sampleRandom "normal"
        GameplayService.fresh).2).1 = true ∧
    (GameplayService.validatePuzzleSolution 1030001
      (GameplayService.generateSymbolPuzzle 1000000 sampleRandom "normal"
        GameplayService.fresh).1.id
      (solutionOf (GameplayService.generateSymbolPuzzle 1000000 sampleRandom "normal"
        GameplayService.fresh).1.sequence)
      (GameplayService.generateSymbolPuzzle 1000000 sampleRandom "normal"
        GameplayService.fresh).2).1 = false :=
  ⟨(puzzle_validation 1020000 "" .null GameplayService.fresh 1000000 sampleRandom
      "normal").2.1 (by norm_num),
   (puzzle_validation 1030001 "" .null GameplayService.fresh 1000000 sampleRandom
      "normal").2.2 (by norm_num)⟩

end NecroOS
